import Mathlib

/-!
# GymApp: authentication and token lifecycle

A shallow embedding of `internal/service/auth_service.go` and of the two
Postgres repositories it is wired to in `cmd/api/main.go`
(`internal/repository/postgres/user_repo.go`, `refresh_token_repo.go`),
together with the parts of the Go standard library, `golang-jwt/jwt/v5`,
`x/crypto/bcrypt` and `pgx` that these functions call.

Conventions of the embedding:

* Go `string` is `String`, `[]byte` is `Bytes`; `[]byte(s)` is `toBytes s` (UTF-8).
* `int64` values are `Int`; the only place where the width matters is the
  conversion `int64(float64)` (`int64OfFloat64`).
* `time.Time` is the number of nanoseconds since the Unix epoch; every call of
  `time.Now()` is an explicit argument of the function that makes it, in program
  order.
* A Go `error` is a `GoError`; a function returning `(T, error)` returns
  `Except GoError T`.
* The database behind the `pgxpool.Pool` is the explicit state `DB`; an error
  reported by the driver for a statement is the explicit argument `fault`.
* Cryptographic primitives that are not modelled (the SHA-2 compression
  functions, the bcrypt key derivation) and the local time zone are the fields
  of `Platform`.
-/

namespace GymApp

/-! ## Go values -/

/-- Go `[]byte`. -/
abbrev Bytes := List (Fin 256)

/-- UTF-8 encoding of one code point. -/
def utf8EncodeChar (c : Char) : Bytes :=
  let n := c.toNat
  if n < 0x80 then [Fin.ofNat n]
  else if n < 0x800 then [Fin.ofNat (0xC0 + n / 64), Fin.ofNat (0x80 + n % 64)]
  else if n < 0x10000 then
    [Fin.ofNat (0xE0 + n / 4096), Fin.ofNat (0x80 + n / 64 % 64), Fin.ofNat (0x80 + n % 64)]
  else
    [Fin.ofNat (0xF0 + n / 262144), Fin.ofNat (0x80 + n / 4096 % 64),
      Fin.ofNat (0x80 + n / 64 % 64), Fin.ofNat (0x80 + n % 64)]

/-- Go `[]byte(s)` for a list of code points. -/
def charsToBytes (cs : List Char) : Bytes := (cs.map utf8EncodeChar).flatten

/-- Go `[]byte(s)`. -/
def toBytes (s : String) : Bytes := charsToBytes s.data

/-- Go errors: `errors.New(msg)` or `fmt.Errorf(msg)` (`new`),
`fmt.Errorf(pfx + ": %w", cause)` (`wrap`), and an error that wraps two errors,
`fmt.Errorf("%w: %w", a, b)` (`join`). -/
inductive GoError where
  | new (msg : String)
  | wrap (pfx : String) (cause : GoError)
  | join (a b : GoError)
deriving DecidableEq, Repr

namespace GoError

/-- Go `err.Error()`. -/
def Error : GoError → String
  | new m => m
  | wrap p c => p ++ ": " ++ c.Error
  | join a b => a.Error ++ ": " ++ b.Error

/-- Go `errors.Is(e, target)`: `target` is `e` or is reachable from `e` by unwrapping. -/
def Is (e target : GoError) : Bool :=
  decide (e = target) ||
    match e with
    | new _ => false
    | wrap _ c => c.Is target
    | join a b => a.Is target || b.Is target

/-- The error `e` has `cause` as the error it directly wraps with `%w`. -/
def Wraps (e cause : GoError) : Prop := ∃ pfx, e = wrap pfx cause

end GoError

/-! ## Time -/

/-- Go `time.Time`: nanoseconds since January 1, 1970 UTC. -/
abbrev Time := Int

/-- Go `time.Duration`: nanoseconds. -/
abbrev Duration := Int

def Second : Duration := 1000000000
def Minute : Duration := 60 * Second
def Hour : Duration := 60 * Minute

/-- Go `t.Unix()`: seconds since the epoch, rounded down. -/
def Time.Unix (t : Time) : Int := t / 1000000000

/-- Go `t.Add(d)`. -/
def Time.Add (t : Time) (d : Duration) : Time := t + d

/-- The int64 with the bits of the integer `n`: Go's wrap-around of int64 arithmetic. -/
def wrapInt64 (n : Int) : Int := (n + 2 ^ 63) % 2 ^ 64 - 2 ^ 63

/-- The seconds from January 1 of year 1 to January 1, 1970: Go `unixToInternal`. -/
def unixToInternal : Int := 62135596800

/-- Go `time.Unix(sec, 0)`. A `time.Time` keeps the seconds since year 1 in an int64,
so the sum `sec + unixToInternal` wraps. -/
def Time.ofUnix (sec : Int) : Time :=
  (wrapInt64 (sec + unixToInternal) - unixToInternal) * 1000000000

/-- Go `time.Unix(sec, nsec)`: `nsec` is brought into the range of a second first. -/
def timeUnix (sec nsec : Int) : Time :=
  if nsec < 0 ∨ nsec ≥ 1000000000 then
    let n := Int.tdiv nsec 1000000000
    let sec := sec + n
    let nsec := nsec - n * 1000000000
    if nsec < 0 then Time.ofUnix (sec - 1) + (nsec + 1000000000)
    else Time.ofUnix sec + nsec
  else Time.ofUnix sec + nsec

/-- Go `t.Truncate(d)`: `t` rounded down to a multiple of `d` since January 1 of year 1. -/
def Time.Truncate (t : Time) (d : Duration) : Time :=
  if d ≤ 0 then t else t - (t + unixToInternal * 1000000000) % d

/-- Go `t.Before(u)`. -/
def Time.Before (t u : Time) : Bool := decide (t < u)

/-- Go `*time.Location`, reduced to what `Time.AddDate` reads: for a Unix second,
the zone's offset east of UTC in seconds and the half-open interval
`[start, end)` of Unix seconds in which that offset is in force. -/
structure Location where
  lookup : Int → Int × Int × Int

/-- Go `time.UTC`. -/
def UTC : Location := ⟨fun _ => (0, -(2 ^ 63), 2 ^ 63 - 1)⟩

/-- Go `t.AddDate(0, 0, days)` for a time in location `loc`: the wall clock reading is
moved by `days` calendar days and converted back to an instant the way
`time.Date` does it. -/
def Time.AddDate (loc : Location) (t : Time) (days : Int) : Time :=
  let sec := t.Unix
  let nsec := t % 1000000000
  let wall := sec + (loc.lookup sec).1 + days * 86400
  let (offset, start, stop) := loc.lookup wall
  let unix :=
    if offset ≠ 0 then
      let utc := wall - offset
      if utc < start ∨ utc ≥ stop then wall - (loc.lookup utc).1 else wall - offset
    else wall
  unix * 1000000000 + nsec

/-! ## float64 -/

/-- Halving `n` until it is zero, at most `fuel` times; the number of halvings. -/
def bitsAux : Nat → Nat → Nat
  | 0, _ => 0
  | fuel + 1, n => if n = 0 then 0 else bitsAux fuel (n / 2) + 1

/-- The number of binary digits of `n`. -/
def bitLength (n : Nat) : Nat := bitsAux n n

/-- The float64 nearest to the integer `n` (round to nearest, ties to even, 53-bit
significand), as an integer: what `encoding/json` stores for the number
literal `n` when it decodes into `interface{}`. -/
def roundToFloat64 (n : Int) : Int :=
  let a := n.natAbs
  if a ≤ 2 ^ 53 then n
  else
    let sh := bitLength a - 53
    let q := a / 2 ^ sh
    let r := a % 2 ^ sh
    let half := 2 ^ (sh - 1)
    let q1 := if r > half ∨ (r = half ∧ q % 2 = 1) then q + 1 else q
    if n < 0 then -((q1 * 2 ^ sh : Nat) : Int) else ((q1 * 2 ^ sh : Nat) : Int)

/-- A finite float64 value, the number `num / 2 ^ scale`; the float64 with the integer
value `n` is `⟨n, 0⟩`. -/
structure Float64 where
  num : Int
  scale : Nat
deriving DecidableEq, Repr

instance : Coe Int Float64 := ⟨fun n => ⟨n, 0⟩⟩

/-- Go `math.Trunc(f)`, the integer part of `f`, as an integer. -/
def Float64.trunc (f : Float64) : Int := Int.tdiv f.num (2 ^ f.scale)

/-- Go `int64(f)`: the integer part of `f`. Outside the int64 range the Go specification
leaves the result to the implementation; amd64 yields the minimum int64. -/
def int64OfFloat64 (f : Float64) : Int :=
  if -(2 ^ 63) ≤ f.trunc ∧ f.trunc < 2 ^ 63 then f.trunc else -(2 ^ 63)

/-- Halving `n` while it is even and `scale` is positive, at most `fuel` times: the
number `n / 2 ^ scale` in lowest terms. -/
def lowestTerms : Nat → Nat → Nat → Nat × Nat
  | 0, n, scale => (n, scale)
  | fuel + 1, n, scale =>
    if scale = 0 ∨ n % 2 = 1 then (n, scale) else lowestTerms fuel (n / 2) (scale - 1)

/-- The float64 nearest to `a / b`, for `b > 0`, as a pair `(n, p)` that stands for
`n * 2 ^ p`: round to nearest, ties to even, with a 53-bit significand and, below
`2 ^ -1022`, the spacing `2 ^ -1074` of the subnormal numbers. No upper limit is applied
here. -/
def nearestFloat64 (a b : Nat) : Nat × Int :=
  if a = 0 then (0, 0)
  else
    let e0 : Int := (bitLength a : Int) - (bitLength b : Int)
    let reached : Bool :=
      if 0 ≤ e0 then decide (b * 2 ^ e0.toNat ≤ a) else decide (b ≤ a * 2 ^ (-e0).toNat)
    let e : Int := if reached then e0 else e0 - 1
    let p : Int := max e (-1022) - 52
    let num : Nat := if 0 ≤ p then a else a * 2 ^ (-p).toNat
    let den : Nat := if 0 ≤ p then b * 2 ^ p.toNat else b
    let q := num / den
    let r := num % den
    let n := if den < 2 * r ∨ (2 * r = den ∧ q % 2 = 1) then q + 1 else q
    (n, p)

/-- The float64 value `n * 2 ^ p`, negated when `neg`. -/
def Float64.ofBinary (neg : Bool) (n : Nat) (p : Int) : Float64 :=
  if 0 ≤ p then
    ⟨if neg then -((n * 2 ^ p.toNat : Nat) : Int) else ((n * 2 ^ p.toNat : Nat) : Int), 0⟩
  else
    let (m, scale) := lowestTerms (-p).toNat n (-p).toNat
    ⟨if neg then -(m : Int) else (m : Int), scale⟩

/-- Go `strconv.ParseFloat(s, 64)` for the decimal number `mant * 10 ^ exp10`, negated
when `neg`: the nearest float64, `none` (a range error) when that is infinite. -/
def ParseFloat (neg : Bool) (mant : Nat) (exp10 : Int) : Option Float64 :=
  let (n, p) :=
    if 0 ≤ exp10 then nearestFloat64 (mant * 10 ^ exp10.toNat) 1
    else nearestFloat64 mant (10 ^ (-exp10).toNat)
  if 0 ≤ p ∧ 2 ^ 1024 ≤ n * 2 ^ p.toNat then none else some (Float64.ofBinary neg n p)

/-- The float64 product `x * y`. The model has no infinite float64; the one product the
program forms, of a fraction below 1 and `1e9`, is finite. -/
def Float64.mul (x y : Float64) : Float64 :=
  let (n, p) := nearestFloat64 (x.num * y.num).natAbs (2 ^ (x.scale + y.scale))
  Float64.ofBinary (decide (x.num * y.num < 0)) n p

/-- Go `math.Modf(f)`: the integer part and the fraction of `f`, both with the sign of
`f`. -/
def Modf (f : Float64) : Float64 × Float64 :=
  (⟨f.trunc, 0⟩, ⟨f.num - f.trunc * 2 ^ f.scale, f.scale⟩)

/-- The integers whose magnitude is at most `2^53`; float64 represents each exactly. -/
def Float64Exact (n : Int) : Prop := n.natAbs ≤ 2 ^ 53

instance (n : Int) : Decidable (Float64Exact n) := by unfold Float64Exact; infer_instance

/-! ## encoding/base64: `base64.RawURLEncoding` -/

/-- The character of the URL-safe alphabet for the 6-bit value `i`. -/
def b64Char (i : Nat) : Char :=
  if i < 26 then Char.ofNat (65 + i)
  else if i < 52 then Char.ofNat (97 + (i - 26))
  else if i < 62 then Char.ofNat (48 + (i - 52))
  else if i = 62 then '-' else '_'

/-- The 6-bit value of a character of the URL-safe alphabet. -/
def b64Val (c : Char) : Option Nat :=
  let n := c.toNat
  if 65 ≤ n ∧ n ≤ 90 then some (n - 65)
  else if 97 ≤ n ∧ n ≤ 122 then some (n - 71)
  else if 48 ≤ n ∧ n ≤ 57 then some (n + 4)
  else if c = '-' then some 62
  else if c = '_' then some 63
  else none

/-- Go `base64.RawURLEncoding.EncodeToString`. -/
def EncodeToString : Bytes → List Char
  | a :: b :: c :: rest =>
      b64Char (a.val / 4) :: b64Char (a.val % 4 * 16 + b.val / 16) ::
        b64Char (b.val % 16 * 4 + c.val / 64) :: b64Char (c.val % 64) :: EncodeToString rest
  | [a, b] => [b64Char (a.val / 4), b64Char (a.val % 4 * 16 + b.val / 16), b64Char (b.val % 16 * 4)]
  | [a] => [b64Char (a.val / 4), b64Char (a.val % 4 * 16)]
  | [] => []

/-- Decoding of the quanta of an unpadded base64 text. -/
def decodeQuanta : List Char → Option Bytes
  | w :: x :: y :: z :: rest => do
      let a ← b64Val w
      let b ← b64Val x
      let c ← b64Val y
      let d ← b64Val z
      let tl ← decodeQuanta rest
      pure (Fin.ofNat (a * 4 + b / 16) :: Fin.ofNat (b % 16 * 16 + c / 4) ::
        Fin.ofNat (c % 4 * 64 + d) :: tl)
  | [w, x, y] => do
      let a ← b64Val w
      let b ← b64Val x
      let c ← b64Val y
      pure [Fin.ofNat (a * 4 + b / 16), Fin.ofNat (b % 16 * 16 + c / 4)]
  | [w, x] => do
      let a ← b64Val w
      let b ← b64Val x
      pure [Fin.ofNat (a * 4 + b / 16)]
  | [_] => none
  | [] => some []

/-- Go `base64.RawURLEncoding.DecodeString`: carriage returns and line feeds are
skipped, trailing bits are not checked. -/
def DecodeString (s : List Char) : Option Bytes :=
  decodeQuanta (s.filter fun c => c ≠ '\r' ∧ c ≠ '\n')

/-! ## encoding/json

`json.Unmarshal` into a `map[string]interface{}`: the bytes are read as UTF-8, the text
is scanned into tokens and parsed. A number is stored as the float64 nearest to it, a
string with its escapes resolved; of an array or an object inside the outermost object
only the kind is kept, since the program reads no value inside one. -/

/-- A value stored in a `map[string]interface{}` by `json.Unmarshal`: a float64, a
string, a bool, nil, a `[]interface{}` or a `map[string]interface{}`. -/
inductive JVal where
  | num (v : Float64)
  | str (s : String)
  | bool (b : Bool)
  | null
  | array
  | object
deriving DecidableEq, Repr

/-- Go `map[string]interface{}` as decoded from JSON: the members in the order of the
text; a key that occurs twice has the value of its last occurrence. -/
abbrev JObject := List (String × JVal)

/-- Go `m[key]` with the comma-ok flag. -/
def JObject.get (m : JObject) (key : String) : Option JVal :=
  (m.reverse.find? fun kv => kv.1 = key).map Prod.snd

/-- Go `unicode.ReplacementChar`. -/
def replacementChar : Char := Char.ofNat 0xFFFD

/-- A UTF-8 sequence in progress: `need` more bytes are due, `seen` bytes were read after
the first, `value` is the code point so far, and the next byte must lie in `lo..hi`. -/
structure Pending where
  need : Nat
  seen : Nat
  value : Nat
  lo : Nat
  hi : Nat
deriving DecidableEq, Repr

/-- The sequence that the byte `b` starts, by the table of `unicode/utf8`; `none` for a
byte that starts no sequence of two to four bytes. -/
def leadByte (b : Nat) : Option Pending :=
  if 0xC2 ≤ b ∧ b ≤ 0xDF then some ⟨1, 0, b - 0xC0, 0x80, 0xBF⟩
  else if b = 0xE0 then some ⟨2, 0, 0, 0xA0, 0xBF⟩
  else if b = 0xED then some ⟨2, 0, 0xD, 0x80, 0x9F⟩
  else if 0xE1 ≤ b ∧ b ≤ 0xEF then some ⟨2, 0, b - 0xE0, 0x80, 0xBF⟩
  else if b = 0xF0 then some ⟨3, 0, 0, 0x90, 0xBF⟩
  else if 0xF1 ≤ b ∧ b ≤ 0xF3 then some ⟨3, 0, b - 0xF0, 0x80, 0xBF⟩
  else if b = 0xF4 then some ⟨3, 0, 4, 0x80, 0x8F⟩
  else none

/-- A byte read outside a sequence: the characters it yields and the sequence it
starts. A byte that is neither ASCII nor the start of a sequence yields the replacement
character. -/
def startByte (b : Nat) : List Char × Option Pending :=
  if b < 0x80 then ([Char.ofNat b], none)
  else
    match leadByte b with
    | some p => ([], some p)
    | none => ([replacementChar], none)

/-- The code points of a byte slice as `utf8.DecodeRune` yields them one after the other:
where no valid sequence starts, one byte is read as the replacement character. -/
def decodeRunes : Option Pending → Bytes → List Char
  | none, [] => []
  | some p, [] => List.replicate (1 + p.seen) replacementChar
  | none, b :: bs => (startByte b.val).1 ++ decodeRunes (startByte b.val).2 bs
  | some p, b :: bs =>
    if p.lo ≤ b.val ∧ b.val ≤ p.hi then
      if p.need = 1 then Char.ofNat (p.value * 64 + (b.val - 0x80)) :: decodeRunes none bs
      else
        decodeRunes
          (some ⟨p.need - 1, p.seen + 1, p.value * 64 + (b.val - 0x80), 0x80, 0xBF⟩) bs
    else
      List.replicate (1 + p.seen) replacementChar ++
        ((startByte b.val).1 ++ decodeRunes (startByte b.val).2 bs)

inductive Tok where
  | lbrace | rbrace | colon | comma
  | str (s : List Char)
  | num (neg : Bool) (n : Nat)
  | lit (v : JVal)
  | lbracket | rbracket
  | dec (neg : Bool) (mant : Nat) (exp10 : Int)
deriving DecidableEq, Repr

/-- The states of the scanner. In a string: `inStr` between characters, `inEsc` after a
backslash, `inHex` inside the four digits of a `\u` escape, `afterSurrogate` after a
`\u` escape whose value `unit` is a UTF-16 surrogate; `pending` is such a surrogate
read just before the escape at hand. In a number: `inNum` inside the integer digits,
`afterDot` and `inFrac` in the fraction, `afterE`, `afterESign` and `inExp` in the
exponent; `mant` is the value of all digits read so far and `fd` the number of those
after the point. -/
inductive LexState where
  | start
  | inStr (acc : List Char)
  | afterMinus
  | inNum (neg : Bool) (zero : Bool) (acc : Nat)
  | inLit (expect : List Char) (v : JVal)
  | inEsc (acc : List Char) (pending : Option Nat)
  | inHex (acc : List Char) (pending : Option Nat) (count : Nat) (value : Nat)
  | afterSurrogate (acc : List Char) (unit : Nat)
  | afterDot (neg : Bool) (mant : Nat)
  | inFrac (neg : Bool) (mant : Nat) (fd : Nat)
  | afterE (neg : Bool) (mant : Nat) (fd : Nat)
  | afterESign (neg : Bool) (mant : Nat) (fd : Nat) (eneg : Bool)
  | inExp (neg : Bool) (mant : Nat) (fd : Nat) (eneg : Bool) (e : Nat)
deriving DecidableEq, Repr

def digitChar (d : Nat) : Char := Char.ofNat (48 + d)

def digitVal (c : Char) : Nat := c.toNat - 48

def isSpace (c : Char) : Bool := c = ' ' || c = '\t' || c = '\n' || c = '\r'

def consTok (t : Tok) (r : Option (List Tok)) : Option (List Tok) := r.map (t :: ·)

/-- The value of a hexadecimal digit. -/
def hexVal (c : Char) : Option Nat :=
  if c.isDigit then some (c.toNat - 48)
  else if 'a' ≤ c ∧ c ≤ 'f' then some (c.toNat - 87)
  else if 'A' ≤ c ∧ c ≤ 'F' then some (c.toNat - 55)
  else none

/-- Go `utf16.IsSurrogate`. -/
def isSurrogate (r : Nat) : Bool := 0xD800 ≤ r && r < 0xE000

/-- The characters of a string so far when a surrogate that found no partner is
pending: it is read as the replacement character. -/
def flushPending (acc : List Char) (pending : Option Nat) : List Char :=
  match pending with
  | some _ => replacementChar :: acc
  | none => acc

/-- The state after a `\u` escape with the value `r`: a high surrogate that is pending
and a low surrogate `r` make one character; any other surrogate waits for a partner. -/
def afterUnit (acc : List Char) (pending : Option Nat) (r : Nat) : LexState :=
  match pending with
  | some hi =>
    if hi < 0xDC00 ∧ 0xDC00 ≤ r ∧ r < 0xE000 then
      .inStr (Char.ofNat (0x10000 + (hi - 0xD800) * 0x400 + (r - 0xDC00)) :: acc)
    else if isSurrogate r then .afterSurrogate (replacementChar :: acc) r
    else .inStr (Char.ofNat r :: replacementChar :: acc)
  | none =>
    if isSurrogate r then .afterSurrogate acc r else .inStr (Char.ofNat r :: acc)

/-- The character that a backslash and `c` stand for, `u` apart. -/
def escapeChar (c : Char) : Option Char :=
  if c = '"' ∨ c = '\\' ∨ c = '/' then some c
  else if c = 'b' then some (Char.ofNat 8)
  else if c = 'f' then some (Char.ofNat 12)
  else if c = 'n' then some '\n'
  else if c = 'r' then some '\r'
  else if c = 't' then some '\t'
  else none

/-- The exponent of ten of a number with `fd` digits after the point and the exponent
`e`, negative when `eneg`. -/
def exp10 (fd : Nat) (eneg : Bool) (e : Nat) : Int :=
  (if eneg then -(e : Int) else (e : Int)) - (fd : Int)

/-- The scanner: one character per step. `inNum neg zero acc` is inside a number whose
digits so far have the value `acc` (`zero`: they are the single digit 0, which no digit
may follow); `inLit expect v` is inside `true`, `false` or `null`. -/
def lex : LexState → List Char → Option (List Tok)
  | .start, [] => some []
  | .start, c :: cs =>
      if c.isDigit then lex (.inNum false (c = '0') (digitVal c)) cs
      else if c = '-' then lex .afterMinus cs
      else if c = '"' then lex (.inStr []) cs
      else if c = '{' then consTok .lbrace (lex .start cs)
      else if c = '}' then consTok .rbrace (lex .start cs)
      else if c = ':' then consTok .colon (lex .start cs)
      else if c = ',' then consTok .comma (lex .start cs)
      else if isSpace c then lex .start cs
      else if c = 't' then lex (.inLit ['r', 'u', 'e'] (.bool true)) cs
      else if c = 'f' then lex (.inLit ['a', 'l', 's', 'e'] (.bool false)) cs
      else if c = 'n' then lex (.inLit ['u', 'l', 'l'] .null) cs
      else if c = '[' then consTok .lbracket (lex .start cs)
      else if c = ']' then consTok .rbracket (lex .start cs)
      else none
  | .inLit _ _, [] => none
  | .inLit [] _, _ :: _ => none
  | .inLit (e :: es) v, c :: cs =>
      if c = e then
        if es = [] then consTok (.lit v) (lex .start cs) else lex (.inLit es v) cs
      else none
  | .inStr _, [] => none
  | .inStr acc, c :: cs =>
      if c = '"' then consTok (.str acc.reverse) (lex .start cs)
      else if c = '\\' then lex (.inEsc acc none) cs
      else if c.toNat < 0x20 then none
      else lex (.inStr (c :: acc)) cs
  | .afterSurrogate _ _, [] => none
  | .afterSurrogate acc unit, c :: cs =>
      if c = '"' then consTok (.str (replacementChar :: acc).reverse) (lex .start cs)
      else if c = '\\' then lex (.inEsc acc (some unit)) cs
      else if c.toNat < 0x20 then none
      else lex (.inStr (c :: replacementChar :: acc)) cs
  | .inEsc _ _, [] => none
  | .inEsc acc pending, c :: cs =>
      if c = 'u' then lex (.inHex acc pending 0 0) cs
      else
        match escapeChar c with
        | some x => lex (.inStr (x :: flushPending acc pending)) cs
        | none => none
  | .inHex _ _ _ _, [] => none
  | .inHex acc pending count value, c :: cs =>
      match hexVal c with
      | none => none
      | some h =>
        if count = 3 then lex (afterUnit acc pending (16 * value + h)) cs
        else lex (.inHex acc pending (count + 1) (16 * value + h)) cs
  | .afterMinus, [] => none
  | .afterMinus, c :: cs =>
      if c.isDigit then lex (.inNum true (c = '0') (digitVal c)) cs else none
  | .inNum neg _ acc, [] => some [.num neg acc]
  | .inNum neg zero acc, c :: cs =>
      if c.isDigit then
        if zero then none else lex (.inNum neg false (10 * acc + digitVal c)) cs
      else if c = ',' then consTok (.num neg acc) (consTok .comma (lex .start cs))
      else if c = '}' then consTok (.num neg acc) (consTok .rbrace (lex .start cs))
      else if isSpace c then consTok (.num neg acc) (lex .start cs)
      else if c = ']' then consTok (.num neg acc) (consTok .rbracket (lex .start cs))
      else if c = '.' then lex (.afterDot neg acc) cs
      else if c = 'e' ∨ c = 'E' then lex (.afterE neg acc 0) cs
      else none
  | .afterDot _ _, [] => none
  | .afterDot neg mant, c :: cs =>
      if c.isDigit then lex (.inFrac neg (10 * mant + digitVal c) 1) cs else none
  | .inFrac neg mant fd, [] => some [.dec neg mant (exp10 fd false 0)]
  | .inFrac neg mant fd, c :: cs =>
      if c.isDigit then lex (.inFrac neg (10 * mant + digitVal c) (fd + 1)) cs
      else if c = ',' then
        consTok (.dec neg mant (exp10 fd false 0)) (consTok .comma (lex .start cs))
      else if c = '}' then
        consTok (.dec neg mant (exp10 fd false 0)) (consTok .rbrace (lex .start cs))
      else if isSpace c then consTok (.dec neg mant (exp10 fd false 0)) (lex .start cs)
      else if c = ']' then
        consTok (.dec neg mant (exp10 fd false 0)) (consTok .rbracket (lex .start cs))
      else if c = 'e' ∨ c = 'E' then lex (.afterE neg mant fd) cs
      else none
  | .afterE _ _ _, [] => none
  | .afterE neg mant fd, c :: cs =>
      if c.isDigit then lex (.inExp neg mant fd false (digitVal c)) cs
      else if c = '+' then lex (.afterESign neg mant fd false) cs
      else if c = '-' then lex (.afterESign neg mant fd true) cs
      else none
  | .afterESign _ _ _ _, [] => none
  | .afterESign neg mant fd eneg, c :: cs =>
      if c.isDigit then lex (.inExp neg mant fd eneg (digitVal c)) cs else none
  | .inExp neg mant fd eneg e, [] => some [.dec neg mant (exp10 fd eneg e)]
  | .inExp neg mant fd eneg e, c :: cs =>
      if c.isDigit then lex (.inExp neg mant fd eneg (10 * e + digitVal c)) cs
      else if c = ',' then
        consTok (.dec neg mant (exp10 fd eneg e)) (consTok .comma (lex .start cs))
      else if c = '}' then
        consTok (.dec neg mant (exp10 fd eneg e)) (consTok .rbrace (lex .start cs))
      else if isSpace c then consTok (.dec neg mant (exp10 fd eneg e)) (lex .start cs)
      else if c = ']' then
        consTok (.dec neg mant (exp10 fd eneg e)) (consTok .rbracket (lex .start cs))
      else none

/-- The float64 of an integer literal; `none` when it overflows float64. -/
def numberValue (neg : Bool) (n : Nat) : Option JVal :=
  let v := roundToFloat64 (if neg then -(n : Int) else n)
  if v.natAbs < 2 ^ 1024 then some (.num v) else none

def tokValue : Tok → Option JVal
  | .str s => some (.str (String.mk s))
  | .num neg n => numberValue neg n
  | .lit v => some v
  | .dec neg mant e => (ParseFloat neg mant e).map .num
  | _ => none

/-- An array or an object that is open while the text is read. -/
inductive Container where
  | object | array
deriving DecidableEq, Repr

/-- What may come next: the first key of an object or its closing brace, a key, the
colon after a key, a value, the first element of an array or its closing bracket, what
follows a value inside a container (a comma or the end of the container), nothing. -/
inductive Expect where
  | firstKey | key | colon | value | firstElem | next | done
deriving DecidableEq, Repr

/-- Go `maxNestingDepth`: the scanner rejects a text with more open containers. -/
def maxNestingDepth : Nat := 10000

/-- The state of the parser: the open containers, innermost first, what may come next,
the members of the outermost object read so far, and the key of the member at hand. -/
structure ParseState where
  stack : List Container
  expect : Expect
  members : JObject
  key : String
deriving DecidableEq, Repr

/-- The state after a value `v` has ended with the containers `stack` open: with one
open container the value is a member of the outermost object. -/
def ParseState.endValue (st : ParseState) (stack : List Container) (v : JVal) : ParseState :=
  match stack with
  | [] => { st with stack := [], expect := .done }
  | [c] => { st with stack := [c], expect := .next, members := st.members ++ [(st.key, v)] }
  | c :: d :: rest => { st with stack := c :: d :: rest, expect := .next }

/-- The state after a container has been opened, if the nesting depth allows it. -/
def ParseState.push (st : ParseState) (c : Container) : Option ParseState :=
  if st.stack.length + 1 ≤ maxNestingDepth then
    some { st with
      stack := c :: st.stack
      expect := match c with
        | .object => .firstKey
        | .array => .firstElem }
  else none

/-- The state after the start of a value: a scalar ends at once, a brace or a bracket
opens a container. -/
def ParseState.beginValue (st : ParseState) (t : Tok) : Option ParseState :=
  match t with
  | .lbrace => st.push .object
  | .lbracket => st.push .array
  | t => (tokValue t).map fun v => st.endValue st.stack v

/-- One token. -/
def parseStep (st : ParseState) (t : Tok) : Option ParseState :=
  match st.expect, t, st.stack with
  | .firstKey, .rbrace, .object :: rest => some (st.endValue rest .object)
  | .firstKey, .str k, _ =>
      some { st with expect := .colon, key := if st.stack.length = 1 then String.mk k else st.key }
  | .key, .str k, _ =>
      some { st with expect := .colon, key := if st.stack.length = 1 then String.mk k else st.key }
  | .colon, .colon, _ => some { st with expect := .value }
  | .firstElem, .rbracket, .array :: rest => some (st.endValue rest .array)
  | .firstElem, t, _ => st.beginValue t
  | .value, t, _ => st.beginValue t
  | .next, .comma, .object :: _ => some { st with expect := .key }
  | .next, .comma, .array :: _ => some { st with expect := .value }
  | .next, .rbrace, .object :: rest => some (st.endValue rest .object)
  | .next, .rbracket, .array :: rest => some (st.endValue rest .array)
  | _, _, _ => none

/-- The tokens after the opening brace of the outermost object, up to the end of the
text: the members of that object. -/
def parseTokens : ParseState → List Tok → Option JObject
  | st, [] => if st.expect = .done then some st.members else none
  | st, t :: ts =>
    match parseStep st t with
    | none => none
    | some st => parseTokens st ts

/-- The map that a JSON text leaves in a `map[string]interface{}` that was empty: the
members of an object, nothing for `null`; any other value is an error. -/
def parseObject : List Tok → Option JObject
  | [.lit .null] => some []
  | .lbrace :: rest => parseTokens ⟨[.object], .firstKey, [], ""⟩ rest
  | _ => none

/-- Go `json.Unmarshal(data, &m)` for `m` an empty `map[string]interface{}`: the bytes
are read as code points, scanned and parsed; `none` is an error. -/
def Unmarshal (data : Bytes) : Option JObject := do
  let toks ← lex .start (decodeRunes none data)
  parseObject toks

/-- The decimal digits of `n`, least significant first, at most `fuel` of them. -/
def digitsAux : Nat → Nat → List Nat
  | 0, _ => []
  | fuel + 1, n => if n = 0 then [] else n % 10 :: digitsAux fuel (n / 10)

/-- The decimal digits of `n`, least significant first; none for 0. -/
def decimalDigits (n : Nat) : List Nat := digitsAux n n

/-- Go `strconv.FormatInt(n, 10)`: how `json.Marshal` writes an integer. -/
def formatInt (n : Int) : List Char :=
  let ds := if n = 0 then ['0'] else ((decimalDigits n.natAbs).reverse.map digitChar)
  if n < 0 then '-' :: ds else ds

/-! ## crypto/hmac -/

/-- Go `hmac.New(h, key)` followed by `Write(msg)` and `Sum(nil)`, for a hash function
`H` with the given block size: a key longer than a block is hashed first, the key is
then padded with zero bytes to one block. -/
def hmac (H : Bytes → Bytes) (blockSize : Nat) (key msg : Bytes) : Bytes :=
  let k0 := if key.length > blockSize then H key else key
  let k := (k0 ++ List.replicate blockSize 0).take blockSize
  H (k.map (· ^^^ 0x5c) ++ H (k.map (· ^^^ 0x36) ++ msg))

/-! ## The platform -/

/-- What the program is linked to and runs on, and the embedding does not define:
the SHA-2 hash functions, the bcrypt key derivation with its hash text format, and the
local time zone. `bcryptVerify_bcryptHash` is the contract of bcrypt: a hash text
generated from a password verifies against that password. -/
structure Platform where
  sha256 : Bytes → Bytes
  sha384 : Bytes → Bytes
  sha512 : Bytes → Bytes
  bcryptHash : (cost : Nat) → (salt : Bytes) → (password : Bytes) → String
  bcryptVerify : (hash : String) → (password : Bytes) → Bool
  bcryptVerify_bcryptHash : ∀ cost salt password,
    bcryptVerify (bcryptHash cost salt password) password = true
  Local : Location

/-! ## golang.org/x/crypto/bcrypt -/

def ErrPasswordTooLong : GoError := .new "bcrypt: password length exceeds 72 bytes"

def ErrMismatchedHashAndPassword : GoError :=
  .new "crypto/bcrypt: hashedPassword is not the hash of the given password"

def DefaultCost : Nat := 10

/-- Go `bcrypt.GenerateFromPassword(password, cost)`; `salt` is the random salt it
draws. Passwords longer than 72 bytes are rejected; a cost below the minimum 4 is
replaced by the default, a cost above the maximum 31 is an error. -/
def GenerateFromPassword (P : Platform) (salt : Bytes) (password : Bytes) (cost : Nat) :
    Except GoError String :=
  if password.length > 72 then .error ErrPasswordTooLong
  else
    let cost := if cost < 4 then DefaultCost else cost
    if cost > 31 then .error (.new "crypto/bcrypt: cost is outside allowed range (4,31)")
    else .ok (P.bcryptHash cost salt password)

/-- Go `bcrypt.CompareHashAndPassword(hashedPassword, password)`: `none` is the nil
error. -/
def CompareHashAndPassword (P : Platform) (hashedPassword : String) (password : Bytes) :
    Option GoError :=
  if P.bcryptVerify hashedPassword password then none else some ErrMismatchedHashAndPassword

/-! ## github.com/golang-jwt/jwt/v5 -/

def ErrTokenMalformed : GoError := .new "token is malformed"
def ErrTokenUnverifiable : GoError := .new "token is unverifiable"
def ErrTokenSignatureInvalid : GoError := .new "token signature is invalid"
def ErrTokenInvalidClaims : GoError := .new "token has invalid claims"
def ErrTokenExpired : GoError := .new "token is expired"
def ErrTokenNotValidYet : GoError := .new "token is not valid yet"
def ErrInvalidType : GoError := .new "invalid type for claim"
def ErrInvalidKeyType : GoError := .new "key is of invalid type"
def ErrSignatureInvalid : GoError := .new "signature is invalid"

/-- The claims `jwt.MapClaims{"sub": sub, "iat": iat, "exp": exp}` with int64 values, as
the service builds them. -/
structure IssuedClaims where
  sub : Int
  iat : Int
  exp : Int
deriving DecidableEq, Repr

/-- Go `json.Marshal` of the header `{"typ":"JWT","alg":"HS256"}` that
`jwt.NewWithClaims(jwt.SigningMethodHS256, _)` sets: map keys are written in sorted
order. -/
def headerJSON : List Char := "\x7b\"alg\":\"HS256\",\"typ\":\"JWT\"\x7d".data

/-- Go `json.Marshal` of the claims map: keys in sorted order, int64 values in
decimal. -/
def claimsJSON (c : IssuedClaims) : List Char :=
  "\x7b\"exp\":".data ++ formatInt c.exp ++ ",\"iat\":".data ++ formatInt c.iat ++
    ",\"sub\":".data ++ formatInt c.sub ++ "\x7d".data

/-- Go `token.SigningString()`: the encoded header and claims joined by a dot. -/
def SigningString (c : IssuedClaims) : List Char :=
  EncodeToString (charsToBytes headerJSON) ++ '.' :: EncodeToString (charsToBytes (claimsJSON c))

/-- Go `jwt.NewWithClaims(jwt.SigningMethodHS256, claims).SignedString(key)`. With a
`[]byte` key and integer claims neither the JSON encoding nor the HMAC can fail. -/
def SignedString (P : Platform) (c : IssuedClaims) (key : Bytes) : Except GoError String :=
  let sstr := SigningString c
  let sig := hmac P.sha256 64 key (charsToBytes sstr)
  .ok (String.mk (sstr ++ '.' :: EncodeToString sig))

/-- Go `strings.Split(s, ".")`. -/
def splitDot : List Char → List (List Char)
  | [] => [[]]
  | c :: cs =>
      if c = '.' then [] :: splitDot cs
      else
        match splitDot cs with
        | [] => [[c]]
        | p :: ps => (c :: p) :: ps

/-- The signing methods that the library registers. -/
inductive SigningMethod where
  | HS256 | HS384 | HS512
  | asymmetric
  | none
deriving DecidableEq, Repr

/-- Go `jwt.GetSigningMethod(alg)`; `none` when no method is registered under `alg`. -/
def GetSigningMethod (alg : String) : Option SigningMethod :=
  if alg = "HS256" then some .HS256
  else if alg = "HS384" then some .HS384
  else if alg = "HS512" then some .HS512
  else if alg ∈ ["RS256", "RS384", "RS512", "ES256", "ES384", "ES512",
      "PS256", "PS384", "PS512", "EdDSA"] then some .asymmetric
  else if alg = "none" then some .none
  else Option.none

/-- Go `method.Verify(signingString, sig, key)` for a `[]byte` key; `none` is the nil
error. The HMAC methods compare the signature with the recomputed tag; every other
method rejects the key. -/
def SigningMethod.Verify (P : Platform) (m : SigningMethod) (signingString sig key : Bytes) :
    Option GoError :=
  let check (tag : Bytes) : Option GoError :=
    if sig = tag then Option.none else some ErrSignatureInvalid
  match m with
  | .HS256 => check (hmac P.sha256 64 key signingString)
  | .HS384 => check (hmac P.sha384 128 key signingString)
  | .HS512 => check (hmac P.sha512 128 key signingString)
  | .asymmetric => some ErrInvalidKeyType
  | .none => some (.new "'none' signature type is not allowed")

/-- Go `newNumericDateFromSeconds(f)`: `NewNumericDate(time.Unix(int64(round),
int64(frac*1e9)))` for `round, frac := math.Modf(f)`, where `NewNumericDate` truncates
to `TimePrecision`, a second. -/
def newNumericDateFromSeconds (f : Float64) : Time :=
  let (round, frac) := Modf f
  (timeUnix (int64OfFloat64 round)
    (int64OfFloat64 (frac.mul ((1000000000 : Int) : Float64)))).Truncate Second

/-- Go `MapClaims.parseNumericDate(key)`: `ok none` when the claim is absent or is the
number 0, the instant for any other number, an error for a value that is not a
number. -/
def parseNumericDate (claims : JObject) (key : String) : Except GoError (Option Time) :=
  match claims.get key with
  | none => .ok none
  | some (.num v) =>
    if v.num = 0 then .ok none else .ok (some (newNumericDateFromSeconds v))
  | some _ => .error (.join ErrInvalidType (.new (key ++ " is invalid")))

/-- Go `Validator.verifyExpiresAt(claims, now, false)`. -/
def verifyExpiresAt (claims : JObject) (now : Time) : Option GoError :=
  match parseNumericDate claims "exp" with
  | .error e => some e
  | .ok none => none
  | .ok (some exp) => if now.Before exp then none else some ErrTokenExpired

/-- Go `Validator.verifyNotBefore(claims, now, false)`. -/
def verifyNotBefore (claims : JObject) (now : Time) : Option GoError :=
  match parseNumericDate claims "nbf" with
  | .error e => some e
  | .ok none => none
  | .ok (some nbf) => if !now.Before nbf then none else some ErrTokenNotValidYet

/-- Go `Validator.Validate(claims)` of a validator without options, at the instant
`now`: the expiry and the not-before claims are checked, the errors are joined. -/
def Validate (claims : JObject) (now : Time) : Option GoError :=
  match verifyExpiresAt claims now, verifyNotBefore claims now with
  | none, none => none
  | some e, none => some e
  | none, some e => some e
  | some e1, some e2 => some (.join e1 e2)

/-- Go `jwt.ParseWithClaims(tokenString, &claims, keyFunc)` with `claims` a
`jwt.MapClaims` and `keyFunc` returning the `[]byte` key; `now` is the `time.Now()` of
the claims validator. The steps, in order: three segments, header, claims, signing
method, signature, claims validation. -/
def ParseWithClaims (P : Platform) (tokenString : String) (key : Bytes) (now : Time) :
    Except GoError JObject :=
  match splitDot tokenString.data with
  | [h, c, s] =>
    match (DecodeString h).bind Unmarshal with
    | none => .error (.join ErrTokenMalformed (.new "could not decode header"))
    | some header =>
      match (DecodeString c).bind Unmarshal with
      | none => .error (.join ErrTokenMalformed (.new "could not decode claim"))
      | some claims =>
        match header.get "alg" with
        | some (.str alg) =>
          match GetSigningMethod alg with
          | none =>
              .error (.join ErrTokenUnverifiable (.new "signing method (alg) is unavailable"))
          | some method =>
            match DecodeString s with
            | none =>
                .error (.join ErrTokenMalformed (.new "could not base64 decode signature"))
            | some sig =>
              match method.Verify P (charsToBytes (h ++ '.' :: c)) sig key with
              | some e => .error (.join ErrTokenSignatureInvalid e)
              | none =>
                match Validate claims now with
                | some e => .error (.join ErrTokenInvalidClaims e)
                | none => .ok claims
        | _ => .error (.join ErrTokenUnverifiable (.new "signing method (alg) is unspecified"))
  | _ =>
    .error (.join ErrTokenMalformed (.new "token contains an invalid number of segments"))

/-! ## internal/domain -/

structure User where
  ID : Int
  Email : String
  PasswordHash : String
  Height : Int
  Weight : Int
  Goal : String
  CreatedAt : Int
deriving DecidableEq, Repr

structure RefreshToken where
  ID : Int
  UserID : Int
  Token : String
  ExpiresAt : Int
deriving DecidableEq, Repr

/-! ## internal/config -/

structure JWTConfig where
  AccessTokenTTL : Duration
  RefreshTokenTTL : Duration
  Secret : String
deriving DecidableEq, Repr

/-! ## The database behind the pool

The schema is not part of the sources; the tables are modelled from the statements of
the repositories: `users` and `refresh_tokens` with an `id` column filled from a
sequence, no other constraint. A statement for which the driver reports the error
`fault` leaves the tables as they are. -/

/-- A row of `refresh_tokens`. -/
structure RefreshTokenRow where
  id : Int
  user_id : Int
  token : String
  expires_at : Int
  created_at : Int
deriving DecidableEq, Repr

/-- The tables `users` (a row is a `User`: id, email, password_hash, height, weight,
goal, created_at) and `refresh_tokens`, rows in insertion order, and the last values
of the two `id` sequences. -/
structure DB where
  users : List User
  usersSeq : Int
  refresh_tokens : List RefreshTokenRow
  refreshTokensSeq : Int
deriving DecidableEq, Repr

/-- Go `pgx.ErrNoRows`. -/
def ErrNoRows : GoError := .new "no rows in result set"

/-- `INSERT INTO users (email, password_hash, height, weight, goal, created_at)
VALUES (...) RETURNING id`, scanned into the id. -/
def insertUser (db : DB) (fault : Option GoError) (u : User) : Except GoError Int × DB :=
  match fault with
  | some err => (.error err, db)
  | none =>
    let id := db.usersSeq + 1
    (.ok id, { db with users := db.users ++ [{ u with ID := id }], usersSeq := id })

/-- `SELECT id, email, password_hash, height, weight, goal, created_at FROM users
WHERE email = $1`, first row scanned. -/
def selectUserByEmail (db : DB) (fault : Option GoError) (email : String) :
    Except GoError User × DB :=
  match fault with
  | some err => (.error err, db)
  | none =>
    match db.users.find? (fun u => u.Email = email) with
    | some u => (.ok u, db)
    | none => (.error ErrNoRows, db)

/-- `INSERT INTO refresh_tokens (user_id, token, expires_at, created_at) VALUES (...)
RETURNING id`, scanned into the id. -/
def insertRefreshToken (db : DB) (fault : Option GoError)
    (user_id : Int) (token : String) (expires_at created_at : Int) : Except GoError Int × DB :=
  match fault with
  | some err => (.error err, db)
  | none =>
    let id := db.refreshTokensSeq + 1
    (.ok id, { db with
      refresh_tokens := db.refresh_tokens ++ [⟨id, user_id, token, expires_at, created_at⟩],
      refreshTokensSeq := id })

/-- `SELECT id, user_id, token, expires_at FROM refresh_tokens WHERE token = $1`, first
row scanned. -/
def selectRefreshTokenByToken (db : DB) (fault : Option GoError) (token : String) :
    Except GoError RefreshToken × DB :=
  match fault with
  | some err => (.error err, db)
  | none =>
    match db.refresh_tokens.find? (fun r => r.token = token) with
    | some r => (.ok ⟨r.id, r.user_id, r.token, r.expires_at⟩, db)
    | none => (.error ErrNoRows, db)

/-- `DELETE FROM refresh_tokens WHERE token = $1`; the result is `RowsAffected()`. -/
def deleteRefreshTokenByToken (db : DB) (fault : Option GoError) (token : String) :
    Except GoError Nat × DB :=
  match fault with
  | some err => (.error err, db)
  | none =>
    (.ok (db.refresh_tokens.countP (fun r => r.token = token)),
      { db with refresh_tokens := db.refresh_tokens.filter (fun r => ¬ r.token = token) })

/-- `DELETE FROM refresh_tokens WHERE expires_at < $1`. -/
def deleteRefreshTokensExpiredBefore (db : DB) (fault : Option GoError) (t : Int) :
    Except GoError Nat × DB :=
  match fault with
  | some err => (.error err, db)
  | none =>
    (.ok (db.refresh_tokens.countP (fun r => r.expires_at < t)),
      { db with refresh_tokens := db.refresh_tokens.filter (fun r => ¬ r.expires_at < t) })

/-! ## internal/repository/postgres/user_repo.go -/

namespace UserRepository

/-- `UserRepository.Create`: the error, the user as the call leaves it (`CreatedAt`
set, `ID` scanned on success) and the database. `now` is its `time.Now()`. -/
def Create (db : DB) (fault : Option GoError) (now : Time) (user : User) :
    Option GoError × User × DB :=
  let user := { user with CreatedAt := now.Unix }
  match insertUser db fault user with
  | (.error err, db) => (some (.wrap "failed to create user" err), user, db)
  | (.ok id, db) => (none, { user with ID := id }, db)

/-- `UserRepository.GetByEmail`: it returns either `(nil, err)`, here `.error err`, or
`(user, nil)`, here `.ok user`. -/
def GetByEmail (db : DB) (fault : Option GoError) (email : String) : Except GoError User × DB :=
  match selectUserByEmail db fault email with
  | (.error err, db) =>
    if err.Is ErrNoRows then (.error (.new "user not found"), db)
    else (.error (.wrap "failed to get user" err), db)
  | (.ok user, db) => (.ok user, db)

end UserRepository

/-! ## internal/repository/postgres/refresh_token_repo.go -/

namespace RefreshTokenRepository

/-- `RefreshTokenRepository.Create`: the error, the token as the call leaves it
(`ExpiresAt` set, `ID` scanned on success) and the database. `now1` and `now2` are its
two `time.Now()`. -/
def Create (P : Platform) (db : DB) (fault : Option GoError) (now1 now2 : Time)
    (rt : RefreshToken) : Option GoError × RefreshToken × DB :=
  let rt := { rt with ExpiresAt := (Time.AddDate P.Local now1 7).Unix }
  match insertRefreshToken db fault rt.UserID rt.Token rt.ExpiresAt now2.Unix with
  | (.error err, db) => (some (.wrap "failed to create refresh token" err), rt, db)
  | (.ok id, db) => (none, { rt with ID := id }, db)

/-- `RefreshTokenRepository.GetByToken`: it returns either `(nil, err)`, here
`.error err`, or `(rt, nil)`, here `.ok rt`. -/
def GetByToken (db : DB) (fault : Option GoError) (token : String) :
    Except GoError RefreshToken × DB :=
  match selectRefreshTokenByToken db fault token with
  | (.error err, db) =>
    if err.Is ErrNoRows then (.error (.new "token not found"), db)
    else (.error (.wrap "failed to get refresh token" err), db)
  | (.ok rt, db) => (.ok rt, db)

/-- `RefreshTokenRepository.DeleteByToken`. -/
def DeleteByToken (db : DB) (fault : Option GoError) (token : String) : Option GoError × DB :=
  match deleteRefreshTokenByToken db fault token with
  | (.error err, db) => (some (.wrap "failed to delete refresh token" err), db)
  | (.ok rowsAffected, db) =>
    if rowsAffected = 0 then (some (.new "token not found"), db) else (none, db)

/-- `RefreshTokenRepository.DeleteExpiredTokens`; `now` is its `time.Now()`. -/
def DeleteExpiredTokens (db : DB) (fault : Option GoError) (now : Time) : Option GoError × DB :=
  match deleteRefreshTokensExpiredBefore db fault now.Unix with
  | (.error err, db) => (some (.wrap "failed to delete expired tokens" err), db)
  | (.ok _, db) => (none, db)

end RefreshTokenRepository

/-! ## internal/service/auth_service.go

The service is wired to the two Postgres repositories above. A function returning
`(*domain.User, error)` returns `Option User × Option GoError` and the database; the
arguments before the Go arguments are, in program order, what the outside world
supplies during the call: driver faults, the bcrypt salt and the readings of
`time.Now()`. -/

structure AuthService where
  cfg : JWTConfig
deriving DecidableEq, Repr

namespace AuthService

/-- `AuthService.Register`. `getFault`: the driver error of the lookup, `salt`: the
salt bcrypt draws, `createNow`, `createFault`: the clock reading and the driver error of
`UserRepository.Create`. -/
def Register (P : Platform) (_s : AuthService) (db : DB) (getFault : Option GoError)
    (salt : Bytes) (createNow : Time) (createFault : Option GoError)
    (email password : String) : (Option User × Option GoError) × DB :=
  if email = "" ∨ password = "" then
    ((none, some (.new "email and password are required")), db)
  else
    match UserRepository.GetByEmail db getFault email with
    | (.ok _, db) => ((none, some (.new "email already registered")), db)
    | (.error _, db) =>
      match GenerateFromPassword P salt (toBytes password) DefaultCost with
      | .error err => ((none, some (.wrap "failed to hash password" err)), db)
      | .ok hash =>
        let user : User :=
          { ID := 0, Email := email, PasswordHash := hash, Height := 0, Weight := 0,
            Goal := "", CreatedAt := 0 }
        match UserRepository.Create db createFault createNow user with
        | (some err, _, db) => ((none, some (.wrap "failed to create user" err)), db)
        | (none, user, db) => ((some user, none), db)

/-- `AuthService.Login`. `getFault`: the driver error of the lookup. -/
def Login (P : Platform) (_s : AuthService) (db : DB) (getFault : Option GoError)
    (email password : String) : (Option User × Option GoError) × DB :=
  match UserRepository.GetByEmail db getFault email with
  | (.error _, db) => ((none, some (.new "invalid credentials")), db)
  | (.ok user, db) =>
    match CompareHashAndPassword P user.PasswordHash (toBytes password) with
    | some _ => ((none, some (.new "invalid credentials")), db)
    | none => ((some user, none), db)

/-- `AuthService.GenerateTokens`: the access token, the refresh token, the error, and
the database. `now`: its `time.Now()`; `createNow1`, `createNow2`, `createFault`: the
clock readings and the driver error of `RefreshTokenRepository.Create`. -/
def GenerateTokens (P : Platform) (s : AuthService) (db : DB) (now : Time)
    (createNow1 createNow2 : Time) (createFault : Option GoError) (userID : Int) :
    (String × String × Option GoError) × DB :=
  let accessClaims : IssuedClaims :=
    { sub := userID, iat := now.Unix, exp := (now.Add s.cfg.AccessTokenTTL).Unix }
  match SignedString P accessClaims (toBytes s.cfg.Secret) with
  | .error err => (("", "", some (.wrap "failed to sign access token" err)), db)
  | .ok accessTokenStr =>
    let refreshClaims : IssuedClaims :=
      { sub := userID, iat := now.Unix, exp := (now.Add s.cfg.RefreshTokenTTL).Unix }
    match SignedString P refreshClaims (toBytes s.cfg.Secret) with
    | .error err => (("", "", some (.wrap "failed to sign refresh token" err)), db)
    | .ok refreshTokenStr =>
      let rt : RefreshToken :=
        { ID := 0, UserID := userID, Token := refreshTokenStr, ExpiresAt := 0 }
      match RefreshTokenRepository.Create P db createFault createNow1 createNow2 rt with
      | (some err, _, db) => (("", "", some (.wrap "failed to store refresh token" err)), db)
      | (none, _, db) => ((accessTokenStr, refreshTokenStr, none), db)

/-- `AuthService.ValidateToken`: the user id and the error. `now`: the `time.Now()` of
the claims validator. -/
def ValidateToken (P : Platform) (s : AuthService) (now : Time) (token : String) :
    Int × Option GoError :=
  match ParseWithClaims P token (toBytes s.cfg.Secret) now with
  | .error err => (0, some (.wrap "invalid token" err))
  | .ok claims =>
    match claims.get "sub" with
    | none => (0, some (.new "invalid token: missing sub"))
    | some (.num userID) => (int64OfFloat64 userID, none)
    | some _ => (0, some (.new "invalid token: sub is not a number"))

/-- `AuthService.RefreshAccessToken`: the new access token, the error, and the
database. `parseNow`: the `time.Now()` of the claims validator, `getFault`: the driver
error of the lookup, `checkNow`, `iatNow`, `expNow`: the three later `time.Now()`. -/
def RefreshAccessToken (P : Platform) (s : AuthService) (db : DB) (parseNow : Time)
    (getFault : Option GoError) (checkNow iatNow expNow : Time) (refreshToken : String) :
    (String × Option GoError) × DB :=
  match ParseWithClaims P refreshToken (toBytes s.cfg.Secret) parseNow with
  | .error err => (("", some (.wrap "invalid refresh token" err)), db)
  | .ok claims =>
    match claims.get "sub" with
    | none => (("", some (.new "invalid token: missing sub")), db)
    | some (.num userID) =>
      match RefreshTokenRepository.GetByToken db getFault refreshToken with
      | (.error err, db) => (("", some (.wrap "refresh token not found" err)), db)
      | (.ok rt, db) =>
        if rt.ExpiresAt < checkNow.Unix then (("", some (.new "refresh token expired")), db)
        else
          let newClaims : IssuedClaims :=
            { sub := int64OfFloat64 userID, iat := iatNow.Unix,
              exp := (expNow.Add s.cfg.AccessTokenTTL).Unix }
          match SignedString P newClaims (toBytes s.cfg.Secret) with
          | .error err => (("", some (.wrap "failed to sign new token" err)), db)
          | .ok newAccessToken => ((newAccessToken, none), db)
    | some _ => (("", some (.new "invalid token: sub is not a number")), db)

end AuthService

/-- An instance of the platform on which the definitions can be evaluated: the three
hash functions are the identity, a bcrypt hash text is the prefix `$2a$10$` followed by
the password's bytes as characters, the local time zone is UTC. It stands for no real
platform; results that are stated for it do not depend on these choices unless they say
so. -/
def samplePlatform : Platform where
  sha256 := fun b => b
  sha384 := fun b => b
  sha512 := fun b => b
  bcryptHash := fun _ _ password =>
    String.mk ("$2a$10$".data ++ password.map fun b => Char.ofNat b.val)
  bcryptVerify := fun hash password =>
    decide (hash = String.mk ("$2a$10$".data ++ password.map fun b => Char.ofNat b.val))
  bcryptVerify_bcryptHash := by intros; simp
  Local := UTC

/-- A database with no rows. -/
def DB.empty : DB := ⟨[], 0, [], 0⟩

/-- A service configured like `config.Load` without `JWT_SECRET` in the environment. -/
def sampleService : AuthService :=
  ⟨{ AccessTokenTTL := 15 * Minute, RefreshTokenTTL := 7 * 24 * Hour,
     Secret := "your-secret-key-change-in-production" }⟩

/-- A password of 73 bytes. -/
def longPassword : String := String.mk (List.replicate 73 'a')

/-! ## Auxiliary definitions for the statements -/

/-- The two characters that end a number in the JSON text of issued claims. -/
inductive Delim where
  | comma | rbrace

def Delim.char : Delim → Char
  | .comma => ','
  | .rbrace => '}'

def Delim.tok : Delim → Tok
  | .comma => .comma
  | .rbrace => .rbrace

/-- The integer literal `n` decodes to a finite float64. -/
def Float64Finite (n : Int) : Prop := (roundToFloat64 n).natAbs < 2 ^ 1024

/-- An int64 value. -/
def IsInt64 (n : Int) : Prop := -(2 ^ 63) ≤ n ∧ n < 2 ^ 63

/-- The claims map that `json.Unmarshal` produces from the JSON text of issued claims:
every number is a float64. -/
def IssuedClaims.decoded (c : IssuedClaims) : JObject :=
  [("exp", .num (roundToFloat64 c.exp)), ("iat", .num (roundToFloat64 c.iat)),
    ("sub", .num (roundToFloat64 c.sub))]

/-- The three numbers of the claims decode to finite float64 values. -/
def IssuedClaims.Finite (c : IssuedClaims) : Prop :=
  Float64Finite c.exp ∧ Float64Finite c.iat ∧ Float64Finite c.sub

/-- The Unix seconds that the service writes into tokens issued at `now` (the issue
second and the two expiry seconds) are integers that float64 represents exactly. -/
def AuthService.ExactAt (s : AuthService) (now : Time) : Prop :=
  Float64Exact now.Unix ∧ Float64Exact (now.Add s.cfg.AccessTokenTTL).Unix ∧
    Float64Exact (now.Add s.cfg.RefreshTokenTTL).Unix

/-- The sample service with a zero byte appended to its secret. -/
def paddedSecretService : AuthService :=
  ⟨{ sampleService.cfg with Secret := sampleService.cfg.Secret ++ String.mk [Char.ofNat 0] }⟩

/-- The sample service with another secret. -/
def otherSecretService : AuthService :=
  ⟨{ sampleService.cfg with Secret := "another-secret" }⟩

/-- The sample service with a refresh horizon of one hour. -/
def shortRefreshService : AuthService :=
  ⟨{ sampleService.cfg with RefreshTokenTTL := 1 * Hour }⟩

/-- The instant of the examples: 2023-11-14 22:13:20 UTC. -/
def sampleNow : Time := Time.ofUnix 1700000000

/-- The Unix seconds that the service writes into tokens issued at `now` are int64
values, as they are in Go. -/
def AuthService.Int64At (s : AuthService) (now : Time) : Prop :=
  IsInt64 now.Unix ∧ IsInt64 (now.Add s.cfg.AccessTokenTTL).Unix ∧
    IsInt64 (now.Add s.cfg.RefreshTokenTTL).Unix

/-- The HMAC-SHA256 tags of the signing string of `c` under the secrets of `s1` and of
`s2` differ. -/
def TagsDiffer (P : Platform) (s1 s2 : AuthService) (c : IssuedClaims) : Prop :=
  hmac P.sha256 64 (toBytes s1.cfg.Secret) (charsToBytes (SigningString c)) ≠
    hmac P.sha256 64 (toBytes s2.cfg.Secret) (charsToBytes (SigningString c))

/-- The token text that `SignedString` returns for the claims `c` under `key`. -/
def signedToken (P : Platform) (c : IssuedClaims) (key : Bytes) : String :=
  String.mk (SigningString c ++ '.' ::
    EncodeToString (hmac P.sha256 64 key (charsToBytes (SigningString c))))

/-- The claims of the access token that the service issues for `userID` at `now`. -/
def AuthService.accessClaims (s : AuthService) (now : Time) (userID : Int) : IssuedClaims :=
  { sub := userID, iat := now.Unix, exp := (now.Add s.cfg.AccessTokenTTL).Unix }

/-- The claims of the refresh token that the service issues for `userID` at `now`. -/
def AuthService.refreshClaims (s : AuthService) (now : Time) (userID : Int) : IssuedClaims :=
  { sub := userID, iat := now.Unix, exp := (now.Add s.cfg.RefreshTokenTTL).Unix }

/-- The token text for an arbitrary claims text `payload`, with the header of
`SignedString`, signed under `key`. -/
def signedPayload (P : Platform) (payload : List Char) (key : Bytes) : String :=
  let sstr := EncodeToString (charsToBytes headerJSON) ++ '.' ::
    EncodeToString (charsToBytes payload)
  String.mk (sstr ++ '.' :: EncodeToString (hmac P.sha256 64 key (charsToBytes sstr)))

/-- The error is one of the invalid-token errors of `ValidateToken`: its message starts
with `invalid token`. -/
def IsInvalidTokenError (e : GoError) : Prop := "invalid token".data <+: e.Error.data

/-! ## internal/handler/http/auth_handler.go

A handler receives the outcome of `c.Bind(&req)` (`none`: the body could not be bound)
and returns what it hands to echo: a JSON response or an `*echo.HTTPError`. The further
arguments are those of the service calls it makes, in program order. -/

structure RegisterRequest where
  Email : String
  Password : String
deriving DecidableEq, Repr

structure LoginRequest where
  Email : String
  Password : String
deriving DecidableEq, Repr

structure RefreshRequest where
  RefreshToken : String
deriving DecidableEq, Repr

structure TokenResponse where
  AccessToken : String
  RefreshToken : String
  ExpiresIn : Int
deriving DecidableEq, Repr

/-- What a handler returns: `c.JSON(status, TokenResponse)`, the map
`access_token`, `expires_in` written by `Refresh`, or `echo.NewHTTPError(code, message)`. -/
inductive HandlerResult where
  | tokens (status : Nat) (body : TokenResponse)
  | accessToken (status : Nat) (access_token : String) (expires_in : Int)
  | httpError (code : Nat) (message : String)
deriving DecidableEq, Repr

/-- The HTTP status of the response. -/
def HandlerResult.status : HandlerResult → Nat
  | .tokens status _ => status
  | .accessToken status _ _ => status
  | .httpError code _ => code

def StatusOK : Nat := 200
def StatusCreated : Nat := 201
def StatusBadRequest : Nat := 400
def StatusUnauthorized : Nat := 401
def StatusInternalServerError : Nat := 500

namespace AuthHandler

/-- `AuthHandler.Register`. A nil user with a nil error, which the service never
returns, would be a nil dereference at `user.ID`; the `Recover` middleware installed in
`main` answers a panic with status 500. -/
def Register (P : Platform) (authService : AuthService) (db : DB)
    (req : Option RegisterRequest) (getFault : Option GoError) (salt : Bytes)
    (createNow : Time) (createFault : Option GoError) (now tokenNow1 tokenNow2 : Time)
    (tokenFault : Option GoError) : HandlerResult × DB :=
  match req with
  | none => (.httpError StatusBadRequest "invalid request", db)
  | some req =>
    match authService.Register P db getFault salt createNow createFault req.Email
        req.Password with
    | ((_, some err), db) => (.httpError StatusBadRequest err.Error, db)
    | ((none, none), db) => (.httpError StatusInternalServerError "Internal Server Error", db)
    | ((some user, none), db) =>
      match authService.GenerateTokens P db now tokenNow1 tokenNow2 tokenFault user.ID with
      | ((_, _, some _), db) =>
          (.httpError StatusInternalServerError "failed to generate tokens", db)
      | ((accessToken, refreshToken, none), db) =>
          (.tokens StatusCreated ⟨accessToken, refreshToken, 900⟩, db)

/-- `AuthHandler.Login`; for a nil user with a nil error see `Register`. -/
def Login (P : Platform) (authService : AuthService) (db : DB)
    (req : Option LoginRequest) (getFault : Option GoError)
    (now tokenNow1 tokenNow2 : Time) (tokenFault : Option GoError) : HandlerResult × DB :=
  match req with
  | none => (.httpError StatusBadRequest "invalid request", db)
  | some req =>
    match authService.Login P db getFault req.Email req.Password with
    | ((_, some _), db) => (.httpError StatusUnauthorized "invalid credentials", db)
    | ((none, none), db) => (.httpError StatusInternalServerError "Internal Server Error", db)
    | ((some user, none), db) =>
      match authService.GenerateTokens P db now tokenNow1 tokenNow2 tokenFault user.ID with
      | ((_, _, some _), db) =>
          (.httpError StatusInternalServerError "failed to generate tokens", db)
      | ((accessToken, refreshToken, none), db) =>
          (.tokens StatusOK ⟨accessToken, refreshToken, 900⟩, db)

/-- `AuthHandler.Refresh`. -/
def Refresh (P : Platform) (authService : AuthService) (db : DB)
    (req : Option RefreshRequest) (parseNow : Time) (getFault : Option GoError)
    (checkNow iatNow expNow : Time) : HandlerResult × DB :=
  match req with
  | none => (.httpError StatusBadRequest "invalid request", db)
  | some req =>
    match authService.RefreshAccessToken P db parseNow getFault checkNow iatNow expNow
        req.RefreshToken with
    | ((_, some _), db) => (.httpError StatusUnauthorized "invalid refresh token", db)
    | ((accessToken, none), db) => (.accessToken StatusOK accessToken 900, db)

end AuthHandler

/-! ## strings, strconv, os -/

/-- The text before and the text after the first occurrence of `sep`. -/
def cut (sep : Char) : List Char → Option (List Char × List Char)
  | [] => none
  | c :: cs =>
    if c = sep then some ([], cs)
    else match cut sep cs with
      | none => none
      | some (before, after) => some (c :: before, after)

/-- `strings.SplitN(s, sep, n)` for a separator of one character and `n ≥ 0`: at most
`n` pieces, the last one the unsplit remainder. -/
def SplitN (s : List Char) (sep : Char) : Nat → List (List Char)
  | 0 => []
  | 1 => [s]
  | n + 2 =>
    match cut sep s with
    | none => [s]
    | some (before, after) => before :: SplitN after sep (n + 1)

/-- The value of the decimal digits `ds` read after the value `acc`, if all of them are
digits. -/
def parseDigits (acc : Nat) : List Char → Option Nat
  | [] => some acc
  | c :: cs =>
    if '0' ≤ c ∧ c ≤ '9' then parseDigits (10 * acc + (c.toNat - '0'.toNat)) cs else none

/-- `strconv.Atoi` where `int` has 64 bits: an optional sign and one or more decimal
digits whose value is an int64; `none` is a syntax or range error. -/
def Atoi (s : String) : Option Int :=
  let (neg, ds) : Bool × List Char :=
    match s.data with
    | '-' :: rest => (true, rest)
    | '+' :: rest => (false, rest)
    | cs => (false, cs)
  if ds = [] then none
  else
    match parseDigits 0 ds with
    | none => none
    | some n =>
      let v : Int := if neg then -(n : Int) else n
      if -(2 ^ 63) ≤ v ∧ v < 2 ^ 63 then some v else none

/-- The process environment: the value of every variable that is set. -/
abbrev Environ := String → Option String

/-- `os.Getenv`: the value of the variable, empty when the variable is not set. -/
def Getenv (env : Environ) (key : String) : String := (env key).getD ""

/-! ## internal/config/config.go: Load -/

structure ServerConfig where
  Port : Int
  Env : String
deriving DecidableEq, Repr

structure DatabaseConfig where
  Host : String
  Port : Int
  User : String
  Password : String
  DBName : String
  SSLMode : String
deriving DecidableEq, Repr

structure AIConfig where
  APIKey : String
  BaseURL : String
  Model : String
deriving DecidableEq, Repr

structure Config where
  Server : ServerConfig
  Database : DatabaseConfig
  JWT : JWTConfig
  AI : AIConfig
deriving DecidableEq, Repr

/-- `getEnv`. -/
def getEnv (env : Environ) (key defaultValue : String) : String :=
  if Getenv env key ≠ "" then Getenv env key else defaultValue

/-- `getIntEnv`. -/
def getIntEnv (env : Environ) (key : String) (defaultValue : Int) : Int :=
  if Getenv env key ≠ "" then
    match Atoi (Getenv env key) with
    | some intVal => intVal
    | none => defaultValue
  else defaultValue

/-- `Load`, in the process environment `env`. -/
def Load (env : Environ) : Config :=
  { Server :=
      { Port := getIntEnv env "SERVER_PORT" 8080
        Env := getEnv env "ENV" "development" }
    Database :=
      { Host := getEnv env "DB_HOST" "localhost"
        Port := getIntEnv env "DB_PORT" 5432
        User := getEnv env "DB_USER" "postgres"
        Password := getEnv env "DB_PASSWORD" "postgres"
        DBName := getEnv env "DB_NAME" "gymapp"
        SSLMode := getEnv env "DB_SSLMODE" "disable" }
    JWT :=
      { AccessTokenTTL := 15 * Minute
        RefreshTokenTTL := 7 * 24 * Hour
        Secret := getEnv env "JWT_SECRET" "your-secret-key-change-in-production" }
    AI :=
      { APIKey := getEnv env "AI_API_KEY" ""
        BaseURL := getEnv env "AI_BASE_URL" "https://api.openai.com/v1"
        Model := getEnv env "AI_MODEL" "gpt-3.5-turbo" } }

/-- The environment in which no variable is set. -/
def emptyEnviron : Environ := fun _ => none

/-- The environment in which only `SERVER_PORT` is set, to the text `0`. -/
def zeroPortEnviron : Environ := fun key => if key = "SERVER_PORT" then some "0" else none

/-! ## internal/middleware/auth.go -/

/-- What the gate uses of an `echo.Context`: the value of the request header
`Authorization` (`none`: the request has no such header) and the int64 stored under
the key `userID` (`none`: nothing, or no int64, is stored there). -/
structure Context where
  Authorization : Option String
  userID : Option Int
deriving DecidableEq, Repr

/-- `c.Request().Header.Get("Authorization")`. -/
def Context.authHeader (c : Context) : String := c.Authorization.getD ""

/-- What the handler that `JWTAuth` builds returns: an `*echo.HTTPError`, or what the
next handler returns for the context it is called with. -/
inductive GateResult (α : Type) where
  | httpError (code : Nat) (message : String)
  | next (result : α)
deriving DecidableEq, Repr

/-- `JWTAuth(authService)(next)(c)`. `now`: the `time.Now()` of the claims validator. -/
def JWTAuth {α : Type} (P : Platform) (authService : AuthService) (now : Time)
    (next : Context → α) (c : Context) : GateResult α :=
  let authHeader := c.authHeader
  if authHeader = "" then .httpError 401 "missing authorization header"
  else
    match SplitN authHeader.data ' ' 2 with
    | [scheme, token] =>
      if scheme ≠ "Bearer".data then .httpError 401 "invalid authorization header format"
      else
        match authService.ValidateToken P now (String.mk token) with
        | (_, some err) => .httpError 401 ("invalid token: " ++ err.Error)
        | (userID, none) => .next (next { c with userID := some userID })
    | _ => .httpError 401 "invalid authorization header format"

/-- `GetUserID`. -/
def GetUserID (c : Context) : Int × Option GoError :=
  match c.userID with
  | some userID => (userID, none)
  | none => (0, some (.new "user id not found in context"))

/-! ## Further sample values -/

/-- A time zone with one change of offset: UTC+1 before the Unix second 1700000000 and
UTC+2 from it on. -/
def shiftZone : Location :=
  ⟨fun sec =>
    if sec < 1700000000 then (3600, -(2 ^ 63), 1700000000)
    else (7200, 1700000000, 2 ^ 63 - 1)⟩

/-- The sample platform with `shiftZone` as its local time zone. -/
def shiftPlatform : Platform := { samplePlatform with Local := shiftZone }

/-- The sample service with an access horizon equal to its refresh horizon. -/
def equalHorizonService : AuthService :=
  ⟨{ sampleService.cfg with AccessTokenTTL := 7 * 24 * Hour }⟩

/-- The store's rows all carry refresh tokens that the service issued. -/
def IssuedStore (P : Platform) (s : AuthService) (db : DB) : Prop :=
  ∀ r ∈ db.refresh_tokens, ∃ (t : Time) (u : Int),
    r.token = signedToken P (s.refreshClaims t u) (toBytes s.cfg.Secret)

/-! ## Lemmas on the libraries -/

theorem b64Val_b64Char (i : Nat) (h : i < 64) : b64Val (b64Char i) = some i := by
  interval_cases i <;> rfl

theorem b64Char_ne (i : Nat) (h : i < 64) :
    b64Char i ≠ '.' ∧ b64Char i ≠ '\r' ∧ b64Char i ≠ '\n' := by
  interval_cases i <;> decide

theorem decodeQuanta_EncodeToString (bs : Bytes) : decodeQuanta (EncodeToString bs) = some bs := by
  induction bs using EncodeToString.induct with
  | case1 a b c rest ih =>
    have ha := a.isLt; have hb := b.isLt; have hc := c.isLt
    simp only [EncodeToString, decodeQuanta]
    rw [b64Val_b64Char _ (by omega), b64Val_b64Char _ (by omega), b64Val_b64Char _ (by omega),
      b64Val_b64Char _ (by omega), ih]
    simp only [Option.bind_eq_bind, Option.some_bind, Option.pure_def, Option.some.injEq, List.cons.injEq, and_true]
    refine ⟨?_, ?_, ?_⟩ <;> (apply Fin.ext; simp [Fin.ofNat]; omega)
  | case2 a b =>
    have ha := a.isLt; have hb := b.isLt
    simp only [EncodeToString, decodeQuanta]
    rw [b64Val_b64Char _ (by omega), b64Val_b64Char _ (by omega), b64Val_b64Char _ (by omega)]
    simp only [Option.bind_eq_bind, Option.some_bind, Option.pure_def, Option.some.injEq, List.cons.injEq, and_true]
    refine ⟨?_, ?_⟩ <;> (apply Fin.ext; simp [Fin.ofNat]; omega)
  | case3 a =>
    have ha := a.isLt
    simp only [EncodeToString, decodeQuanta]
    rw [b64Val_b64Char _ (by omega), b64Val_b64Char _ (by omega)]
    simp only [Option.bind_eq_bind, Option.some_bind, Option.pure_def, Option.some.injEq, List.cons.injEq, and_true]
    apply Fin.ext; simp [Fin.ofNat]; omega
  | case4 => rfl
theorem EncodeToString_chars (bs : Bytes) :
    ∀ c ∈ EncodeToString bs, c ≠ '.' ∧ c ≠ '\r' ∧ c ≠ '\n' := by
  induction bs using EncodeToString.induct with
  | case1 a b c rest ih =>
    have ha := a.isLt; have hb := b.isLt; have hc := c.isLt
    intro x hx
    simp only [EncodeToString, List.mem_cons] at hx
    rcases hx with rfl | rfl | rfl | rfl | hx
    · exact b64Char_ne _ (by omega)
    · exact b64Char_ne _ (by omega)
    · exact b64Char_ne _ (by omega)
    · exact b64Char_ne _ (by omega)
    · exact ih x hx
  | case2 a b =>
    have ha := a.isLt; have hb := b.isLt
    intro x hx
    simp only [EncodeToString, List.mem_cons, List.mem_singleton, List.not_mem_nil, or_false] at hx
    rcases hx with rfl | rfl | rfl
    · exact b64Char_ne _ (by omega)
    · exact b64Char_ne _ (by omega)
    · exact b64Char_ne _ (by omega)
  | case3 a =>
    have ha := a.isLt
    intro x hx
    simp only [EncodeToString, List.mem_cons, List.mem_singleton, List.not_mem_nil, or_false] at hx
    rcases hx with rfl | rfl
    · exact b64Char_ne _ (by omega)
    · exact b64Char_ne _ (by omega)
  | case4 => intro x hx; simp [EncodeToString] at hx

theorem DecodeString_EncodeToString (bs : Bytes) : DecodeString (EncodeToString bs) = some bs := by
  unfold DecodeString
  rw [List.filter_eq_self.mpr, decodeQuanta_EncodeToString]
  intro c hc
  have := EncodeToString_chars bs c hc
  simp [this.2.1, this.2.2]

theorem splitDot_no_dot (a : List Char) (h : ∀ c ∈ a, c ≠ '.') : splitDot a = [a] := by
  induction a with
  | nil => rfl
  | cons c cs ih =>
    have hc : c ≠ '.' := h c (List.mem_cons_self _ _)
    have := ih (fun x hx => h x (List.mem_cons_of_mem _ hx))
    simp [splitDot, hc, this]

theorem splitDot_append (a rest : List Char) (h : ∀ c ∈ a, c ≠ '.') :
    splitDot (a ++ '.' :: rest) = a :: splitDot rest := by
  induction a with
  | nil => simp [splitDot]
  | cons c cs ih =>
    have hc : c ≠ '.' := h c (List.mem_cons_self _ _)
    have := ih (fun x hx => h x (List.mem_cons_of_mem _ hx))
    simp [splitDot, hc, this]

theorem splitDot_three (a b c : List Char) (ha : ∀ x ∈ a, x ≠ '.') (hb : ∀ x ∈ b, x ≠ '.')
    (hc : ∀ x ∈ c, x ≠ '.') : splitDot (a ++ '.' :: (b ++ '.' :: c)) = [a, b, c] := by
  rw [splitDot_append a _ ha, splitDot_append b _ hb, splitDot_no_dot c hc]

theorem decodeRunes_charsToBytes (cs : List Char) (h : ∀ c ∈ cs, c.toNat < 128) :
    decodeRunes none (charsToBytes cs) = cs := by
  induction cs with
  | nil => rfl
  | cons c cs ih =>
    have hc : c.toNat < 128 := h c (List.mem_cons_self _ _)
    have := ih (fun x hx => h x (List.mem_cons_of_mem _ hx))
    unfold charsToBytes at this ⊢
    simp only [List.map_cons, List.flatten_cons, utf8EncodeChar, hc, if_true, List.singleton_append,
      decodeRunes]
    have h1 : (Fin.ofNat c.toNat : Fin 256).val = c.toNat := by simp [Fin.ofNat]; omega
    rw [h1]
    have hs : startByte c.toNat = ([c], none) := by
      unfold startByte
      rw [if_pos hc, Char.ofNat_toNat]
    rw [hs]
    simp only [List.singleton_append, this]

theorem digitChar_isDigit (d : Nat) (h : d < 10) : (digitChar d).isDigit = true := by
  interval_cases d <;> rfl

theorem digitVal_digitChar (d : Nat) (h : d < 10) : digitVal (digitChar d) = d := by
  interval_cases d <;> rfl

theorem digitChar_eq_zero (d : Nat) (h : d < 10) : digitChar d = '0' ↔ d = 0 := by
  interval_cases d <;> decide

theorem digitChar_toNat (d : Nat) (h : d < 10) : (digitChar d).toNat < 128 := by
  interval_cases d <;> decide

theorem lex_inNum_delim (neg zero : Bool) (acc : Nat) (d : Delim) (rest : List Char) :
    lex (.inNum neg zero acc) (d.char :: rest) =
      consTok (.num neg acc) (consTok d.tok (lex .start rest)) := by
  cases d <;> rfl

theorem lex_digits (neg : Bool) (ds : List Nat) (hds : ∀ d ∈ ds, d < 10) (acc : Nat)
    (tail : List Char) :
    lex (.inNum neg false acc) (ds.map digitChar ++ tail) =
      lex (.inNum neg false (ds.foldl (fun a d => 10 * a + d) acc)) tail := by
  induction ds generalizing acc with
  | nil => rfl
  | cons d ds ih =>
    have hd : d < 10 := hds d (List.mem_cons_self _ _)
    have := ih (fun x hx => hds x (List.mem_cons_of_mem _ hx)) (10 * acc + d)
    simp only [List.map_cons, List.cons_append, lex, digitChar_isDigit d hd, if_true,
      digitVal_digitChar d hd, List.foldl_cons, Bool.false_eq_true, if_false]
    exact this

/-- The decimal digits of a natural number as `strconv` writes them. -/
theorem foldl_digits (n : Nat) :
    (Nat.digits 10 n).reverse.foldl (fun a d => 10 * a + d) 0 = n := by
  rw [List.foldl_reverse]
  conv_rhs => rw [← Nat.ofDigits_digits 10 n]
  rw [Nat.ofDigits_eq_foldr]
  congr 1
  funext d a
  simp [Nat.mul_comm]; omega

theorem lex_start_digit (d : Nat) (h : d < 10) (cs : List Char) :
    lex .start (digitChar d :: cs) = lex (.inNum false (decide (d = 0)) d) cs := by
  rw [lex]
  simp only [digitChar_isDigit d h, if_true, digitVal_digitChar d h]
  congr 2
  simp [digitChar_eq_zero d h]

theorem lex_afterMinus_digit (d : Nat) (h : d < 10) (cs : List Char) :
    lex .afterMinus (digitChar d :: cs) = lex (.inNum true (decide (d = 0)) d) cs := by
  rw [lex]
  simp only [digitChar_isDigit d h, if_true, digitVal_digitChar d h]
  congr 2
  simp [digitChar_eq_zero d h]

theorem lex_natural (n : Nat) (tail : List Char) :
    lex .start ((if n = 0 then ['0'] else (Nat.digits 10 n).reverse.map digitChar) ++ tail) =
      lex (.inNum false (n = 0) n) tail ∧
    lex .afterMinus ((if n = 0 then ['0'] else (Nat.digits 10 n).reverse.map digitChar) ++ tail) =
      lex (.inNum true (n = 0) n) tail := by
  by_cases h0 : n = 0
  · subst h0; exact ⟨rfl, rfl⟩
  · simp only [h0, if_false, decide_False]
    have hne : Nat.digits 10 n ≠ [] := by simpa [Nat.digits_eq_nil_iff_eq_zero] using h0
    have hlast := Nat.getLast_digit_ne_zero 10 h0
    have hlt : ∀ d ∈ (Nat.digits 10 n).reverse, d < 10 := by
      intro d hd; exact Nat.digits_lt_base (by norm_num) (List.mem_reverse.mp hd)
    have hfold := foldl_digits n
    obtain ⟨d0, ds, hrev⟩ : ∃ d0 ds, (Nat.digits 10 n).reverse = d0 :: ds := by
      cases hr : (Nat.digits 10 n).reverse with
      | nil => simp at hr; exact absurd hr hne
      | cons a l => exact ⟨a, l, rfl⟩
    have hd0 : d0 ≠ 0 := by
      have : (Nat.digits 10 n).getLast hne = d0 := by
        have := @List.head?_reverse _ (Nat.digits 10 n)
        rw [hrev] at this
        simp [List.getLast?_eq_getLast _ hne] at this
        exact this.symm
      rw [← this]; exact hlast
    rw [hrev] at hlt hfold
    have hd0lt : d0 < 10 := hlt d0 (List.mem_cons_self _ _)
    have hds : ∀ d ∈ ds, d < 10 := fun x hx => hlt x (List.mem_cons_of_mem _ hx)
    rw [hrev]
    simp only [List.foldl_cons, Nat.mul_zero, Nat.zero_add] at hfold
    simp only [List.map_cons, List.cons_append]
    rw [lex_start_digit d0 hd0lt, lex_afterMinus_digit d0 hd0lt]
    simp only [hd0, decide_False]
    rw [lex_digits _ ds hds, lex_digits _ ds hds, hfold]
    exact ⟨rfl, rfl⟩

theorem digitsAux_eq (fuel n : Nat) (h : n ≤ fuel) : digitsAux fuel n = Nat.digits 10 n := by
  induction fuel generalizing n with
  | zero =>
    have : n = 0 := by omega
    subst this; simp [digitsAux]
  | succ f ih =>
    unfold digitsAux
    by_cases h0 : n = 0
    · subst h0; simp
    · rw [if_neg h0, Nat.digits_def' (by norm_num) (by omega), ih (n / 10) (by omega)]

theorem decimalDigits_eq (n : Nat) : decimalDigits n = Nat.digits 10 n :=
  digitsAux_eq n n (Nat.le_refl n)

theorem lex_formatInt (n : Int) (d : Delim) (rest : List Char) :
    lex .start (formatInt n ++ d.char :: rest) =
      consTok (.num (decide (n < 0)) n.natAbs) (consTok d.tok (lex .start rest)) := by
  unfold formatInt
  rw [decimalDigits_eq]
  have hz : (n = 0) = (n.natAbs = 0) := by simp
  simp only [hz]
  by_cases hn : n < 0
  · simp only [hn, if_true, List.cons_append, decide_True]
    have : lex .start ('-' :: ((if n.natAbs = 0 then ['0']
        else (Nat.digits 10 n.natAbs).reverse.map digitChar) ++ d.char :: rest)) =
        lex .afterMinus ((if n.natAbs = 0 then ['0']
        else (Nat.digits 10 n.natAbs).reverse.map digitChar) ++ d.char :: rest) := rfl
    rw [this, (lex_natural n.natAbs _).2, lex_inNum_delim]
  · simp only [hn, if_false, decide_False]
    rw [(lex_natural n.natAbs _).1, lex_inNum_delim]

theorem formatInt_ascii (n : Int) : ∀ c ∈ formatInt n, c.toNat < 128 := by
  have hd : ∀ c ∈ (if n = 0 then ['0'] else (decimalDigits n.natAbs).reverse.map digitChar),
      c.toNat < 128 := by
    intro c hc
    rw [decimalDigits_eq] at hc
    split at hc
    · simp at hc; subst hc; decide
    · simp only [List.mem_map, List.mem_reverse] at hc
      obtain ⟨d, hd, rfl⟩ := hc
      exact digitChar_toNat d (Nat.digits_lt_base (by norm_num) hd)
  intro c hc
  unfold formatInt at hc
  simp only at hc
  split at hc
  · rcases List.mem_cons.mp hc with rfl | h
    · decide
    · exact hd c h
  · exact hd c hc

theorem roundToFloat64_exact (n : Int) (h : Float64Exact n) : roundToFloat64 n = n := by
  unfold Float64Exact at h
  unfold roundToFloat64
  simp only []
  rw [if_pos h]

theorem Float64Finite_of_exact (n : Int) (h : Float64Exact n) : Float64Finite n := by
  unfold Float64Finite
  rw [roundToFloat64_exact n h]
  unfold Float64Exact at h
  calc n.natAbs ≤ 2 ^ 53 := h
    _ < 2 ^ 1024 := by norm_num

theorem numberValue_int (n : Int) (h : Float64Finite n) :
    numberValue (decide (n < 0)) n.natAbs = some (.num (roundToFloat64 n)) := by
  have hn : (if decide (n < 0) = true then -(n.natAbs : Int) else (n.natAbs : Int)) = n := by
    by_cases h0 : n < 0
    · simp only [h0, decide_True, if_true]; omega
    · simp only [h0, decide_False, Bool.false_eq_true, if_false]; omega
  unfold numberValue
  simp only [hn]
  unfold Float64Finite at h
  rw [if_pos h]

theorem lex_claimsJSON (c : IssuedClaims) :
    lex .start (claimsJSON c) = some [.lbrace,
      .str "exp".data, .colon, .num (decide (c.exp < 0)) c.exp.natAbs, .comma,
      .str "iat".data, .colon, .num (decide (c.iat < 0)) c.iat.natAbs, .comma,
      .str "sub".data, .colon, .num (decide (c.sub < 0)) c.sub.natAbs, .rbrace] := by
  have h1 : ∀ rest, lex .start ('{' :: '"' :: 'e' :: 'x' :: 'p' :: '"' :: ':' :: rest) =
      consTok .lbrace (consTok (.str "exp".data) (consTok .colon (lex .start rest))) :=
    fun _ => rfl
  have h2 : ∀ rest, lex .start ('"' :: 'i' :: 'a' :: 't' :: '"' :: ':' :: rest) =
      consTok (.str "iat".data) (consTok .colon (lex .start rest)) := fun _ => rfl
  have h3 : ∀ rest, lex .start ('"' :: 's' :: 'u' :: 'b' :: '"' :: ':' :: rest) =
      consTok (.str "sub".data) (consTok .colon (lex .start rest)) := fun _ => rfl
  have e : claimsJSON c = '{' :: '"' :: 'e' :: 'x' :: 'p' :: '"' :: ':' ::
      (formatInt c.exp ++ Delim.comma.char :: '"' :: 'i' :: 'a' :: 't' :: '"' :: ':' ::
      (formatInt c.iat ++ Delim.comma.char :: '"' :: 's' :: 'u' :: 'b' :: '"' :: ':' ::
      (formatInt c.sub ++ Delim.rbrace.char :: []))) := by
    simp [claimsJSON, Delim.char]
  rw [e, h1, lex_formatInt, h2, lex_formatInt, h3, lex_formatInt]
  rfl

theorem claimsJSON_ascii (c : IssuedClaims) : ∀ x ∈ claimsJSON c, x.toNat < 128 := by
  intro x hx
  simp only [claimsJSON, List.mem_append] at hx
  rcases hx with (((((h | h) | h) | h) | h) | h) | h
  · revert x; decide
  · exact formatInt_ascii _ x h
  · revert x; decide
  · exact formatInt_ascii _ x h
  · revert x; decide
  · exact formatInt_ascii _ x h
  · revert x; decide

theorem Unmarshal_claimsJSON (c : IssuedClaims) (he : Float64Finite c.exp)
    (hi : Float64Finite c.iat) (hs : Float64Finite c.sub) :
    Unmarshal (charsToBytes (claimsJSON c)) = some [("exp", .num (roundToFloat64 c.exp)),
      ("iat", .num (roundToFloat64 c.iat)), ("sub", .num (roundToFloat64 c.sub))] := by
  unfold Unmarshal
  rw [decodeRunes_charsToBytes _ (claimsJSON_ascii c)]
  simp only [Option.bind_eq_bind, Option.some_bind, lex_claimsJSON]
  simp [parseObject, parseTokens, parseStep, ParseState.beginValue, ParseState.endValue,
    tokValue, numberValue_int _ he, numberValue_int _ hi, numberValue_int _ hs]

theorem Unmarshal_headerJSON :
    Unmarshal (charsToBytes headerJSON) = some [("alg", .str "HS256"), ("typ", .str "JWT")] := by
  rfl


theorem bitsAux_pow_le (fuel n : Nat) (hn : n ≠ 0) : 2 ^ (bitsAux fuel n - 1) ≤ n := by
  induction fuel generalizing n with
  | zero => simp [bitsAux]; omega
  | succ f ih =>
    simp only [bitsAux, hn, if_false, Nat.add_sub_cancel]
    by_cases h2 : n / 2 = 0
    · have : bitsAux f (n / 2) = 0 := by
        rw [h2]; cases f <;> simp [bitsAux]
      rw [this]; simp; omega
    · have := ih (n / 2) h2
      by_cases hb : bitsAux f (n / 2) = 0
      · rw [hb]; simp; omega
      · have e : bitsAux f (n / 2) = (bitsAux f (n / 2) - 1) + 1 := by omega
        rw [e, pow_succ]
        omega

theorem roundToFloat64_natAbs_le (n : Int) : (roundToFloat64 n).natAbs ≤ 2 * n.natAbs := by
  unfold roundToFloat64
  simp only []
  split
  · omega
  · rename_i h
    have ha : n.natAbs ≠ 0 := by
      intro h0; rw [h0] at h; simp at h
    have hp : 2 ^ (bitLength n.natAbs - 53) ≤ n.natAbs := by
      calc 2 ^ (bitLength n.natAbs - 53) ≤ 2 ^ (bitLength n.natAbs - 1) :=
            Nat.pow_le_pow_right (by norm_num) (by omega)
        _ ≤ n.natAbs := bitsAux_pow_le _ _ ha
    generalize 2 ^ (bitLength n.natAbs - 53) = p at hp ⊢
    generalize 2 ^ (bitLength n.natAbs - 53 - 1) = hf
    have hq : n.natAbs / p * p ≤ n.natAbs := Nat.div_mul_le_self _ _
    have key : ∀ q1, q1 ≤ n.natAbs / p + 1 → q1 * p ≤ 2 * n.natAbs := by
      intro q1 h1
      calc q1 * p ≤ (n.natAbs / p + 1) * p := Nat.mul_le_mul_right _ h1
        _ = n.natAbs / p * p + p := by ring
        _ ≤ 2 * n.natAbs := by omega
    have hq1 : (if n.natAbs % p > hf ∨ n.natAbs % p = hf ∧ n.natAbs / p % 2 = 1
        then n.natAbs / p + 1 else n.natAbs / p) ≤ n.natAbs / p + 1 := by
      split <;> omega
    have := key _ hq1
    split
    · rw [Int.natAbs_neg, Int.natAbs_ofNat]; exact this
    · rw [Int.natAbs_ofNat]; exact this

theorem Float64Finite_of_int64 (n : Int) (h : IsInt64 n) : Float64Finite n := by
  unfold Float64Finite
  have h1 := roundToFloat64_natAbs_le n
  have h2 : n.natAbs ≤ 2 ^ 63 := by unfold IsInt64 at h; omega
  calc (roundToFloat64 n).natAbs ≤ 2 * n.natAbs := h1
    _ ≤ 2 * 2 ^ 63 := by omega
    _ < 2 ^ 1024 := by norm_num

theorem trunc_int (n : Int) : Float64.trunc (n : Float64) = n := by
  show Int.tdiv n (2 ^ 0) = n
  simp

theorem wrapInt64_of_int64 (n : Int) (h : -(2 ^ 63) ≤ n ∧ n < 2 ^ 63) : wrapInt64 n = n := by
  unfold wrapInt64
  have h1 : (2 : Int) ^ 63 = 9223372036854775808 := by norm_num
  have h2 : (2 : Int) ^ 64 = 18446744073709551616 := by norm_num
  rw [h1, h2] at *
  omega

/-- Below the wrap-around of `time.Unix`, the instant of a Unix second. -/
theorem ofUnix_eq (sec : Int)
    (h : -(2 ^ 63) ≤ sec + unixToInternal ∧ sec + unixToInternal < 2 ^ 63) :
    Time.ofUnix sec = sec * 1000000000 := by
  unfold Time.ofUnix
  rw [wrapInt64_of_int64 _ h]
  ring

theorem ofUnix_exact (sec : Int) (h : Float64Exact sec) :
    Time.ofUnix sec = sec * 1000000000 := by
  apply ofUnix_eq
  unfold Float64Exact at h
  have h53 : ((2:Nat) ^ 53 : Nat) = (9007199254740992 : Nat) := by norm_num
  have h1 : (2 : Int) ^ 63 = 9223372036854775808 := by norm_num
  rw [h53] at h
  rw [h1]
  unfold unixToInternal
  omega

theorem ofUnix_Truncate (sec : Int) : (Time.ofUnix sec).Truncate Second = Time.ofUnix sec := by
  unfold Time.Truncate Time.ofUnix Second unixToInternal
  rw [if_neg (by decide)]
  generalize wrapInt64 _ = w
  show ((w - 62135596800) * 1000000000 : Int) -
    ((w - 62135596800) * 1000000000 + 62135596800 * 1000000000) % 1000000000 =
    (w - 62135596800) * 1000000000
  omega

theorem nearestFloat64_zero (b : Nat) : nearestFloat64 0 b = (0, 0) := by
  unfold nearestFloat64
  rfl

theorem newNumericDateFromSeconds_int (n : Int) :
    newNumericDateFromSeconds (n : Float64) = Time.ofUnix (int64OfFloat64 n) := by
  have hm : Modf (n : Float64) = (((n : Int) : Float64), ⟨0, 0⟩) := by
    unfold Modf
    rw [trunc_int]
    simp
  have hmul : Float64.mul ⟨0, 0⟩ ((1000000000 : Int) : Float64) = ⟨0, 0⟩ := by
    unfold Float64.mul
    simp only [zero_mul, Int.natAbs_zero, nearestFloat64_zero]
    rfl
  have h0 : int64OfFloat64 ⟨0, 0⟩ = 0 := by decide
  unfold newNumericDateFromSeconds
  rw [hm]
  simp only [hmul, h0]
  unfold timeUnix
  rw [if_neg (by decide)]
  rw [add_zero, ofUnix_Truncate]

theorem get_decoded (c : IssuedClaims) :
    c.decoded.get "exp" = some (.num (roundToFloat64 c.exp)) ∧
    c.decoded.get "sub" = some (.num (roundToFloat64 c.sub)) ∧
    c.decoded.get "nbf" = none := ⟨rfl, rfl, rfl⟩

theorem Validate_decoded (c : IssuedClaims) (now : Time) :
    Validate c.decoded now =
      if roundToFloat64 c.exp = 0 then none
      else if now < Time.ofUnix (int64OfFloat64 (roundToFloat64 c.exp)) then none
      else some ErrTokenExpired := by
  unfold Validate verifyExpiresAt verifyNotBefore parseNumericDate
  simp only [(get_decoded c).1, (get_decoded c).2.2]
  rw [newNumericDateFromSeconds_int]
  dsimp only
  by_cases h0 : roundToFloat64 c.exp = 0
  · simp [h0]
  · simp only [h0, if_false, Time.Before]
    by_cases h1 : now < Time.ofUnix (int64OfFloat64 (roundToFloat64 c.exp))
    · simp [h1]
    · simp [h1]

theorem ParseWithClaims_signed (P : Platform) (c : IssuedClaims) (hc : c.Finite)
    (signKey key : Bytes) (now : Time) :
    ParseWithClaims P
        (String.mk (SigningString c ++ '.' ::
          EncodeToString (hmac P.sha256 64 signKey (charsToBytes (SigningString c))))) key now =
      if hmac P.sha256 64 signKey (charsToBytes (SigningString c)) =
          hmac P.sha256 64 key (charsToBytes (SigningString c)) then
        match Validate c.decoded now with
        | some e => .error (.join ErrTokenInvalidClaims e)
        | none => .ok c.decoded
      else .error (.join ErrTokenSignatureInvalid ErrSignatureInvalid) := by
  have hdot : ∀ bs : Bytes, ∀ x ∈ EncodeToString bs, x ≠ '.' :=
    fun bs x hx => (EncodeToString_chars bs x hx).1
  unfold ParseWithClaims
  have hsplit : splitDot (String.mk (SigningString c ++ '.' ::
      EncodeToString (hmac P.sha256 64 signKey (charsToBytes (SigningString c))))).data =
      [EncodeToString (charsToBytes headerJSON), EncodeToString (charsToBytes (claimsJSON c)),
        EncodeToString (hmac P.sha256 64 signKey (charsToBytes (SigningString c)))] := by
    show splitDot (SigningString c ++ '.' :: _) = _
    unfold SigningString
    rw [List.append_assoc, List.cons_append]
    exact splitDot_three _ _ _ (hdot _) (hdot _) (hdot _)
  rw [hsplit]
  simp only [DecodeString_EncodeToString, Option.some_bind, Unmarshal_headerJSON,
    Unmarshal_claimsJSON c hc.1 hc.2.1 hc.2.2]
  have halg : JObject.get [("alg", JVal.str "HS256"), ("typ", JVal.str "JWT")] "alg" =
      some (.str "HS256") := rfl
  have hm : GetSigningMethod "HS256" = some .HS256 := rfl
  simp only [halg, hm, SigningMethod.Verify]
  have hss : EncodeToString (charsToBytes headerJSON) ++ '.' ::
      EncodeToString (charsToBytes (claimsJSON c)) = SigningString c := rfl
  rw [hss]
  by_cases hk : hmac P.sha256 64 signKey (charsToBytes (SigningString c)) =
      hmac P.sha256 64 key (charsToBytes (SigningString c))
  · simp only [hk, if_true]
    rfl
  · simp only [hk, if_false]


theorem SignedString_eq (P : Platform) (c : IssuedClaims) (key : Bytes) :
    SignedString P c key = .ok (signedToken P c key) := rfl

theorem ParseWithClaims_signedToken (P : Platform) (c : IssuedClaims) (hc : c.Finite)
    (signKey key : Bytes) (now : Time) :
    ParseWithClaims P (signedToken P c signKey) key now =
      if hmac P.sha256 64 signKey (charsToBytes (SigningString c)) =
          hmac P.sha256 64 key (charsToBytes (SigningString c)) then
        match Validate c.decoded now with
        | some e => .error (.join ErrTokenInvalidClaims e)
        | none => .ok c.decoded
      else .error (.join ErrTokenSignatureInvalid ErrSignatureInvalid) :=
  ParseWithClaims_signed P c hc signKey key now

/-- Validation of a token that was signed with the service's own secret. -/
theorem ValidateToken_signedToken (P : Platform) (s : AuthService) (c : IssuedClaims)
    (hc : c.Finite) (now : Time) :
    AuthService.ValidateToken P s now (signedToken P c (toBytes s.cfg.Secret)) =
      match Validate c.decoded now with
      | some e => (0, some (.wrap "invalid token" (.join ErrTokenInvalidClaims e)))
      | none => (int64OfFloat64 (roundToFloat64 c.sub), none) := by
  unfold AuthService.ValidateToken
  rw [ParseWithClaims_signedToken P c hc, if_pos rfl]
  cases hv : Validate c.decoded now with
  | some e => rfl
  | none => simp only [(get_decoded c).2.1]

theorem GenerateTokens_eq (P : Platform) (s : AuthService) (db : DB) (now t1 t2 : Time)
    (userID : Int) :
    AuthService.GenerateTokens P s db now t1 t2 none userID =
      ((signedToken P (s.accessClaims now userID) (toBytes s.cfg.Secret),
        signedToken P (s.refreshClaims now userID) (toBytes s.cfg.Secret), none),
       { db with
          refresh_tokens := db.refresh_tokens ++
            [⟨db.refreshTokensSeq + 1, userID,
              signedToken P (s.refreshClaims now userID) (toBytes s.cfg.Secret),
              (Time.AddDate P.Local t1 7).Unix, t2.Unix⟩],
          refreshTokensSeq := db.refreshTokensSeq + 1 }) := rfl

theorem Finite_of_exact (c : IssuedClaims) (he : Float64Exact c.exp) (hi : Float64Exact c.iat)
    (hs : Float64Finite c.sub) : c.Finite :=
  ⟨Float64Finite_of_exact _ he, Float64Finite_of_exact _ hi, hs⟩

theorem int64OfFloat64_exact (n : Int) (h : Float64Exact n) : int64OfFloat64 n = n := by
  unfold Float64Exact at h
  unfold int64OfFloat64
  rw [trunc_int, if_pos]
  have : (2:Int) ^ 53 < 2 ^ 63 := by norm_num
  have h53 : ((2:Nat) ^ 53 : Nat) = (9007199254740992 : Nat) := by norm_num
  rw [h53] at h
  constructor <;> omega

/-- A token whose expiry second is exact passes the claims validator at every instant
before that second. -/
theorem Validate_before (c : IssuedClaims) (he : Float64Exact c.exp) (now : Time)
    (h : now < Time.ofUnix c.exp) : Validate c.decoded now = none := by
  rw [Validate_decoded, roundToFloat64_exact _ he, int64OfFloat64_exact _ he]
  by_cases h0 : c.exp = 0
  · rw [if_pos h0]
  · rw [if_neg h0, if_pos h]

/-- A token whose expiry second is exact and not zero is rejected as expired at every
instant from that second on. -/
theorem Validate_after (c : IssuedClaims) (he : Float64Exact c.exp) (h0 : c.exp ≠ 0)
    (now : Time) (h : Time.ofUnix c.exp ≤ now) : Validate c.decoded now = some ErrTokenExpired := by
  rw [Validate_decoded, roundToFloat64_exact _ he, int64OfFloat64_exact _ he, if_neg h0,
    if_neg (not_lt.mpr h)]


/-! ## The claims -/

theorem GetByEmail_absent (db : DB) (email : String) (h : ∀ u ∈ db.users, u.Email ≠ email) :
    UserRepository.GetByEmail db none email = (.error (.new "user not found"), db) := by
  have hf : db.users.find? (fun u => decide (u.Email = email)) = none := by
    rw [List.find?_eq_none]
    intro u hu
    simpa using h u hu
  unfold UserRepository.GetByEmail selectUserByEmail
  simp only [hf]
  rfl

theorem GetByEmail_found (db : DB) (email : String) (u : User)
    (h : db.users.find? (fun u => decide (u.Email = email)) = some u) :
    UserRepository.GetByEmail db none email = (.ok u, db) := by
  unfold UserRepository.GetByEmail selectUserByEmail
  simp only [h]

/-- C1, as amended: for every non-empty email and every non-empty password of at most 72
bytes, starting from a credential store that holds no user with that email and with no
driver fault, `Register` succeeds, and a following `Login` with the same credentials
succeeds and returns a user with the ID of the user `Register` returned. -/
theorem C1_register_then_login (P : Platform) (s : AuthService) (db : DB) (salt : Bytes)
    (createNow : Time) (email password : String)
    (hemail : email ≠ "") (hpassword : password ≠ "")
    (hlen : (toBytes password).length ≤ 72)
    (hfresh : ∀ u ∈ db.users, u.Email ≠ email) :
    ∃ u db', AuthService.Register P s db none salt createNow none email password =
        ((some u, none), db') ∧
      ∃ u', AuthService.Login P s db' none email password = ((some u', none), db') ∧
        u'.ID = u.ID := by
  have hgen : GenerateFromPassword P salt (toBytes password) DefaultCost =
      .ok (P.bcryptHash 10 salt (toBytes password)) := by
    unfold GenerateFromPassword
    rw [if_neg (by omega)]
    rfl
  let u : User :=
    { ID := db.usersSeq + 1, Email := email,
      PasswordHash := P.bcryptHash 10 salt (toBytes password), Height := 0, Weight := 0,
      Goal := "", CreatedAt := createNow.Unix }
  let db' : DB := { db with users := db.users ++ [u], usersSeq := db.usersSeq + 1 }
  refine ⟨u, db', ?_, u, ?_, rfl⟩
  · unfold AuthService.Register
    rw [if_neg (by simp [hemail, hpassword]), GetByEmail_absent db email hfresh]
    simp only [hgen]
    rfl
  · have hfind : db'.users.find? (fun u => decide (u.Email = email)) = some u := by
      show (db.users ++ [u]).find? _ = some u
      rw [List.find?_append]
      have hf : db.users.find? (fun u => decide (u.Email = email)) = none := by
        rw [List.find?_eq_none]
        intro x hx
        simpa using hfresh x hx
      rw [hf]
      simp [u]
    unfold AuthService.Login
    rw [GetByEmail_found db' email u hfind]
    have hv : CompareHashAndPassword P u.PasswordHash (toBytes password) = none := by
      unfold CompareHashAndPassword
      rw [if_pos (P.bcryptVerify_bcryptHash 10 salt (toBytes password))]
    simp only [hv]

/-- C1, witness: the amended claim at `alice@example.com` / `secret123` on the empty
database. -/
theorem C1_register_then_login_witness :
    ("alice@example.com" ≠ "" ∧ "secret123" ≠ "" ∧ (toBytes "secret123").length ≤ 72 ∧
      ∀ u ∈ DB.empty.users, u.Email ≠ "alice@example.com") ∧
    ∃ u db', AuthService.Register samplePlatform sampleService DB.empty none [] 0 none
        "alice@example.com" "secret123" = ((some u, none), db') ∧
      ∃ u', AuthService.Login samplePlatform sampleService db' none
        "alice@example.com" "secret123" = ((some u', none), db') ∧ u'.ID = u.ID :=
  ⟨⟨by decide, by decide, by decide, by simp [DB.empty]⟩,
    C1_register_then_login samplePlatform sampleService DB.empty [] 0
      "alice@example.com" "secret123" (by decide) (by decide) (by decide)
      (by simp [DB.empty])⟩

/-- C1, counterexample: on the empty database, with a non-empty email and a non-empty
password of 73 bytes, `Register` fails: bcrypt rejects the password. -/
theorem C1_counterexample :
    "alice@example.com" ≠ "" ∧ longPassword ≠ "" ∧
    (∀ u ∈ DB.empty.users, u.Email ≠ "alice@example.com") ∧
    AuthService.Register samplePlatform sampleService DB.empty none [] 0 none
        "alice@example.com" longPassword =
      ((none, some (.wrap "failed to hash password" ErrPasswordTooLong)), DB.empty) := by
  refine ⟨by decide, by decide, by simp [DB.empty], ?_⟩
  decide


/-- C2: `Login` returns the same result, no user and the error `invalid credentials`,
when the store holds no user with the email and when it holds one whose stored hash the
password does not verify against. -/
theorem C2_login_same_error (P : Platform) (s : AuthService) (dbA dbB : DB)
    (emailA passwordA emailB passwordB : String) (user : User)
    (hA : ∀ u ∈ dbA.users, u.Email ≠ emailA)
    (hB : dbB.users.find? (fun u => decide (u.Email = emailB)) = some user)
    (hmismatch : CompareHashAndPassword P user.PasswordHash (toBytes passwordB) ≠ none) :
    (AuthService.Login P s dbA none emailA passwordA).1 =
        (none, some (.new "invalid credentials")) ∧
    (AuthService.Login P s dbB none emailB passwordB).1 =
        (none, some (.new "invalid credentials")) := by
  constructor
  · unfold AuthService.Login
    rw [GetByEmail_absent dbA emailA hA]
  · unfold AuthService.Login
    rw [GetByEmail_found dbB emailB user hB]
    cases hc : CompareHashAndPassword P user.PasswordHash (toBytes passwordB) with
    | none => exact absurd hc hmismatch
    | some e => simp only [hc]

/-- C2, witness: an unknown email on the empty store, and a wrong password for the one
stored user. -/
theorem C2_login_same_error_witness :
    (AuthService.Login samplePlatform sampleService DB.empty none "bob@example.com" "x").1 =
        (none, some (.new "invalid credentials")) ∧
    (AuthService.Login samplePlatform sampleService
        ⟨[⟨1, "alice@example.com", "$2a$10$secret123", 0, 0, "", 0⟩], 1, [], 0⟩ none
        "alice@example.com" "wrong").1 = (none, some (.new "invalid credentials")) :=
  C2_login_same_error samplePlatform sampleService DB.empty
    ⟨[⟨1, "alice@example.com", "$2a$10$secret123", 0, 0, "", 0⟩], 1, [], 0⟩
    "bob@example.com" "x" "alice@example.com" "wrong"
    ⟨1, "alice@example.com", "$2a$10$secret123", 0, 0, "", 0⟩
    (by simp [DB.empty]) (by decide) (by decide)

theorem accessClaims_finite (s : AuthService) (now : Time) (u : Int) (hs : s.ExactAt now)
    (hu : Float64Finite u) : (s.accessClaims now u).Finite :=
  Finite_of_exact _ hs.2.1 hs.1 hu

theorem refreshClaims_finite (s : AuthService) (now : Time) (u : Int) (hs : s.ExactAt now)
    (hu : Float64Finite u) : (s.refreshClaims now u).Finite :=
  Finite_of_exact _ hs.2.2 hs.1 hu

/-- What `ValidateToken` returns for a token of the service whose claims are exact, at an
instant before its expiry: the float64 of the subject, converted back. -/
theorem ValidateToken_signedToken_before (P : Platform) (s : AuthService) (c : IssuedClaims)
    (hc : c.Finite) (he : Float64Exact c.exp) (now : Time) (h : now < Time.ofUnix c.exp) :
    AuthService.ValidateToken P s now (signedToken P c (toBytes s.cfg.Secret)) =
      (int64OfFloat64 (roundToFloat64 c.sub), none) := by
  rw [ValidateToken_signedToken P s c hc, Validate_before c he now h]

/-- C3, as amended: for every user id `u` of magnitude at most `2^53`, the access token
that `GenerateTokens(u)` returns at an instant whose Unix seconds (issue and expiry) are
exact in float64 validates to `u` under the same secret at every instant before its
expiry. -/
theorem C3_access_token_round_trip (P : Platform) (s : AuthService) (db : DB)
    (now createNow1 createNow2 : Time) (u : Int) (vnow : Time)
    (hu : Float64Exact u) (hs : s.ExactAt now)
    (hbefore : vnow < Time.ofUnix (now.Add s.cfg.AccessTokenTTL).Unix) :
    AuthService.ValidateToken P s vnow
      (AuthService.GenerateTokens P s db now createNow1 createNow2 none u).1.1 = (u, none) := by
  rw [GenerateTokens_eq]
  show AuthService.ValidateToken P s vnow
    (signedToken P (s.accessClaims now u) (toBytes s.cfg.Secret)) = (u, none)
  rw [ValidateToken_signedToken_before P s _
    (accessClaims_finite s now u hs (Float64Finite_of_exact u hu)) hs.2.1 vnow hbefore]
  show (int64OfFloat64 (roundToFloat64 u), (none : Option GoError)) = (u, none)
  rw [roundToFloat64_exact u hu, int64OfFloat64_exact u hu]

theorem sampleService_exactAt : sampleService.ExactAt (Time.ofUnix 1700000000) := by
  refine ⟨?_, ?_, ?_⟩ <;> decide

/-- C3, witness: user id 1, issued and validated at Unix second 1700000000. -/
theorem C3_access_token_round_trip_witness :
    (Float64Exact 1 ∧ sampleService.ExactAt (Time.ofUnix 1700000000) ∧
      Time.ofUnix 1700000000 <
        Time.ofUnix ((Time.ofUnix 1700000000).Add sampleService.cfg.AccessTokenTTL).Unix) ∧
    AuthService.ValidateToken samplePlatform sampleService (Time.ofUnix 1700000000)
      (AuthService.GenerateTokens samplePlatform sampleService DB.empty
        (Time.ofUnix 1700000000) (Time.ofUnix 1700000000) (Time.ofUnix 1700000000) none 1).1.1 =
      (1, none) :=
  ⟨⟨by decide, sampleService_exactAt, by decide⟩,
    C3_access_token_round_trip samplePlatform sampleService DB.empty _ _ _ 1 _
      (by decide) sampleService_exactAt (by decide)⟩

/-- C3, counterexample: for the int64 user id `2^53 + 1`, the access token that
`GenerateTokens` returns validates, before its expiry and under the same secret, to
`2^53`. -/
theorem C3_counterexample :
    IsInt64 9007199254740993 ∧
    Time.ofUnix 1700000000 <
      Time.ofUnix ((Time.ofUnix 1700000000).Add sampleService.cfg.AccessTokenTTL).Unix ∧
    AuthService.ValidateToken samplePlatform sampleService (Time.ofUnix 1700000000)
      (AuthService.GenerateTokens samplePlatform sampleService DB.empty
        (Time.ofUnix 1700000000) (Time.ofUnix 1700000000) (Time.ofUnix 1700000000) none
        9007199254740993).1.1 = (9007199254740992, none) := by
  refine ⟨by unfold IsInt64; decide, by decide, ?_⟩
  rw [GenerateTokens_eq]
  show AuthService.ValidateToken samplePlatform sampleService (Time.ofUnix 1700000000)
    (signedToken samplePlatform (sampleService.accessClaims (Time.ofUnix 1700000000)
      9007199254740993) (toBytes sampleService.cfg.Secret)) = (9007199254740992, none)
  rw [ValidateToken_signedToken_before samplePlatform sampleService _
    (accessClaims_finite _ _ _ sampleService_exactAt
      (Float64Finite_of_int64 _ (by unfold IsInt64; decide)))
    sampleService_exactAt.2.1 _ (by decide)]
  decide


theorem claims_finite_of_int64 (c : IssuedClaims) (he : IsInt64 c.exp) (hi : IsInt64 c.iat)
    (hs : IsInt64 c.sub) : c.Finite :=
  ⟨Float64Finite_of_int64 _ he, Float64Finite_of_int64 _ hi, Float64Finite_of_int64 _ hs⟩

/-- A token signed under one secret and presented to a service with a secret under
which the tag differs: both entry points reject it for its signature. -/
theorem rejected_of_tagsDiffer (P : Platform) (s1 s2 : AuthService) (c : IssuedClaims)
    (hc : c.Finite) (hd : TagsDiffer P s1 s2 c) (db : DB) (vnow parseNow : Time)
    (getFault : Option GoError) (checkNow iatNow expNow : Time) :
    AuthService.ValidateToken P s2 vnow (signedToken P c (toBytes s1.cfg.Secret)) =
      (0, some (.wrap "invalid token" (.join ErrTokenSignatureInvalid ErrSignatureInvalid))) ∧
    AuthService.RefreshAccessToken P s2 db parseNow getFault checkNow iatNow expNow
        (signedToken P c (toBytes s1.cfg.Secret)) =
      (("", some (.wrap "invalid refresh token"
        (.join ErrTokenSignatureInvalid ErrSignatureInvalid))), db) := by
  unfold TagsDiffer at hd
  constructor
  · unfold AuthService.ValidateToken
    rw [ParseWithClaims_signedToken P c hc, if_neg hd]
  · unfold AuthService.RefreshAccessToken
    rw [ParseWithClaims_signedToken P c hc, if_neg hd]

/-- C5, as amended: a token issued by `GenerateTokens` under the secret of `s1` is
rejected for its signature by `ValidateToken` and by `RefreshAccessToken` of a service
`s2` whenever the HMAC-SHA256 tag of its signing string under the secret of `s2` differs
from the tag under the secret of `s1`. -/
theorem C5_other_secret_rejected (P : Platform) (s1 s2 : AuthService) (db1 db2 : DB)
    (now createNow1 createNow2 : Time) (u : Int) (vnow parseNow : Time)
    (getFault : Option GoError) (checkNow iatNow expNow : Time)
    (hu : IsInt64 u) (hnow : s1.Int64At now)
    (haccess : TagsDiffer P s1 s2 (s1.accessClaims now u))
    (hrefresh : TagsDiffer P s1 s2 (s1.refreshClaims now u)) :
    let issued := (AuthService.GenerateTokens P s1 db1 now createNow1 createNow2 none u).1
    let rejected (pfx : String) : Option GoError :=
      some (.wrap pfx (.join ErrTokenSignatureInvalid ErrSignatureInvalid))
    AuthService.ValidateToken P s2 vnow issued.1 = (0, rejected "invalid token") ∧
    AuthService.ValidateToken P s2 vnow issued.2.1 = (0, rejected "invalid token") ∧
    AuthService.RefreshAccessToken P s2 db2 parseNow getFault checkNow iatNow expNow issued.1 =
      (("", rejected "invalid refresh token"), db2) ∧
    AuthService.RefreshAccessToken P s2 db2 parseNow getFault checkNow iatNow expNow
      issued.2.1 = (("", rejected "invalid refresh token"), db2) := by
  intro issued rejected
  have ha := rejected_of_tagsDiffer P s1 s2 (s1.accessClaims now u)
    (claims_finite_of_int64 _ hnow.2.1 hnow.1 hu) haccess db2 vnow parseNow getFault
    checkNow iatNow expNow
  have hr := rejected_of_tagsDiffer P s1 s2 (s1.refreshClaims now u)
    (claims_finite_of_int64 _ hnow.2.2 hnow.1 hu) hrefresh db2 vnow parseNow getFault
    checkNow iatNow expNow
  have hi : issued = (signedToken P (s1.accessClaims now u) (toBytes s1.cfg.Secret),
      signedToken P (s1.refreshClaims now u) (toBytes s1.cfg.Secret), none) := by
    show (AuthService.GenerateTokens P s1 db1 now createNow1 createNow2 none u).1 = _
    rw [GenerateTokens_eq]
  rw [hi]
  exact ⟨ha.1, hr.1, ha.2, hr.2⟩

/-- On the sample platform the tags under the secrets of the sample service and of the
service with another secret differ on every message. -/
theorem sample_tagsDiffer (c : IssuedClaims) :
    TagsDiffer samplePlatform sampleService otherSecretService c := by
  unfold TagsDiffer
  intro h
  have h1 := congrArg List.head? h
  change some (37 : Fin 256) = some 61 at h1
  exact absurd h1 (by decide)

theorem sampleService_int64At : sampleService.Int64At (Time.ofUnix 1700000000) := by
  refine ⟨?_, ?_, ?_⟩ <;> (unfold IsInt64; decide)

/-- C5, witness: the tokens that the sample service issues are rejected by the service
with another secret. -/
theorem C5_other_secret_rejected_witness :
    let issued := (AuthService.GenerateTokens samplePlatform sampleService DB.empty
      (Time.ofUnix 1700000000) (Time.ofUnix 1700000000) (Time.ofUnix 1700000000) none 1).1
    let rejected (pfx : String) : Option GoError :=
      some (.wrap pfx (.join ErrTokenSignatureInvalid ErrSignatureInvalid))
    AuthService.ValidateToken samplePlatform otherSecretService (Time.ofUnix 1700000000)
      issued.1 = (0, rejected "invalid token") ∧
    AuthService.ValidateToken samplePlatform otherSecretService (Time.ofUnix 1700000000)
      issued.2.1 = (0, rejected "invalid token") ∧
    AuthService.RefreshAccessToken samplePlatform otherSecretService DB.empty
      (Time.ofUnix 1700000000) none (Time.ofUnix 1700000000) (Time.ofUnix 1700000000)
      (Time.ofUnix 1700000000) issued.1 = (("", rejected "invalid refresh token"), DB.empty) ∧
    AuthService.RefreshAccessToken samplePlatform otherSecretService DB.empty
      (Time.ofUnix 1700000000) none (Time.ofUnix 1700000000) (Time.ofUnix 1700000000)
      (Time.ofUnix 1700000000) issued.2.1 =
        (("", rejected "invalid refresh token"), DB.empty) :=
  C5_other_secret_rejected samplePlatform sampleService otherSecretService DB.empty DB.empty
    (Time.ofUnix 1700000000) (Time.ofUnix 1700000000) (Time.ofUnix 1700000000) 1
    (Time.ofUnix 1700000000) (Time.ofUnix 1700000000) none (Time.ofUnix 1700000000)
    (Time.ofUnix 1700000000) (Time.ofUnix 1700000000)
    (by unfold IsInt64; decide) sampleService_int64At (sample_tagsDiffer _) (sample_tagsDiffer _)

/-- The HMAC key block of a secret and of the same secret followed by a zero byte are
the same, whatever the hash function. -/
theorem hmac_padded_secret (H : Bytes → Bytes) (msg : Bytes) :
    hmac H 64 (toBytes sampleService.cfg.Secret) msg =
      hmac H 64 (toBytes paddedSecretService.cfg.Secret) msg := by
  unfold hmac
  have h1 : ¬ (toBytes sampleService.cfg.Secret).length > 64 := by decide
  have h2 : ¬ (toBytes paddedSecretService.cfg.Secret).length > 64 := by decide
  have h3 : (toBytes sampleService.cfg.Secret ++ List.replicate 64 0).take 64 =
      (toBytes paddedSecretService.cfg.Secret ++ List.replicate 64 0).take 64 := by decide
  simp only [h1, h2, if_false, h3]

/-- C5, counterexample: two different secrets, the second being the first followed by a
zero byte; the access token issued under the first validates under the second. -/
theorem C5_counterexample :
    sampleService.cfg.Secret ≠ paddedSecretService.cfg.Secret ∧
    AuthService.ValidateToken samplePlatform paddedSecretService (Time.ofUnix 1700000000)
      (AuthService.GenerateTokens samplePlatform sampleService DB.empty
        (Time.ofUnix 1700000000) (Time.ofUnix 1700000000) (Time.ofUnix 1700000000) none
        1).1.1 = (1, none) := by
  refine ⟨by decide, ?_⟩
  rw [GenerateTokens_eq]
  show AuthService.ValidateToken samplePlatform paddedSecretService (Time.ofUnix 1700000000)
    (signedToken samplePlatform (sampleService.accessClaims (Time.ofUnix 1700000000) 1)
      (toBytes sampleService.cfg.Secret)) = (1, none)
  unfold AuthService.ValidateToken
  rw [ParseWithClaims_signedToken samplePlatform _
    (accessClaims_finite _ _ _ sampleService_exactAt (Float64Finite_of_exact 1 (by decide))),
    if_pos (hmac_padded_secret _ _),
    Validate_before _ sampleService_exactAt.2.1 _ (by decide)]
  decide


/-- A token that `ValidateToken` accepts passes the first part of `RefreshAccessToken`
with the same subject: what remains is the lookup in the store, the check of the stored
expiry and the signing of the new token. -/
theorem RefreshAccessToken_of_valid (P : Platform) (s : AuthService) (db : DB)
    (parseNow : Time) (getFault : Option GoError) (checkNow iatNow expNow : Time)
    (tok : String) (uid : Int)
    (hv : AuthService.ValidateToken P s parseNow tok = (uid, none)) :
    AuthService.RefreshAccessToken P s db parseNow getFault checkNow iatNow expNow tok =
      match RefreshTokenRepository.GetByToken db getFault tok with
      | (.error err, db) => (("", some (.wrap "refresh token not found" err)), db)
      | (.ok rt, db) =>
        if rt.ExpiresAt < checkNow.Unix then (("", some (.new "refresh token expired")), db)
        else ((signedToken P ⟨uid, iatNow.Unix, (expNow.Add s.cfg.AccessTokenTTL).Unix⟩
          (toBytes s.cfg.Secret), none), db) := by
  unfold AuthService.ValidateToken at hv
  unfold AuthService.RefreshAccessToken
  cases hp : ParseWithClaims P tok (toBytes s.cfg.Secret) parseNow with
  | error e => rw [hp] at hv; simp at hv
  | ok claims =>
    rw [hp] at hv
    simp only at hv ⊢
    cases hsub : claims.get "sub" with
    | none => rw [hsub] at hv; simp at hv
    | some v =>
      rw [hsub] at hv
      cases v with
      | num f =>
        simp only [Prod.mk.injEq, and_true] at hv
        subst hv
        simp only [SignedString_eq]
      | str _ => simp at hv
      | bool _ => simp at hv
      | null => simp at hv
      | array => simp at hv
      | object => simp at hv

theorem GetByToken_absent (db : DB) (tok : String)
    (h : db.refresh_tokens.find? (fun r => decide (r.token = tok)) = none) :
    RefreshTokenRepository.GetByToken db none tok = (.error (.new "token not found"), db) := by
  unfold RefreshTokenRepository.GetByToken selectRefreshTokenByToken
  simp only [h]
  rfl

theorem GetByToken_found (db : DB) (tok : String) (r : RefreshTokenRow)
    (h : db.refresh_tokens.find? (fun r => decide (r.token = tok)) = some r) :
    RefreshTokenRepository.GetByToken db none tok =
      (.ok ⟨r.id, r.user_id, r.token, r.expires_at⟩, db) := by
  unfold RefreshTokenRepository.GetByToken selectRefreshTokenByToken
  simp only [h]

/-- After `DeleteByToken` no row of the store carries the token. -/
theorem find_after_delete (db : DB) (tok : String) :
    (RefreshTokenRepository.DeleteByToken db none tok).2.refresh_tokens.find?
      (fun r => decide (r.token = tok)) = none := by
  have hdb : (RefreshTokenRepository.DeleteByToken db none tok).2.refresh_tokens =
      db.refresh_tokens.filter (fun r => decide (¬ r.token = tok)) := by
    unfold RefreshTokenRepository.DeleteByToken deleteRefreshTokenByToken
    simp only
    split <;> rfl
  rw [hdb, List.find?_eq_none]
  intro r hr
  have := (List.mem_filter.mp hr).2
  simpa using this

/-- `GetByToken` fails when no row carries the token, whatever the driver reports. -/
theorem GetByToken_error_of_absent (db : DB) (fault : Option GoError) (tok : String)
    (h : db.refresh_tokens.find? (fun r => decide (r.token = tok)) = none) :
    ∃ e, RefreshTokenRepository.GetByToken db fault tok = (.error e, db) := by
  unfold RefreshTokenRepository.GetByToken selectRefreshTokenByToken
  cases fault with
  | some e =>
    simp only
    split
    · exact ⟨_, rfl⟩
    · exact ⟨_, rfl⟩
  | none =>
    simp only [h]
    exact ⟨_, rfl⟩

/-- `RefreshAccessToken` fails when no row of the store carries the token. -/
theorem refresh_fails_of_absent (P : Platform) (s : AuthService) (db : DB) (parseNow : Time)
    (getFault : Option GoError) (checkNow iatNow expNow : Time) (tok : String)
    (h : db.refresh_tokens.find? (fun r => decide (r.token = tok)) = none) :
    ∃ e, AuthService.RefreshAccessToken P s db parseNow getFault checkNow iatNow expNow tok =
      (("", some e), db) := by
  obtain ⟨e, he⟩ := GetByToken_error_of_absent db getFault tok h
  unfold AuthService.RefreshAccessToken
  cases ParseWithClaims P tok (toBytes s.cfg.Secret) parseNow with
  | error e => exact ⟨_, rfl⟩
  | ok claims =>
    simp only
    cases claims.get "sub" with
    | none => exact ⟨_, rfl⟩
    | some v =>
      cases v with
      | num f => simp only [he]; exact ⟨_, rfl⟩
      | str _ => exact ⟨_, rfl⟩
      | bool _ => exact ⟨_, rfl⟩
      | null => exact ⟨_, rfl⟩
      | array => exact ⟨_, rfl⟩
      | object => exact ⟨_, rfl⟩

/-- C6: once `DeleteByToken` has removed a refresh token string from the store,
`RefreshAccessToken` with that string returns no access token and an error; when the
string still passes signature and expiry verification, the error is
`refresh token not found` wrapping the store's `token not found`; and a second
`DeleteByToken` of the string fails with `token not found`. -/
theorem C6_refresh_after_delete (P : Platform) (s : AuthService) (db : DB)
    (parseNow checkNow iatNow expNow : Time) (tok : String) :
    let db' := (RefreshTokenRepository.DeleteByToken db none tok).2
    (∀ getFault, ∃ e, AuthService.RefreshAccessToken P s db' parseNow getFault checkNow iatNow
        expNow tok = (("", some e), db')) ∧
    (∀ uid, AuthService.ValidateToken P s parseNow tok = (uid, none) →
      AuthService.RefreshAccessToken P s db' parseNow none checkNow iatNow expNow tok =
        (("", some (.wrap "refresh token not found" (.new "token not found"))), db')) ∧
    RefreshTokenRepository.DeleteByToken db' none tok = (some (.new "token not found"), db') := by
  intro db'
  have hfind := find_after_delete db tok
  refine ⟨?_, ?_, ?_⟩
  · intro getFault
    exact refresh_fails_of_absent P s db' parseNow getFault checkNow iatNow expNow tok hfind
  · intro uid hvalid
    rw [RefreshAccessToken_of_valid P s db' parseNow none checkNow iatNow expNow tok uid hvalid,
      GetByToken_absent db' tok hfind]
  · have hcount : db'.refresh_tokens.countP (fun r => decide (r.token = tok)) = 0 := by
      rw [List.countP_eq_zero]
      intro r hr
      have := List.find?_eq_none.mp hfind r hr
      simpa using this
    have hfilter : db'.refresh_tokens.filter (fun r => decide (¬ r.token = tok)) =
        db'.refresh_tokens := by
      rw [List.filter_eq_self]
      intro r hr
      have := List.find?_eq_none.mp hfind r hr
      simpa using this
    unfold RefreshTokenRepository.DeleteByToken deleteRefreshTokenByToken
    simp only [hcount, hfilter, if_true]

theorem sampleService_exactAt_sampleNow : sampleService.ExactAt sampleNow :=
  sampleService_exactAt

/-- The refresh token that the sample service issues for user 1 at the sample instant
validates at that instant. -/
theorem sample_refresh_valid :
    AuthService.ValidateToken samplePlatform sampleService sampleNow
      (AuthService.GenerateTokens samplePlatform sampleService DB.empty sampleNow sampleNow
        sampleNow none 1).1.2.1 = (1, none) := by
  rw [GenerateTokens_eq]
  show AuthService.ValidateToken samplePlatform sampleService sampleNow
    (signedToken samplePlatform (sampleService.refreshClaims sampleNow 1)
      (toBytes sampleService.cfg.Secret)) = (1, none)
  rw [ValidateToken_signedToken_before samplePlatform sampleService _
    (refreshClaims_finite _ _ _ sampleService_exactAt_sampleNow
      (Float64Finite_of_exact 1 (by decide)))
    sampleService_exactAt_sampleNow.2.2 _ (by decide)]
  decide

/-- C6, witness: the refresh token issued for user 1 on the empty store, deleted, then
presented for refresh while it still validates. -/
theorem C6_refresh_after_delete_witness :
    let g := AuthService.GenerateTokens samplePlatform sampleService DB.empty sampleNow
      sampleNow sampleNow none 1
    let db' := (RefreshTokenRepository.DeleteByToken g.2 none g.1.2.1).2
    AuthService.ValidateToken samplePlatform sampleService sampleNow g.1.2.1 = (1, none) ∧
    AuthService.RefreshAccessToken samplePlatform sampleService db' sampleNow none sampleNow
        sampleNow sampleNow g.1.2.1 =
      (("", some (.wrap "refresh token not found" (.new "token not found"))), db') ∧
    RefreshTokenRepository.DeleteByToken db' none g.1.2.1 =
      (some (.new "token not found"), db') :=
  ⟨sample_refresh_valid,
    (C6_refresh_after_delete samplePlatform sampleService _ sampleNow sampleNow sampleNow
      sampleNow _).2.1 1 sample_refresh_valid,
    (C6_refresh_after_delete samplePlatform sampleService _ sampleNow sampleNow sampleNow
      sampleNow _).2.2⟩

/-- A token that `ValidateToken` accepts and whose row in the store has not expired is
refreshed. -/
theorem refresh_succeeds_of_valid (P : Platform) (s : AuthService) (db : DB)
    (parseNow checkNow iatNow expNow : Time) (tok : String) (uid : Int) (r : RefreshTokenRow)
    (hvalid : AuthService.ValidateToken P s parseNow tok = (uid, none))
    (hfound : db.refresh_tokens.find? (fun r => decide (r.token = tok)) = some r)
    (hfresh : checkNow.Unix ≤ r.expires_at) :
    AuthService.RefreshAccessToken P s db parseNow none checkNow iatNow expNow tok =
      ((signedToken P ⟨uid, iatNow.Unix, (expNow.Add s.cfg.AccessTokenTTL).Unix⟩
        (toBytes s.cfg.Secret), none), db) := by
  rw [RefreshAccessToken_of_valid P s db parseNow none checkNow iatNow expNow tok uid hvalid,
    GetByToken_found db tok r hfound]
  simp only
  rw [if_neg (not_lt.mpr hfresh)]

/-- C7, as amended: a refresh token string that passes the service's validation at the
instant of parsing (signature, signed expiry, numeric subject) and whose row in the
store has an expiry that has not passed is refreshed: the call returns a new access
token for the token's subject. -/
theorem C7_refresh_succeeds (P : Platform) (s : AuthService) (db : DB)
    (parseNow checkNow iatNow expNow : Time) (tok : String) (uid : Int) (r : RefreshTokenRow)
    (hvalid : AuthService.ValidateToken P s parseNow tok = (uid, none))
    (hfound : db.refresh_tokens.find? (fun r => decide (r.token = tok)) = some r)
    (hfresh : checkNow.Unix ≤ r.expires_at) :
    AuthService.RefreshAccessToken P s db parseNow none checkNow iatNow expNow tok =
      ((signedToken P ⟨uid, iatNow.Unix, (expNow.Add s.cfg.AccessTokenTTL).Unix⟩
        (toBytes s.cfg.Secret), none), db) :=
  refresh_succeeds_of_valid P s db parseNow checkNow iatNow expNow tok uid r hvalid hfound
    hfresh

theorem find_issued (P : Platform) (s : AuthService) (now t1 t2 : Time) (u : Int) :
    (AuthService.GenerateTokens P s DB.empty now t1 t2 none u).2.refresh_tokens.find?
      (fun r => decide (r.token =
        (AuthService.GenerateTokens P s DB.empty now t1 t2 none u).1.2.1)) =
      some ⟨1, u, (AuthService.GenerateTokens P s DB.empty now t1 t2 none u).1.2.1,
        (Time.AddDate P.Local t1 7).Unix, t2.Unix⟩ := by
  rw [GenerateTokens_eq]
  simp [DB.empty]

/-- C7, witness: the refresh token issued for user 1 on the empty store, refreshed at the
instant of issue. -/
theorem C7_refresh_succeeds_witness :
    let g := AuthService.GenerateTokens samplePlatform sampleService DB.empty sampleNow
      sampleNow sampleNow none 1
    AuthService.RefreshAccessToken samplePlatform sampleService g.2 sampleNow none sampleNow
        sampleNow sampleNow g.1.2.1 =
      ((signedToken samplePlatform
        ⟨1, sampleNow.Unix, (sampleNow.Add sampleService.cfg.AccessTokenTTL).Unix⟩
        (toBytes sampleService.cfg.Secret), none), g.2) :=
  C7_refresh_succeeds samplePlatform sampleService _ sampleNow sampleNow sampleNow sampleNow
    _ 1 _ sample_refresh_valid (find_issued samplePlatform sampleService _ _ _ 1) (by decide)

theorem shortRefreshService_exactAt : shortRefreshService.ExactAt sampleNow := by
  refine ⟨?_, ?_, ?_⟩ <;> decide

/-- C7, counterexample: the service is configured with a refresh horizon of one hour. The
refresh token it issues for user 1 at the sample instant is correctly signed and, two
hours later, is in the store with a stored expiry (seven days after issue) that has not
passed; `RefreshAccessToken` rejects it, because its signed `exp` has passed. -/
theorem C7_counterexample :
    let g := AuthService.GenerateTokens samplePlatform shortRefreshService DB.empty sampleNow
      sampleNow sampleNow none 1
    let later := sampleNow.Add (2 * Hour)
    g.2.refresh_tokens.find? (fun r => decide (r.token = g.1.2.1)) =
      some ⟨1, 1, g.1.2.1, 1700604800, 1700000000⟩ ∧
    later.Unix ≤ 1700604800 ∧
    AuthService.RefreshAccessToken samplePlatform shortRefreshService g.2 later none later
        later later g.1.2.1 =
      (("", some (.wrap "invalid refresh token"
        (.join ErrTokenInvalidClaims ErrTokenExpired))), g.2) := by
  intro g later
  refine ⟨find_issued samplePlatform shortRefreshService _ _ _ 1, by decide, ?_⟩
  have hg : g.1.2.1 = signedToken samplePlatform (shortRefreshService.refreshClaims sampleNow 1)
      (toBytes shortRefreshService.cfg.Secret) := by
    show (AuthService.GenerateTokens samplePlatform shortRefreshService DB.empty sampleNow
      sampleNow sampleNow none 1).1.2.1 = _
    rw [GenerateTokens_eq]
  rw [hg]
  unfold AuthService.RefreshAccessToken
  rw [ParseWithClaims_signedToken samplePlatform _
    (refreshClaims_finite _ _ _ shortRefreshService_exactAt
      (Float64Finite_of_exact 1 (by decide))), if_pos rfl,
    Validate_after _ shortRefreshService_exactAt.2.2 (by decide) _ (by decide)]


/-- C8: for a refresh token string that passes the service's validation and is found in
the store, `RefreshAccessToken` returns no access token and the error
`refresh token expired` whenever the stored `ExpiresAt` is less than the current Unix
second, and does not return that error when it is greater or equal; `DeleteExpiredTokens`
removes exactly the rows whose `expires_at` is less than the current Unix second. -/
theorem C8_stored_expiry_boundary (P : Platform) (s : AuthService) (db : DB)
    (parseNow checkNow iatNow expNow : Time) (tok : String) (uid : Int) (r : RefreshTokenRow)
    (hvalid : AuthService.ValidateToken P s parseNow tok = (uid, none))
    (hfound : db.refresh_tokens.find? (fun r => decide (r.token = tok)) = some r) :
    (r.expires_at < checkNow.Unix →
      AuthService.RefreshAccessToken P s db parseNow none checkNow iatNow expNow tok =
        (("", some (.new "refresh token expired")), db)) ∧
    (checkNow.Unix ≤ r.expires_at →
      (AuthService.RefreshAccessToken P s db parseNow none checkNow iatNow expNow tok).1.2 ≠
        some (.new "refresh token expired")) ∧
    (∀ (now : Time) (x : RefreshTokenRow),
      x ∈ (RefreshTokenRepository.DeleteExpiredTokens db none now).2.refresh_tokens ↔
        x ∈ db.refresh_tokens ∧ now.Unix ≤ x.expires_at) := by
  refine ⟨?_, ?_, ?_⟩
  · intro h
    rw [RefreshAccessToken_of_valid P s db parseNow none checkNow iatNow expNow tok uid hvalid,
      GetByToken_found db tok r hfound]
    simp only
    rw [if_pos h]
  · intro h
    rw [refresh_succeeds_of_valid P s db parseNow checkNow iatNow expNow tok uid r hvalid hfound h]
    simp
  · intro now x
    have hdb : (RefreshTokenRepository.DeleteExpiredTokens db none now).2.refresh_tokens =
        db.refresh_tokens.filter (fun r => decide (¬ r.expires_at < now.Unix)) := rfl
    rw [hdb, List.mem_filter]
    simp

/-- C8, witness: the refresh token issued for user 1 on the empty store, presented just
after its stored expiry, seven days after issue. -/
theorem C8_stored_expiry_boundary_witness :
    let g := AuthService.GenerateTokens samplePlatform sampleService DB.empty sampleNow
      sampleNow sampleNow none 1
    AuthService.RefreshAccessToken samplePlatform sampleService g.2 sampleNow none
        (Time.ofUnix 1700604801) sampleNow sampleNow g.1.2.1 =
      (("", some (.new "refresh token expired")), g.2) :=
  (C8_stored_expiry_boundary samplePlatform sampleService _ sampleNow (Time.ofUnix 1700604801)
    sampleNow sampleNow _ 1 _ sample_refresh_valid
    (find_issued samplePlatform sampleService _ _ _ 1)).1 (by decide)

theorem GetByToken_db (db : DB) (fault : Option GoError) (tok : String) :
    (RefreshTokenRepository.GetByToken db fault tok).2 = db := by
  unfold RefreshTokenRepository.GetByToken selectRefreshTokenByToken
  cases fault with
  | some e => simp only; split <;> rfl
  | none =>
    simp only
    cases db.refresh_tokens.find? (fun r => decide (r.token = tok)) <;> rfl

/-- `RefreshAccessToken` returns the database it was given. -/
theorem RefreshAccessToken_db (P : Platform) (s : AuthService) (db : DB) (parseNow : Time)
    (getFault : Option GoError) (checkNow iatNow expNow : Time) (tok : String) :
    (AuthService.RefreshAccessToken P s db parseNow getFault checkNow iatNow expNow tok).2 =
      db := by
  have hg := GetByToken_db db getFault tok
  unfold AuthService.RefreshAccessToken
  cases ParseWithClaims P tok (toBytes s.cfg.Secret) parseNow with
  | error e => rfl
  | ok claims =>
    simp only
    cases claims.get "sub" with
    | none => rfl
    | some v =>
      cases v with
      | num f =>
        simp only [SignedString_eq]
        rcases hr : RefreshTokenRepository.GetByToken db getFault tok with ⟨res, db1⟩
        rw [hr] at hg
        simp only at hg
        subst hg
        cases res with
        | error e => rfl
        | ok rt => simp only; split <;> rfl
      | str _ => rfl
      | bool _ => rfl
      | null => rfl
      | array => rfl
      | object => rfl

/-- C9: `RefreshAccessToken` returns the database unchanged, whatever its arguments and
the driver's faults; and a later call with the same refresh token string succeeds
whenever the string passes the service's validation at that later instant and the
stored expiry of its row has not passed, however often it was presented before. -/
theorem C9_refresh_changes_nothing (P : Platform) (s : AuthService) (db : DB)
    (parseNow : Time) (getFault : Option GoError) (checkNow iatNow expNow : Time)
    (tok : String) :
    (AuthService.RefreshAccessToken P s db parseNow getFault checkNow iatNow expNow tok).2 =
      db ∧
    ∀ (parseNow2 checkNow2 iatNow2 expNow2 : Time) (uid : Int) (r : RefreshTokenRow),
      AuthService.ValidateToken P s parseNow2 tok = (uid, none) →
      db.refresh_tokens.find? (fun r => decide (r.token = tok)) = some r →
      checkNow2.Unix ≤ r.expires_at →
      ∃ a, AuthService.RefreshAccessToken P s
        (AuthService.RefreshAccessToken P s db parseNow getFault checkNow iatNow expNow tok).2
        parseNow2 none checkNow2 iatNow2 expNow2 tok = ((a, none), db) := by
  have hdb := RefreshAccessToken_db P s db parseNow getFault checkNow iatNow expNow tok
  refine ⟨hdb, ?_⟩
  intro parseNow2 checkNow2 iatNow2 expNow2 uid r hvalid hfound hfresh
  rw [hdb]
  exact ⟨_, refresh_succeeds_of_valid P s db parseNow2 checkNow2 iatNow2 expNow2 tok uid r hvalid
    hfound hfresh⟩

/-- C9, witness: the refresh token issued for user 1 on the empty store is refreshed
twice in a row, and the store after the first call is the store before it. -/
theorem C9_refresh_changes_nothing_witness :
    let g := AuthService.GenerateTokens samplePlatform sampleService DB.empty sampleNow
      sampleNow sampleNow none 1
    let first := AuthService.RefreshAccessToken samplePlatform sampleService g.2 sampleNow
      none sampleNow sampleNow sampleNow g.1.2.1
    first.2 = g.2 ∧
    ∃ a, AuthService.RefreshAccessToken samplePlatform sampleService first.2 sampleNow none
      sampleNow sampleNow sampleNow g.1.2.1 = ((a, none), g.2) :=
  ⟨(C9_refresh_changes_nothing samplePlatform sampleService _ sampleNow none sampleNow
      sampleNow sampleNow _).1,
    (C9_refresh_changes_nothing samplePlatform sampleService _ sampleNow none sampleNow
      sampleNow sampleNow _).2 sampleNow sampleNow sampleNow sampleNow 1 _
      sample_refresh_valid (find_issued samplePlatform sampleService _ _ _ 1) (by decide)⟩


/-- A successful `RefreshAccessToken` returns the token signed for the subject that
`ValidateToken` reads from the presented refresh token. -/
theorem RefreshAccessToken_success (P : Platform) (s : AuthService) (db db' : DB)
    (parseNow : Time) (getFault : Option GoError) (checkNow iatNow expNow : Time)
    (tok a : String)
    (h : AuthService.RefreshAccessToken P s db parseNow getFault checkNow iatNow expNow tok =
      ((a, none), db')) :
    ∃ uid, AuthService.ValidateToken P s parseNow tok = (uid, none) ∧
      a = signedToken P ⟨uid, iatNow.Unix, (expNow.Add s.cfg.AccessTokenTTL).Unix⟩
        (toBytes s.cfg.Secret) := by
  unfold AuthService.RefreshAccessToken at h
  unfold AuthService.ValidateToken
  cases hp : ParseWithClaims P tok (toBytes s.cfg.Secret) parseNow with
  | error e => rw [hp] at h; simp at h
  | ok claims =>
    rw [hp] at h
    simp only at h ⊢
    cases hsub : claims.get "sub" with
    | none => rw [hsub] at h; simp at h
    | some v =>
      rw [hsub] at h
      cases v with
      | num f =>
        refine ⟨int64OfFloat64 f, rfl, ?_⟩
        simp only [SignedString_eq] at h
        rcases hr : RefreshTokenRepository.GetByToken db getFault tok with ⟨res, db1⟩
        rw [hr] at h
        cases res with
        | error e => simp at h
        | ok rt =>
          simp only at h
          split at h
          · simp at h
          · simp only [Prod.mk.injEq, and_true] at h
            exact h.1.symm
      | str _ => simp at h
      | bool _ => simp at h
      | null => simp at h
      | array => simp at h
      | object => simp at h

/-- C10, as amended: for every user id `u` of magnitude at most `2^53`, if
`RefreshAccessToken` succeeds on the refresh token that `GenerateTokens(u)` returned,
whatever the store holds for that token, the new access token validates to `u` at every
instant before its expiry (the Unix seconds written into the two tokens being exact in
float64). -/
theorem C10_refreshed_subject (P : Platform) (s : AuthService) (db0 db db' : DB)
    (now createNow1 createNow2 : Time) (u : Int) (parseNow : Time)
    (getFault : Option GoError) (checkNow iatNow expNow vnow : Time) (a : String)
    (hu : Float64Exact u) (hs : s.ExactAt now)
    (hiat : Float64Exact iatNow.Unix)
    (hexp : Float64Exact (expNow.Add s.cfg.AccessTokenTTL).Unix)
    (hsuccess : AuthService.RefreshAccessToken P s db parseNow getFault checkNow iatNow expNow
      (AuthService.GenerateTokens P s db0 now createNow1 createNow2 none u).1.2.1 =
        ((a, none), db'))
    (hbefore : vnow < Time.ofUnix (expNow.Add s.cfg.AccessTokenTTL).Unix) :
    AuthService.ValidateToken P s vnow a = (u, none) := by
  obtain ⟨uid, hvalid, ha⟩ := RefreshAccessToken_success P s db db' parseNow getFault checkNow
    iatNow expNow _ a hsuccess
  rw [GenerateTokens_eq] at hvalid
  change AuthService.ValidateToken P s parseNow
    (signedToken P (s.refreshClaims now u) (toBytes s.cfg.Secret)) = (uid, none) at hvalid
  rw [ValidateToken_signedToken P s _
    (refreshClaims_finite s now u hs (Float64Finite_of_exact u hu))] at hvalid
  have huid : uid = u := by
    cases hval : Validate (s.refreshClaims now u).decoded parseNow with
    | some e => rw [hval] at hvalid; simp at hvalid
    | none =>
      rw [hval] at hvalid
      simp only [Prod.mk.injEq, and_true] at hvalid
      rw [← hvalid]
      show int64OfFloat64 (roundToFloat64 u) = u
      rw [roundToFloat64_exact u hu, int64OfFloat64_exact u hu]
  subst huid
  rw [ha, ValidateToken_signedToken_before P s
    ⟨uid, iatNow.Unix, (expNow.Add s.cfg.AccessTokenTTL).Unix⟩
    (Finite_of_exact _ hexp hiat (Float64Finite_of_exact uid hu)) hexp vnow hbefore]
  show (int64OfFloat64 (roundToFloat64 uid), (none : Option GoError)) = (uid, none)
  rw [roundToFloat64_exact uid hu, int64OfFloat64_exact uid hu]

/-- C10, witness: user 1, the refresh token issued and refreshed at the sample instant on
the store that `GenerateTokens` left. -/
theorem C10_refreshed_subject_witness :
    let g := AuthService.GenerateTokens samplePlatform sampleService DB.empty sampleNow
      sampleNow sampleNow none 1
    let a := signedToken samplePlatform
      ⟨1, sampleNow.Unix, (sampleNow.Add sampleService.cfg.AccessTokenTTL).Unix⟩
      (toBytes sampleService.cfg.Secret)
    AuthService.RefreshAccessToken samplePlatform sampleService g.2 sampleNow none sampleNow
      sampleNow sampleNow g.1.2.1 = ((a, none), g.2) ∧
    AuthService.ValidateToken samplePlatform sampleService sampleNow a = (1, none) :=
  have hsuccess := refresh_succeeds_of_valid samplePlatform sampleService
    (AuthService.GenerateTokens samplePlatform sampleService DB.empty sampleNow
      sampleNow sampleNow none 1).2 sampleNow sampleNow sampleNow sampleNow _ 1 _
    sample_refresh_valid (find_issued samplePlatform sampleService _ _ _ 1) (by decide)
  ⟨hsuccess,
    C10_refreshed_subject samplePlatform sampleService DB.empty _ _ sampleNow sampleNow
      sampleNow 1 sampleNow none sampleNow sampleNow sampleNow sampleNow _ (by decide)
      sampleService_exactAt_sampleNow sampleService_exactAt_sampleNow.1
      sampleService_exactAt_sampleNow.2.1 hsuccess (by decide)⟩

/-- C10, counterexample: for the user id `2^53 + 1`, `RefreshAccessToken` succeeds on the
refresh token that `GenerateTokens` returned, and the new access token validates, before
its expiry, to `2^53`. -/
theorem C10_counterexample :
    let g := AuthService.GenerateTokens samplePlatform sampleService DB.empty sampleNow
      sampleNow sampleNow none 9007199254740993
    ∃ a, AuthService.RefreshAccessToken samplePlatform sampleService g.2 sampleNow none
        sampleNow sampleNow sampleNow g.1.2.1 = ((a, none), g.2) ∧
      sampleNow < Time.ofUnix (sampleNow.Add sampleService.cfg.AccessTokenTTL).Unix ∧
      AuthService.ValidateToken samplePlatform sampleService sampleNow a =
        (9007199254740992, none) := by
  intro g
  have hvalid : AuthService.ValidateToken samplePlatform sampleService sampleNow g.1.2.1 =
      (9007199254740992, none) := by
    show AuthService.ValidateToken samplePlatform sampleService sampleNow
      (AuthService.GenerateTokens samplePlatform sampleService DB.empty sampleNow
        sampleNow sampleNow none 9007199254740993).1.2.1 = _
    rw [GenerateTokens_eq]
    show AuthService.ValidateToken samplePlatform sampleService sampleNow
      (signedToken samplePlatform (sampleService.refreshClaims sampleNow 9007199254740993)
        (toBytes sampleService.cfg.Secret)) = _
    rw [ValidateToken_signedToken_before samplePlatform sampleService _
      (refreshClaims_finite _ _ _ sampleService_exactAt_sampleNow
        (Float64Finite_of_int64 _ (by unfold IsInt64; decide)))
      sampleService_exactAt_sampleNow.2.2 _ (by decide)]
    decide
  refine ⟨_, refresh_succeeds_of_valid samplePlatform sampleService g.2 sampleNow sampleNow
    sampleNow sampleNow _ _ _ hvalid
    (find_issued samplePlatform sampleService _ _ _ 9007199254740993) (by decide),
    by decide, ?_⟩
  rw [ValidateToken_signedToken_before samplePlatform sampleService _
    (Finite_of_exact _ sampleService_exactAt_sampleNow.2.1 sampleService_exactAt_sampleNow.1
      (Float64Finite_of_exact _ (by decide)))
    sampleService_exactAt_sampleNow.2.1 _ (by decide)]
  decide


theorem GenerateTokens_fault (P : Platform) (s : AuthService) (db : DB) (now t1 t2 : Time)
    (err : GoError) (userID : Int) :
    AuthService.GenerateTokens P s db now t1 t2 (some err) userID =
      (("", "", some (.wrap "failed to store refresh token"
        (.wrap "failed to create refresh token" err))), db) := rfl

theorem Create_fault (P : Platform) (db : DB) (fault : Option GoError) (t1 t2 : Time)
    (rt : RefreshToken) (e : GoError)
    (h : (RefreshTokenRepository.Create P db fault t1 t2 rt).1 = some e) :
    ∃ err, fault = some err ∧ e = .wrap "failed to create refresh token" err := by
  cases fault with
  | none => simp [RefreshTokenRepository.Create, insertRefreshToken] at h
  | some err =>
    refine ⟨err, rfl, ?_⟩
    simp [RefreshTokenRepository.Create, insertRefreshToken] at h
    exact h.symm

/-- C11: when `GenerateTokens(u)` returns without error, the store it leaves holds a row
whose token is the returned refresh token string and whose user id is `u`; when the
store's `Create` fails, `GenerateTokens` returns two empty strings and an error wrapping
that failure, and the store is as before. -/
theorem C11_refresh_token_persisted (P : Platform) (s : AuthService) (db : DB)
    (now createNow1 createNow2 : Time) (createFault : Option GoError) (u : Int) :
    let r := AuthService.GenerateTokens P s db now createNow1 createNow2 createFault u
    (r.1.2.2 = none →
      ∃ row ∈ r.2.refresh_tokens, row.token = r.1.2.1 ∧ row.user_id = u) ∧
    (∀ e, (RefreshTokenRepository.Create P db createFault createNow1 createNow2
        ⟨0, u, signedToken P (s.refreshClaims now u) (toBytes s.cfg.Secret), 0⟩).1 = some e →
      r.1 = ("", "", some (.wrap "failed to store refresh token" e)) ∧ r.2 = db) := by
  intro r
  cases createFault with
  | none =>
    have hr : r = AuthService.GenerateTokens P s db now createNow1 createNow2 none u := rfl
    rw [GenerateTokens_eq] at hr
    constructor
    · intro _
      rw [hr]
      exact ⟨_, List.mem_append_right _ (List.mem_singleton_self _), rfl, rfl⟩
    · intro e he
      obtain ⟨err, hf, _⟩ := Create_fault P db none createNow1 createNow2 _ e he
      cases hf
  | some err =>
    have hr : r = AuthService.GenerateTokens P s db now createNow1 createNow2 (some err) u := rfl
    rw [GenerateTokens_fault] at hr
    constructor
    · intro h
      rw [hr] at h
      simp at h
    · intro e he
      obtain ⟨err', hf, hw⟩ := Create_fault P db (some err) createNow1 createNow2 _ e he
      cases hf
      rw [hr, hw]
      exact ⟨rfl, rfl⟩

/-- C11, witness: both cases on the empty store, a successful issue for user 1 and an
issue during which the driver reports `connection refused`. -/
theorem C11_refresh_token_persisted_witness :
    (∃ row ∈ (AuthService.GenerateTokens samplePlatform sampleService DB.empty sampleNow
        sampleNow sampleNow none 1).2.refresh_tokens,
      row.token = (AuthService.GenerateTokens samplePlatform sampleService DB.empty sampleNow
        sampleNow sampleNow none 1).1.2.1 ∧ row.user_id = 1) ∧
    (AuthService.GenerateTokens samplePlatform sampleService DB.empty sampleNow sampleNow
        sampleNow (some (.new "connection refused")) 1).1 =
      ("", "", some (.wrap "failed to store refresh token"
        (.wrap "failed to create refresh token" (.new "connection refused")))) :=
  ⟨(C11_refresh_token_persisted samplePlatform sampleService DB.empty sampleNow sampleNow
      sampleNow none 1).1 rfl,
    ((C11_refresh_token_persisted samplePlatform sampleService DB.empty sampleNow sampleNow
      sampleNow (some (.new "connection refused")) 1).2 _ rfl).1⟩

/-- C12: when the email or the password is the empty string, `Register` returns no user
and the error `email and password are required`, whatever the store would have answered
to a lookup or a write, and the database is unchanged. -/
theorem C12_register_validation (P : Platform) (s : AuthService) (db : DB)
    (getFault : Option GoError) (salt : Bytes) (createNow : Time)
    (createFault : Option GoError) (email password : String)
    (hempty : email = "" ∨ password = "") :
    AuthService.Register P s db getFault salt createNow createFault email password =
      ((none, some (.new "email and password are required")), db) := by
  unfold AuthService.Register
  rw [if_pos hempty]

/-- C12, witness: an empty password for `alice@example.com` on a store that already holds
a user. -/
theorem C12_register_validation_witness :
    AuthService.Register samplePlatform sampleService
        ⟨[⟨1, "bob@example.com", "$2a$10$x", 0, 0, "", 0⟩], 1, [], 0⟩ none [] sampleNow none
        "alice@example.com" "" =
      ((none, some (.new "email and password are required")),
        ⟨[⟨1, "bob@example.com", "$2a$10$x", 0, 0, "", 0⟩], 1, [], 0⟩) :=
  C12_register_validation samplePlatform sampleService _ none [] sampleNow none
    "alice@example.com" "" (Or.inr rfl)

/-- C13: for a non-empty email and a non-empty password, when the store holds a user
with that email and the lookup is answered, `Register` returns no user and the error
`email already registered`, and the database is unchanged. When the lookup itself fails
(`err != nil` in `err == nil && existing != nil`), `Register` goes on although the
store holds a user with that email: it hashes the password and inserts a second user
with the same email. -/
theorem C13_register_existing (P : Platform) (s : AuthService) (db : DB) (salt : Bytes)
    (createNow : Time) (createFault : Option GoError) (email password : String)
    (existing : User)
    (hemail : email ≠ "") (hpassword : password ≠ "")
    (hfound : db.users.find? (fun u => decide (u.Email = email)) = some existing) :
    AuthService.Register P s db none salt createNow createFault email password =
      ((none, some (.new "email already registered")), db) ∧
    ∀ (err : GoError) (hash : String),
      GenerateFromPassword P salt (toBytes password) DefaultCost = .ok hash →
      AuthService.Register P s db (some err) salt createNow none email password =
        ((some ⟨db.usersSeq + 1, email, hash, 0, 0, "", createNow.Unix⟩, none),
          { db with
            users := db.users ++ [⟨db.usersSeq + 1, email, hash, 0, 0, "", createNow.Unix⟩],
            usersSeq := db.usersSeq + 1 }) := by
  constructor
  · unfold AuthService.Register
    rw [if_neg (by simp [hemail, hpassword]), GetByEmail_found db email existing hfound]
  · intro err hash hhash
    unfold AuthService.Register
    rw [if_neg (by simp [hemail, hpassword])]
    have hget : ∃ e, UserRepository.GetByEmail db (some err) email = (.error e, db) := by
      unfold UserRepository.GetByEmail selectUserByEmail
      simp only
      split
      · exact ⟨_, rfl⟩
      · exact ⟨_, rfl⟩
    obtain ⟨e, he⟩ := hget
    rw [he]
    simp only [hhash]
    rfl

/-- C13, witness: `alice@example.com` registers a second time; with the lookup answered
the registration is refused, with a driver fault on the lookup a second user with that
email is inserted. -/
theorem C13_register_existing_witness :
    AuthService.Register samplePlatform sampleService
        ⟨[⟨1, "alice@example.com", "$2a$10$secret123", 0, 0, "", 0⟩], 1, [], 0⟩ none [] sampleNow
        none "alice@example.com" "other-password" =
      ((none, some (.new "email already registered")),
        ⟨[⟨1, "alice@example.com", "$2a$10$secret123", 0, 0, "", 0⟩], 1, [], 0⟩) ∧
    AuthService.Register samplePlatform sampleService
        ⟨[⟨1, "alice@example.com", "$2a$10$secret123", 0, 0, "", 0⟩], 1, [], 0⟩
        (some (.new "connection refused")) [] sampleNow none "alice@example.com"
        "other-password" =
      ((some ⟨2, "alice@example.com", "$2a$10$other-password", 0, 0, "", 1700000000⟩, none),
        ⟨[⟨1, "alice@example.com", "$2a$10$secret123", 0, 0, "", 0⟩,
          ⟨2, "alice@example.com", "$2a$10$other-password", 0, 0, "", 1700000000⟩], 2, [],
          0⟩) :=
  ⟨(C13_register_existing samplePlatform sampleService _ [] sampleNow none
      "alice@example.com" "other-password"
      ⟨1, "alice@example.com", "$2a$10$secret123", 0, 0, "", 0⟩
      (by decide) (by decide) (by decide)).1,
    (C13_register_existing samplePlatform sampleService _ [] sampleNow none
      "alice@example.com" "other-password"
      ⟨1, "alice@example.com", "$2a$10$secret123", 0, 0, "", 0⟩
      (by decide) (by decide) (by decide)).2 (.new "connection refused")
      "$2a$10$other-password" rfl⟩


/-- What a successful `Register` has done: the lookup reported no user, bcrypt produced a
hash, and the insert was performed without a fault. -/
theorem Register_success (P : Platform) (s : AuthService) (db db' : DB)
    (getFault : Option GoError) (salt : Bytes) (createNow : Time)
    (createFault : Option GoError) (email password : String) (u : User)
    (h : AuthService.Register P s db getFault salt createNow createFault email password =
      ((some u, none), db')) :
    createFault = none ∧
    GenerateFromPassword P salt (toBytes password) DefaultCost = .ok u.PasswordHash ∧
    u = ⟨db.usersSeq + 1, email, u.PasswordHash, 0, 0, "", createNow.Unix⟩ ∧
    db' = { db with users := db.users ++ [u], usersSeq := db.usersSeq + 1 } := by
  unfold AuthService.Register at h
  split at h
  · simp at h
  · have hdb : (UserRepository.GetByEmail db getFault email).2 = db := by
      unfold UserRepository.GetByEmail selectUserByEmail
      cases getFault with
      | some e => simp only; split <;> rfl
      | none =>
        simp only
        cases db.users.find? (fun u => decide (u.Email = email)) <;> rfl
    rcases hg : UserRepository.GetByEmail db getFault email with ⟨res, db1⟩
    rw [hg] at h hdb
    simp only at hdb
    subst hdb
    cases res with
    | ok existing => simp at h
    | error e =>
      simp only at h
      cases hgen : GenerateFromPassword P salt (toBytes password) DefaultCost with
      | error e => rw [hgen] at h; simp at h
      | ok hash =>
        rw [hgen] at h
        simp only at h
        cases createFault with
        | some e =>
          simp [UserRepository.Create, insertUser] at h
        | none =>
          simp only [UserRepository.Create, insertUser, Prod.mk.injEq, Option.some.injEq,
            and_true] at h
          obtain ⟨hu, hd⟩ := h
          subst hu
          exact ⟨rfl, rfl, rfl, hd.symm⟩

/-- C14: when `Register` succeeds, the database it leaves is the database before with
exactly one row appended to `users`, that row is the returned user, whose `Email` is the
given email, whose `ID` is the next value of the id sequence, and whose `PasswordHash` is
the hash text that bcrypt produced for the given password, which verifies against that
password. -/
theorem C14_register_persists (P : Platform) (s : AuthService) (db db' : DB)
    (getFault : Option GoError) (salt : Bytes) (createNow : Time)
    (createFault : Option GoError) (email password : String) (u : User)
    (hsuccess : AuthService.Register P s db getFault salt createNow createFault email
      password = ((some u, none), db')) :
    db'.users = db.users ++ [u] ∧ db'.usersSeq = db.usersSeq + 1 ∧
    db'.refresh_tokens = db.refresh_tokens ∧
    db'.refreshTokensSeq = db.refreshTokensSeq ∧
    u.Email = email ∧ u.ID = db.usersSeq + 1 ∧
    GenerateFromPassword P salt (toBytes password) DefaultCost = .ok u.PasswordHash ∧
    u.PasswordHash = P.bcryptHash DefaultCost salt (toBytes password) ∧
    CompareHashAndPassword P u.PasswordHash (toBytes password) = none := by
  obtain ⟨_, hgen, hu, hdb⟩ := Register_success P s db db' getFault salt createNow createFault
    email password u hsuccess
  have hhash : u.PasswordHash = P.bcryptHash DefaultCost salt (toBytes password) := by
    unfold GenerateFromPassword at hgen
    split at hgen
    · simp at hgen
    · simp only [DefaultCost] at hgen ⊢
      simp at hgen
      exact hgen.symm
  refine ⟨by rw [hdb], by rw [hdb], by rw [hdb], by rw [hdb], by rw [hu], by rw [hu], hgen,
    hhash, ?_⟩
  unfold CompareHashAndPassword
  rw [hhash, if_pos (P.bcryptVerify_bcryptHash _ _ _)]

theorem sample_register :
    AuthService.Register samplePlatform sampleService DB.empty none [] sampleNow none
        "alice@example.com" "secret123" =
      ((some ⟨1, "alice@example.com", "$2a$10$secret123", 0, 0, "", 1700000000⟩, none),
        ⟨[⟨1, "alice@example.com", "$2a$10$secret123", 0, 0, "", 1700000000⟩], 1, [], 0⟩) := by
  decide

/-- C14, witness: `alice@example.com` / `secret123` registers on the empty store and gets
the id 1. -/
theorem C14_register_persists_witness :
    (⟨[⟨1, "alice@example.com", "$2a$10$secret123", 0, 0, "", 1700000000⟩], 1, [], 0⟩ : DB).users =
      DB.empty.users ++ [⟨1, "alice@example.com", "$2a$10$secret123", 0, 0, "", 1700000000⟩] ∧
    (⟨1, "alice@example.com", "$2a$10$secret123", 0, 0, "", 1700000000⟩ : User).ID =
      DB.empty.usersSeq + 1 ∧
    CompareHashAndPassword samplePlatform
      (⟨1, "alice@example.com", "$2a$10$secret123", 0, 0, "", 1700000000⟩ : User).PasswordHash
      (toBytes "secret123") = none :=
  have h := C14_register_persists samplePlatform sampleService DB.empty _ none [] sampleNow
    none "alice@example.com" "secret123" _ sample_register
  ⟨h.1, h.2.2.2.2.2.1, h.2.2.2.2.2.2.2.2⟩


/-- The claims that `ParseWithClaims` returns do not depend on the instant of the call. -/
theorem ParseWithClaims_claims (P : Platform) (tok : String) (key : Bytes) (now1 now2 : Time)
    (c1 c2 : JObject) (h1 : ParseWithClaims P tok key now1 = .ok c1)
    (h2 : ParseWithClaims P tok key now2 = .ok c2) : c1 = c2 := by
  unfold ParseWithClaims at h1 h2
  repeat' split at h1
  all_goals try (simp at h1; done)
  all_goals simp_all
  all_goals (repeat' split at h2) <;> simp_all

/-- Two successful validations of one token string yield the same subject. -/
theorem ValidateToken_subject (P : Platform) (s : AuthService) (tok : String)
    (now1 now2 : Time) (uid1 uid2 : Int)
    (h1 : AuthService.ValidateToken P s now1 tok = (uid1, none))
    (h2 : AuthService.ValidateToken P s now2 tok = (uid2, none)) : uid1 = uid2 := by
  unfold AuthService.ValidateToken at h1 h2
  cases hp1 : ParseWithClaims P tok (toBytes s.cfg.Secret) now1 with
  | error e => rw [hp1] at h1; simp at h1
  | ok c1 =>
    cases hp2 : ParseWithClaims P tok (toBytes s.cfg.Secret) now2 with
    | error e => rw [hp2] at h2; simp at h2
    | ok c2 =>
      have hc := ParseWithClaims_claims P tok _ now1 now2 c1 c2 hp1 hp2
      subst hc
      rw [hp1] at h1
      rw [hp2] at h2
      simp only at h1 h2
      rw [h1] at h2
      simp only [Prod.mk.injEq, and_true] at h2
      exact h2

/-- C15: two calls of `ValidateToken` on one token string that both succeed, at whatever
instants and whatever happened to the stores in between, return the same subject.
(`ValidateToken` has no database among its arguments and results: the source function
calls no repository.) -/
theorem C15_validate_same_subject (P : Platform) (s : AuthService) (tok : String)
    (now1 now2 : Time) (uid1 uid2 : Int)
    (hfirst : AuthService.ValidateToken P s now1 tok = (uid1, none))
    (hsecond : AuthService.ValidateToken P s now2 tok = (uid2, none)) : uid2 = uid1 :=
  (ValidateToken_subject P s tok now1 now2 uid1 uid2 hfirst hsecond).symm

theorem sample_access_valid (vnow : Time)
    (h : vnow < Time.ofUnix (sampleNow.Add sampleService.cfg.AccessTokenTTL).Unix) :
    AuthService.ValidateToken samplePlatform sampleService vnow
      (AuthService.GenerateTokens samplePlatform sampleService DB.empty sampleNow sampleNow
        sampleNow none 1).1.1 = (1, none) := by
  rw [GenerateTokens_eq]
  show AuthService.ValidateToken samplePlatform sampleService vnow
    (signedToken samplePlatform (sampleService.accessClaims sampleNow 1)
      (toBytes sampleService.cfg.Secret)) = (1, none)
  rw [ValidateToken_signedToken_before samplePlatform sampleService _
    (accessClaims_finite _ _ _ sampleService_exactAt_sampleNow
      (Float64Finite_of_exact 1 (by decide)))
    sampleService_exactAt_sampleNow.2.1 _ h]
  decide

theorem sample_delete_all :
    (RefreshTokenRepository.DeleteByToken
      (AuthService.GenerateTokens samplePlatform sampleService DB.empty sampleNow sampleNow
        sampleNow none 1).2 none
      (AuthService.GenerateTokens samplePlatform sampleService DB.empty sampleNow sampleNow
        sampleNow none 1).1.2.1).2.refresh_tokens = [] := by
  rw [GenerateTokens_eq]
  simp [RefreshTokenRepository.DeleteByToken, deleteRefreshTokenByToken, DB.empty]

/-- C15, witness: the access token issued for user 1 validates to 1 at the instant of
issue and ten minutes later; the deletion of the user's only refresh token, which
empties the store, is no argument of either call. -/
theorem C15_validate_same_subject_witness :
    let g := AuthService.GenerateTokens samplePlatform sampleService DB.empty sampleNow
      sampleNow sampleNow none 1
    (RefreshTokenRepository.DeleteByToken g.2 none g.1.2.1).2.refresh_tokens = [] ∧
    AuthService.ValidateToken samplePlatform sampleService sampleNow g.1.1 = (1, none) ∧
    AuthService.ValidateToken samplePlatform sampleService (sampleNow.Add (10 * Minute))
      g.1.1 = (1, none) ∧ (1 : Int) = 1 :=
  ⟨sample_delete_all, sample_access_valid sampleNow (by decide),
    sample_access_valid (sampleNow.Add (10 * Minute)) (by decide),
    C15_validate_same_subject samplePlatform sampleService _ sampleNow
      (sampleNow.Add (10 * Minute)) 1 1 (sample_access_valid sampleNow (by decide))
      (sample_access_valid (sampleNow.Add (10 * Minute)) (by decide))⟩


/-- `ParseWithClaims` on a token with the header of `SignedString` and an arbitrary
claims text that decodes to `claims`. -/
theorem ParseWithClaims_signedPayload (P : Platform) (payload : List Char) (claims : JObject)
    (hpayload : Unmarshal (charsToBytes payload) = some claims) (key : Bytes) (now : Time) :
    ParseWithClaims P (signedPayload P payload key) key now =
      match Validate claims now with
      | some e => .error (.join ErrTokenInvalidClaims e)
      | none => .ok claims := by
  have hdot : ∀ bs : Bytes, ∀ x ∈ EncodeToString bs, x ≠ '.' :=
    fun bs x hx => (EncodeToString_chars bs x hx).1
  unfold ParseWithClaims
  have hsplit : splitDot (signedPayload P payload key).data =
      [EncodeToString (charsToBytes headerJSON), EncodeToString (charsToBytes payload),
        EncodeToString (hmac P.sha256 64 key (charsToBytes
          (EncodeToString (charsToBytes headerJSON) ++ '.' ::
            EncodeToString (charsToBytes payload))))] := by
    show splitDot ((EncodeToString (charsToBytes headerJSON) ++ '.' ::
      EncodeToString (charsToBytes payload)) ++ '.' :: _) = _
    rw [List.append_assoc, List.cons_append]
    exact splitDot_three _ _ _ (hdot _) (hdot _) (hdot _)
  rw [hsplit]
  simp only [DecodeString_EncodeToString, Option.some_bind, Unmarshal_headerJSON, hpayload]
  have halg : JObject.get [("alg", JVal.str "HS256"), ("typ", JVal.str "JWT")] "alg" =
      some (.str "HS256") := rfl
  have hm : GetSigningMethod "HS256" = some .HS256 := rfl
  simp only [halg, hm, SigningMethod.Verify, if_true]

theorem isInvalidTokenError_wrap (cause : GoError) :
    IsInvalidTokenError (.wrap "invalid token" cause) := by
  unfold IsInvalidTokenError
  simp only [GoError.Error, String.data_append]
  exact ⟨_, rfl⟩

/-- C16: for every token string `ValidateToken` returns either a user id with no error
or the user id 0 with an error whose message starts with `invalid token`; when the
codec rejects the string the error wraps the codec's error; when the codec accepts it
and the claims have no `sub`, or a `sub` that is not a number, the error is
`invalid token: missing sub`, respectively `invalid token: sub is not a number`; when
`sub` is a number the result is its int64 conversion. -/
theorem C16_validate_outcomes (P : Platform) (s : AuthService) (now : Time) (tok : String) :
    ((∃ uid, AuthService.ValidateToken P s now tok = (uid, none)) ∨
      (∃ e, AuthService.ValidateToken P s now tok = (0, some e) ∧ IsInvalidTokenError e)) ∧
    (∀ err, ParseWithClaims P tok (toBytes s.cfg.Secret) now = .error err →
      AuthService.ValidateToken P s now tok = (0, some (.wrap "invalid token" err)) ∧
      GoError.Wraps (.wrap "invalid token" err) err) ∧
    (∀ claims, ParseWithClaims P tok (toBytes s.cfg.Secret) now = .ok claims →
      (claims.get "sub" = none →
        AuthService.ValidateToken P s now tok =
          (0, some (.new "invalid token: missing sub"))) ∧
      (∀ v, claims.get "sub" = some v → (∀ f, v ≠ .num f) →
        AuthService.ValidateToken P s now tok =
          (0, some (.new "invalid token: sub is not a number"))) ∧
      (∀ f, claims.get "sub" = some (.num f) →
        AuthService.ValidateToken P s now tok = (int64OfFloat64 f, none))) := by
  have hparts :
      (∀ err, ParseWithClaims P tok (toBytes s.cfg.Secret) now = .error err →
        AuthService.ValidateToken P s now tok = (0, some (.wrap "invalid token" err))) ∧
      (∀ claims, ParseWithClaims P tok (toBytes s.cfg.Secret) now = .ok claims →
        (claims.get "sub" = none →
          AuthService.ValidateToken P s now tok =
            (0, some (.new "invalid token: missing sub"))) ∧
        (∀ v, claims.get "sub" = some v → (∀ f, v ≠ .num f) →
          AuthService.ValidateToken P s now tok =
            (0, some (.new "invalid token: sub is not a number"))) ∧
        (∀ f, claims.get "sub" = some (.num f) →
          AuthService.ValidateToken P s now tok = (int64OfFloat64 f, none))) := by
    unfold AuthService.ValidateToken
    refine ⟨?_, ?_⟩
    · intro err h
      rw [h]
    · intro claims h
      rw [h]
      refine ⟨?_, ?_, ?_⟩
      · intro hs; simp only [hs]
      · intro v hs hv
        cases v with
        | num f => exact absurd rfl (hv f)
        | str _ => simp only [hs]
        | bool _ => simp only [hs]
        | null => simp only [hs]
        | array => simp only [hs]
        | object => simp only [hs]
      · intro f hs; simp only [hs]
  refine ⟨?_, fun err h => ⟨hparts.1 err h, _, rfl⟩, hparts.2⟩
  cases hp : ParseWithClaims P tok (toBytes s.cfg.Secret) now with
  | error err =>
    exact Or.inr ⟨_, hparts.1 err hp, isInvalidTokenError_wrap err⟩
  | ok claims =>
    obtain ⟨h1, h2, h3⟩ := hparts.2 claims hp
    cases hs : claims.get "sub" with
    | none => exact Or.inr ⟨_, h1 hs, by unfold IsInvalidTokenError; decide⟩
    | some v =>
      cases v with
      | num f => exact Or.inl ⟨_, h3 f hs⟩
      | str x =>
        exact Or.inr ⟨_, h2 _ hs (fun f => by simp), by unfold IsInvalidTokenError; decide⟩
      | bool x =>
        exact Or.inr ⟨_, h2 _ hs (fun f => by simp), by unfold IsInvalidTokenError; decide⟩
      | null =>
        exact Or.inr ⟨_, h2 _ hs (fun f => by simp), by unfold IsInvalidTokenError; decide⟩
      | array =>
        exact Or.inr ⟨_, h2 _ hs (fun f => by simp), by unfold IsInvalidTokenError; decide⟩
      | object =>
        exact Or.inr ⟨_, h2 _ hs (fun f => by simp), by unfold IsInvalidTokenError; decide⟩

/-- C16, witness: three tokens signed with the service's secret, whose claims are the
empty object, an object with the string `alice` as `sub`, and an expired token of the
service. -/
theorem C16_validate_outcomes_witness :
    AuthService.ValidateToken samplePlatform sampleService sampleNow
        (signedPayload samplePlatform "\x7b\x7d".data (toBytes sampleService.cfg.Secret)) =
      (0, some (.new "invalid token: missing sub")) ∧
    AuthService.ValidateToken samplePlatform sampleService sampleNow
        (signedPayload samplePlatform "\x7b\"sub\":\"alice\"\x7d".data
          (toBytes sampleService.cfg.Secret)) =
      (0, some (.new "invalid token: sub is not a number")) ∧
    AuthService.ValidateToken samplePlatform sampleService (Time.ofUnix 1700000900)
        (signedToken samplePlatform (sampleService.accessClaims sampleNow 1)
          (toBytes sampleService.cfg.Secret)) =
      (0, some (.wrap "invalid token" (.join ErrTokenInvalidClaims ErrTokenExpired))) :=
  ⟨((C16_validate_outcomes samplePlatform sampleService sampleNow _).2.2 []
      (ParseWithClaims_signedPayload samplePlatform "\x7b\x7d".data [] rfl _ _)).1 rfl,
    ((C16_validate_outcomes samplePlatform sampleService sampleNow _).2.2
      [("sub", .str "alice")]
      (ParseWithClaims_signedPayload samplePlatform "\x7b\"sub\":\"alice\"\x7d".data
        [("sub", .str "alice")] rfl _ _)).2.1
      (.str "alice") rfl (fun f => by simp),
    ((C16_validate_outcomes samplePlatform sampleService (Time.ofUnix 1700000900) _).2.1 _
      (by
        rw [ParseWithClaims_signedToken samplePlatform _
          (accessClaims_finite _ _ _ sampleService_exactAt_sampleNow
            (Float64Finite_of_exact 1 (by decide))), if_pos rfl,
          Validate_after _ sampleService_exactAt_sampleNow.2.1 (by decide) _ (by decide)])).1⟩


theorem Unix_add_seconds (t : Time) (n : Int) :
    (t.Add (n * Second)).Unix = t.Unix + n := by
  unfold Time.Add Time.Unix Second
  omega

/-- With the horizons of `config.Load`, the tokens that `GenerateTokens` returns carry
the subject `u`, the Unix second of `t` as `iat`, and an `exp` that is 900 seconds,
respectively 604800 seconds, later. -/
theorem GenerateTokens_horizons (P : Platform) (s : AuthService) (db : DB)
    (t createNow1 createNow2 : Time) (u : Int)
    (ha : s.cfg.AccessTokenTTL = 15 * Minute) (hr : s.cfg.RefreshTokenTTL = 7 * 24 * Hour) :
    (AuthService.GenerateTokens P s db t createNow1 createNow2 none u).1 =
      (signedToken P ⟨u, t.Unix, t.Unix + 900⟩ (toBytes s.cfg.Secret),
        signedToken P ⟨u, t.Unix, t.Unix + 604800⟩ (toBytes s.cfg.Secret), none) := by
  rw [GenerateTokens_eq]
  have h1 : (t.Add s.cfg.AccessTokenTTL).Unix = t.Unix + 900 := by
    rw [ha]
    have : (15 * Minute : Duration) = 900 * Second := by unfold Minute; ring
    rw [this, Unix_add_seconds]
  have h2 : (t.Add s.cfg.RefreshTokenTTL).Unix = t.Unix + 604800 := by
    rw [hr]
    have : (7 * 24 * Hour : Duration) = 604800 * Second := by unfold Hour Minute; ring
    rw [this, Unix_add_seconds]
  simp only [AuthService.accessClaims, AuthService.refreshClaims, h1, h2]

/-- C17, the horizons of issued tokens and the failing input of the refresh path: with the
configuration of `config.Load`, `GenerateTokens` at `t` issues two tokens with `sub = u`,
`iat` the Unix second of `t` and `exp - iat` equal to 900 and to 604800; but when the
clock passes a second boundary between the two readings that `RefreshAccessToken` takes
for `iat` and for `exp` (here one nanosecond before and exactly at Unix second
1700000001), the access token it returns has `exp - iat = 901`. -/
theorem C17_refresh_horizon_off_by_one :
    (∀ (P : Platform) (s : AuthService) (db : DB) (t createNow1 createNow2 : Time) (u : Int),
      s.cfg.AccessTokenTTL = 15 * Minute → s.cfg.RefreshTokenTTL = 7 * 24 * Hour →
      (AuthService.GenerateTokens P s db t createNow1 createNow2 none u).1 =
        (signedToken P ⟨u, t.Unix, t.Unix + 900⟩ (toBytes s.cfg.Secret),
          signedToken P ⟨u, t.Unix, t.Unix + 604800⟩ (toBytes s.cfg.Secret), none)) ∧
    AuthService.RefreshAccessToken samplePlatform sampleService
        (AuthService.GenerateTokens samplePlatform sampleService DB.empty sampleNow
          sampleNow sampleNow none 1).2
        sampleNow none sampleNow (Time.ofUnix 1700000001 - 1) (Time.ofUnix 1700000001)
        (AuthService.GenerateTokens samplePlatform sampleService DB.empty sampleNow
          sampleNow sampleNow none 1).1.2.1 =
      ((signedToken samplePlatform ⟨1, 1700000000, 1700000901⟩
        (toBytes sampleService.cfg.Secret), none),
        (AuthService.GenerateTokens samplePlatform sampleService DB.empty sampleNow
          sampleNow sampleNow none 1).2) ∧
    (1700000901 : Int) - 1700000000 = 901 := by
  refine ⟨fun P s db t c1 c2 u ha hr => GenerateTokens_horizons P s db t c1 c2 u ha hr, ?_,
    by decide⟩
  have h := refresh_succeeds_of_valid samplePlatform sampleService
    (AuthService.GenerateTokens samplePlatform sampleService DB.empty sampleNow
      sampleNow sampleNow none 1).2 sampleNow sampleNow
    (Time.ofUnix 1700000001 - 1) (Time.ofUnix 1700000001) _ 1 _ sample_refresh_valid
    (find_issued samplePlatform sampleService _ _ _ 1) (by decide)
  rw [h]
  have e1 : (Time.ofUnix 1700000001 - 1 : Time).Unix = 1700000000 := by decide
  have e2 : ((Time.ofUnix 1700000001).Add sampleService.cfg.AccessTokenTTL).Unix =
      1700000901 := by decide
  rw [e1, e2]

theorem EncodeToString_injective (a b : Bytes) (h : EncodeToString a = EncodeToString b) :
    a = b := by
  have := congrArg DecodeString h
  rw [DecodeString_EncodeToString, DecodeString_EncodeToString] at this
  exact Option.some.inj this

theorem formatted_int_eq (a b : Int) (hs : decide (a < 0) = decide (b < 0))
    (hn : a.natAbs = b.natAbs) : a = b := by
  simp only [decide_eq_decide] at hs
  omega

/-- The JSON text of issued claims determines the claims. -/
theorem claimsJSON_injective (c1 c2 : IssuedClaims) (h : claimsJSON c1 = claimsJSON c2) :
    c1 = c2 := by
  have h1 := lex_claimsJSON c1
  rw [h, lex_claimsJSON c2] at h1
  simp only [Option.some.injEq, List.cons.injEq, Tok.num.injEq, and_true, true_and] at h1
  obtain ⟨⟨hes, hen⟩, ⟨his, hin⟩, hss, hsn⟩ := h1
  cases c1; cases c2
  simp only [IssuedClaims.mk.injEq]
  exact ⟨formatted_int_eq _ _ hss.symm hsn.symm, formatted_int_eq _ _ his.symm hin.symm,
    formatted_int_eq _ _ hes.symm hen.symm⟩

/-- The token text determines the claims it was signed for, whatever the keys. -/
theorem signedToken_injective (P : Platform) (c1 c2 : IssuedClaims) (k1 k2 : Bytes)
    (h : signedToken P c1 k1 = signedToken P c2 k2) : c1 = c2 := by
  have hdot : ∀ bs : Bytes, ∀ x ∈ EncodeToString bs, x ≠ '.' :=
    fun bs x hx => (EncodeToString_chars bs x hx).1
  have hsplit : ∀ (c : IssuedClaims) (k : Bytes), splitDot (signedToken P c k).data =
      [EncodeToString (charsToBytes headerJSON), EncodeToString (charsToBytes (claimsJSON c)),
        EncodeToString (hmac P.sha256 64 k (charsToBytes (SigningString c)))] := by
    intro c k
    show splitDot (SigningString c ++ '.' :: _) = _
    unfold SigningString
    rw [List.append_assoc, List.cons_append]
    exact splitDot_three _ _ _ (hdot _) (hdot _) (hdot _)
  have h1 := hsplit c1 k1
  rw [h, hsplit c2 k2] at h1
  simp only [List.cons.injEq, true_and] at h1
  have hb := EncodeToString_injective _ _ h1.1
  have ht := congrArg (decodeRunes none) hb
  rw [decodeRunes_charsToBytes _ (claimsJSON_ascii c1),
    decodeRunes_charsToBytes _ (claimsJSON_ascii c2)] at ht
  exact (claimsJSON_injective c1 c2 ht.symm)

/-- C18, as amended: the refresh token string is a function of the secret, the user id
and the two Unix seconds written into it. Two successful calls of `GenerateTokens` of one
service return the same refresh token string exactly when they agree on the user id, on
the Unix second of the issue instant and on the Unix second of the expiry; calls for
different user ids or in different seconds return different strings. -/
theorem C18_refresh_token_strings (P : Platform) (s : AuthService) (db1 db2 : DB)
    (t1 a1 b1 t2 a2 b2 : Time) (u1 u2 : Int) :
    (AuthService.GenerateTokens P s db1 t1 a1 b1 none u1).1.2.1 =
        (AuthService.GenerateTokens P s db2 t2 a2 b2 none u2).1.2.1 ↔
      (u1 = u2 ∧ t1.Unix = t2.Unix ∧
        (t1.Add s.cfg.RefreshTokenTTL).Unix = (t2.Add s.cfg.RefreshTokenTTL).Unix) := by
  rw [GenerateTokens_eq, GenerateTokens_eq]
  show signedToken P (s.refreshClaims t1 u1) (toBytes s.cfg.Secret) =
    signedToken P (s.refreshClaims t2 u2) (toBytes s.cfg.Secret) ↔ _
  constructor
  · intro h
    have hc := signedToken_injective P _ _ _ _ h
    simp only [AuthService.refreshClaims, IssuedClaims.mk.injEq] at hc
    exact hc
  · rintro ⟨hu, ht, he⟩
    simp only [AuthService.refreshClaims, hu, ht, he]

/-- C18, counterexample: user 1 is issued tokens at the sample instant, the refresh token
is deleted from the store, and user 1 is issued tokens again half a second later. Both
calls succeed and return the same refresh token string. -/
theorem C18_counterexample :
    let first := AuthService.GenerateTokens samplePlatform sampleService DB.empty sampleNow
      sampleNow sampleNow none 1
    let deleted := RefreshTokenRepository.DeleteByToken first.2 none first.1.2.1
    let second := AuthService.GenerateTokens samplePlatform sampleService deleted.2
      (sampleNow.Add 500000000) (sampleNow.Add 500000000) (sampleNow.Add 500000000) none 1
    first.1.2.2 = none ∧ deleted.1 = none ∧ second.1.2.2 = none ∧
      first.1.2.1 = second.1.2.1 := by
  intro first deleted second
  have h1 : first.1.2.2 = none := rfl
  have h3 : second.1.2.2 = none := rfl
  have hd : deleted.1 = none := by
    show (RefreshTokenRepository.DeleteByToken
      (AuthService.GenerateTokens samplePlatform sampleService DB.empty sampleNow
        sampleNow sampleNow none 1).2 none
      (AuthService.GenerateTokens samplePlatform sampleService DB.empty sampleNow
        sampleNow sampleNow none 1).1.2.1).1 = none
    rw [GenerateTokens_eq]
    simp [RefreshTokenRepository.DeleteByToken, deleteRefreshTokenByToken, DB.empty]
  refine ⟨h1, hd, h3, ?_⟩
  show (AuthService.GenerateTokens samplePlatform sampleService DB.empty sampleNow
      sampleNow sampleNow none 1).1.2.1 =
    (AuthService.GenerateTokens samplePlatform sampleService deleted.2
      (sampleNow.Add 500000000) (sampleNow.Add 500000000) (sampleNow.Add 500000000) none
      1).1.2.1
  rw [GenerateTokens_eq, GenerateTokens_eq]
  show signedToken samplePlatform (sampleService.refreshClaims sampleNow 1) _ =
    signedToken samplePlatform (sampleService.refreshClaims (sampleNow.Add 500000000) 1) _
  have : sampleService.refreshClaims sampleNow 1 =
      sampleService.refreshClaims (sampleNow.Add 500000000) 1 := by decide
  rw [this]


theorem GetByEmail_db (db : DB) (fault : Option GoError) (email : String) :
    (UserRepository.GetByEmail db fault email).2 = db := by
  unfold UserRepository.GetByEmail selectUserByEmail
  cases fault with
  | some e => simp only; split <;> rfl
  | none =>
    simp only
    cases db.users.find? (fun u => decide (u.Email = email)) <;> rfl

/-- `Login` answers every failed lookup with `invalid credentials`. -/
theorem Login_lookup_failed (P : Platform) (s : AuthService) (db : DB)
    (getFault : Option GoError) (email password : String) (e : GoError)
    (h : (UserRepository.GetByEmail db getFault email).1 = .error e) :
    AuthService.Login P s db getFault email password =
      ((none, some (.new "invalid credentials")), db) := by
  have hdb := GetByEmail_db db getFault email
  unfold AuthService.Login
  rcases hg : UserRepository.GetByEmail db getFault email with ⟨res, db1⟩
  rw [hg] at h hdb
  simp only at h hdb
  subst h hdb
  rfl

/-- `Register` goes on to hash and insert after a lookup that failed, whatever the
failure: with a driver fault on the lookup a second row with the email of an existing
user is inserted. -/
theorem Register_after_failed_lookup :
    AuthService.Register samplePlatform sampleService
        ⟨[⟨1, "alice@example.com", "$2a$10$secret123", 0, 0, "", 0⟩], 1, [], 0⟩
        (some (.new "connection refused")) [] sampleNow none "alice@example.com" "other" =
      ((some ⟨2, "alice@example.com", "$2a$10$other", 0, 0, "", 1700000000⟩, none),
        ⟨[⟨1, "alice@example.com", "$2a$10$secret123", 0, 0, "", 0⟩,
          ⟨2, "alice@example.com", "$2a$10$other", 0, 0, "", 1700000000⟩], 2, [], 0⟩) := by
  decide

/-- C19, as amended: a failure of the store's `Create` makes `Register` and
`GenerateTokens` fail with an error that wraps it (`failed to create user`,
`failed to store refresh token`), and a failure of `GetByToken` makes
`RefreshAccessToken` fail with an error that wraps it (`refresh token not found`);
`Login` answers every failure of `GetByEmail` with the bare error `invalid credentials`. -/
theorem C19_store_failures (P : Platform) (s : AuthService) (db : DB)
    (getFault : Option GoError) (salt : Bytes) (createNow : Time)
    (createFault : Option GoError) (email password : String)
    (now createNow1 createNow2 : Time) (u : Int)
    (parseNow checkNow iatNow expNow : Time) (tok : String) :
    (∀ lookupErr hash e, email ≠ "" → password ≠ "" →
      (UserRepository.GetByEmail db getFault email).1 = .error lookupErr →
      GenerateFromPassword P salt (toBytes password) DefaultCost = .ok hash →
      (UserRepository.Create db createFault createNow ⟨0, email, hash, 0, 0, "", 0⟩).1 =
        some e →
      (AuthService.Register P s db getFault salt createNow createFault email password).1 =
        (none, some (.wrap "failed to create user" e)) ∧
      GoError.Wraps (.wrap "failed to create user" e) e) ∧
    (∀ e, (RefreshTokenRepository.Create P db createFault createNow1 createNow2
        ⟨0, u, signedToken P (s.refreshClaims now u) (toBytes s.cfg.Secret), 0⟩).1 = some e →
      (AuthService.GenerateTokens P s db now createNow1 createNow2 createFault u).1 =
        ("", "", some (.wrap "failed to store refresh token" e)) ∧
      GoError.Wraps (.wrap "failed to store refresh token" e) e) ∧
    (∀ uid e, AuthService.ValidateToken P s parseNow tok = (uid, none) →
      (RefreshTokenRepository.GetByToken db getFault tok).1 = .error e →
      (AuthService.RefreshAccessToken P s db parseNow getFault checkNow iatNow expNow tok).1 =
        ("", some (.wrap "refresh token not found" e)) ∧
      GoError.Wraps (.wrap "refresh token not found" e) e) ∧
    (∀ e, (UserRepository.GetByEmail db getFault email).1 = .error e →
      (AuthService.Login P s db getFault email password).1 =
        (none, some (.new "invalid credentials"))) := by
  refine ⟨?_, ?_, ?_, ?_⟩
  · intro lookupErr hash e hemail hpassword hlookup hhash hcreate
    refine ⟨?_, _, rfl⟩
    have hdb := GetByEmail_db db getFault email
    unfold AuthService.Register
    rw [if_neg (by simp [hemail, hpassword])]
    rcases hg : UserRepository.GetByEmail db getFault email with ⟨res, db1⟩
    rw [hg] at hlookup hdb
    simp only at hlookup hdb
    subst hlookup hdb
    simp only [hhash]
    cases createFault with
    | none => simp [UserRepository.Create, insertUser] at hcreate
    | some d =>
      simp only [UserRepository.Create, insertUser, Option.some.injEq] at hcreate ⊢
      rw [hcreate]
  · intro e he
    refine ⟨?_, _, rfl⟩
    obtain ⟨err, hf, hw⟩ := Create_fault P db createFault createNow1 createNow2 _ e he
    rw [hf, GenerateTokens_fault, hw]
  · intro uid e hvalid hget
    refine ⟨?_, _, rfl⟩
    have hdb := GetByToken_db db getFault tok
    rw [RefreshAccessToken_of_valid P s db parseNow getFault checkNow iatNow expNow tok uid
      hvalid]
    rcases hg : RefreshTokenRepository.GetByToken db getFault tok with ⟨res, db1⟩
    rw [hg] at hget hdb
    simp only at hget hdb
    subst hget hdb
    rfl
  · intro e he
    rw [Login_lookup_failed P s db getFault email password e he]

/-- C19, witness: the driver reports `connection refused` for the insert of `Register`,
for the insert of `GenerateTokens` and for the lookup of `RefreshAccessToken`. -/
theorem C19_store_failures_witness :
    (AuthService.Register samplePlatform sampleService DB.empty none [] sampleNow
        (some (.new "connection refused")) "alice@example.com" "secret123").1 =
      (none, some (.wrap "failed to create user"
        (.wrap "failed to create user" (.new "connection refused")))) ∧
    (AuthService.GenerateTokens samplePlatform sampleService DB.empty sampleNow sampleNow
        sampleNow (some (.new "connection refused")) 1).1 =
      ("", "", some (.wrap "failed to store refresh token"
        (.wrap "failed to create refresh token" (.new "connection refused")))) ∧
    (AuthService.RefreshAccessToken samplePlatform sampleService DB.empty sampleNow
        (some (.new "connection refused")) sampleNow sampleNow sampleNow
        (AuthService.GenerateTokens samplePlatform sampleService DB.empty sampleNow sampleNow
          sampleNow none 1).1.2.1).1 =
      ("", some (.wrap "refresh token not found"
        (.wrap "failed to get refresh token" (.new "connection refused")))) :=
  have h := C19_store_failures samplePlatform sampleService DB.empty none [] sampleNow
    (some (.new "connection refused")) "alice@example.com" "secret123" sampleNow sampleNow
    sampleNow 1 sampleNow sampleNow sampleNow sampleNow
    (AuthService.GenerateTokens samplePlatform sampleService DB.empty sampleNow sampleNow
      sampleNow none 1).1.2.1
  have h' := C19_store_failures samplePlatform sampleService DB.empty
    (some (.new "connection refused")) [] sampleNow none "alice@example.com" "secret123"
    sampleNow sampleNow sampleNow 1 sampleNow sampleNow sampleNow sampleNow
    (AuthService.GenerateTokens samplePlatform sampleService DB.empty sampleNow sampleNow
      sampleNow none 1).1.2.1
  ⟨(h.1 (.new "user not found") "$2a$10$secret123" _ (by decide) (by decide) rfl rfl rfl).1,
    (h.2.1 _ rfl).1,
    (h'.2.2.1 1 _ sample_refresh_valid rfl).1⟩

/-- C19, counterexample: the driver reports `connection refused` for the lookup of
`Login`; the store's `GetByEmail` fails with `failed to get user` wrapping it, and `Login`
fails with `invalid credentials`, an error that wraps nothing. -/
theorem C19_counterexample :
    (UserRepository.GetByEmail DB.empty (some (.new "connection refused"))
        "alice@example.com").1 =
      .error (.wrap "failed to get user" (.new "connection refused")) ∧
    (AuthService.Login samplePlatform sampleService DB.empty
        (some (.new "connection refused")) "alice@example.com" "secret123").1 =
      (none, some (.new "invalid credentials")) ∧
    ¬ GoError.Wraps (.new "invalid credentials")
      (.wrap "failed to get user" (.new "connection refused")) ∧
    (GoError.new "invalid credentials").Is
      (.wrap "failed to get user" (.new "connection refused")) = false := by
  refine ⟨rfl, by decide, ?_, by decide⟩
  rintro ⟨pfx, h⟩
  cases h


/-- C20, as amended: a failure of `GenerateTokens` (signing, or persistence of the refresh
token) while serving register or login surfaces as status 500 with the message
`failed to generate tokens`; every failure of `Login`, also a failure of the store,
surfaces as status 401 with the message `invalid credentials`; every failure of
`RefreshAccessToken`, also a failure of the store, surfaces as status 401 with the
message `invalid refresh token`. None of these messages carries the cause. -/
theorem C20_handler_failures (P : Platform) (s : AuthService) (db : DB)
    (registerReq : RegisterRequest) (loginReq : LoginRequest) (refreshReq : RefreshRequest)
    (getFault : Option GoError) (salt : Bytes) (createNow : Time)
    (createFault : Option GoError) (now tokenNow1 tokenNow2 : Time)
    (tokenFault : Option GoError) (parseNow checkNow iatNow expNow : Time) :
    (∀ user db1 a r e db2,
      AuthService.Register P s db getFault salt createNow createFault registerReq.Email
        registerReq.Password = ((some user, none), db1) →
      AuthService.GenerateTokens P s db1 now tokenNow1 tokenNow2 tokenFault user.ID =
        ((a, r, some e), db2) →
      AuthHandler.Register P s db (some registerReq) getFault salt createNow createFault now
          tokenNow1 tokenNow2 tokenFault =
        (.httpError StatusInternalServerError "failed to generate tokens", db2)) ∧
    (∀ user e db1,
      AuthService.Login P s db getFault loginReq.Email loginReq.Password =
        ((user, some e), db1) →
      AuthHandler.Login P s db (some loginReq) getFault now tokenNow1 tokenNow2 tokenFault =
        (.httpError StatusUnauthorized "invalid credentials", db1)) ∧
    (∀ user db1 a r e db2,
      AuthService.Login P s db getFault loginReq.Email loginReq.Password =
        ((some user, none), db1) →
      AuthService.GenerateTokens P s db1 now tokenNow1 tokenNow2 tokenFault user.ID =
        ((a, r, some e), db2) →
      AuthHandler.Login P s db (some loginReq) getFault now tokenNow1 tokenNow2 tokenFault =
        (.httpError StatusInternalServerError "failed to generate tokens", db2)) ∧
    (∀ a e db1,
      AuthService.RefreshAccessToken P s db parseNow getFault checkNow iatNow expNow
        refreshReq.RefreshToken = ((a, some e), db1) →
      AuthHandler.Refresh P s db (some refreshReq) parseNow getFault checkNow iatNow expNow =
        (.httpError StatusUnauthorized "invalid refresh token", db1)) := by
  refine ⟨?_, ?_, ?_, ?_⟩
  · intro user db1 a r e db2 h1 h2
    unfold AuthHandler.Register
    simp only [h1, h2]
  · intro user e db1 h1
    unfold AuthHandler.Login
    simp only [h1]
  · intro user db1 a r e db2 h1 h2
    unfold AuthHandler.Login
    simp only [h1, h2]
  · intro a e db1 h1
    unfold AuthHandler.Refresh
    simp only [h1]

theorem sample_refresh_fault :
    AuthService.RefreshAccessToken samplePlatform sampleService
        (AuthService.GenerateTokens samplePlatform sampleService DB.empty sampleNow sampleNow
          sampleNow none 1).2 sampleNow (some (.new "connection refused")) sampleNow sampleNow
        sampleNow
        (AuthService.GenerateTokens samplePlatform sampleService DB.empty sampleNow sampleNow
          sampleNow none 1).1.2.1 =
      (("", some (.wrap "refresh token not found"
        (.wrap "failed to get refresh token" (.new "connection refused")))),
        (AuthService.GenerateTokens samplePlatform sampleService DB.empty sampleNow sampleNow
          sampleNow none 1).2) := by
  rw [RefreshAccessToken_of_valid samplePlatform sampleService _ sampleNow
    (some (.new "connection refused")) sampleNow sampleNow sampleNow _ 1 sample_refresh_valid]
  rfl

/-- C20, witness: the store fails while the refresh token of a registration is persisted,
and while the refresh token presented to the refresh endpoint is looked up. -/
theorem C20_handler_failures_witness :
    let g := AuthService.GenerateTokens samplePlatform sampleService DB.empty sampleNow
      sampleNow sampleNow none 1
    (AuthHandler.Register samplePlatform sampleService DB.empty
        (some ⟨"alice@example.com", "secret123"⟩) none [] sampleNow none sampleNow sampleNow
        sampleNow (some (.new "connection refused"))).1 =
      .httpError StatusInternalServerError "failed to generate tokens" ∧
    (AuthHandler.Refresh samplePlatform sampleService g.2 (some ⟨g.1.2.1⟩) sampleNow
        (some (.new "connection refused")) sampleNow sampleNow sampleNow).1 =
      .httpError StatusUnauthorized "invalid refresh token" :=
  have h := C20_handler_failures samplePlatform sampleService DB.empty
    ⟨"alice@example.com", "secret123"⟩ ⟨"alice@example.com", "secret123"⟩ ⟨""⟩ none []
    sampleNow none sampleNow sampleNow sampleNow (some (.new "connection refused")) sampleNow
    sampleNow sampleNow sampleNow
  have h' := C20_handler_failures samplePlatform sampleService
    (AuthService.GenerateTokens samplePlatform sampleService DB.empty sampleNow sampleNow
      sampleNow none 1).2
    ⟨"", ""⟩ ⟨"", ""⟩
    ⟨(AuthService.GenerateTokens samplePlatform sampleService DB.empty sampleNow sampleNow
      sampleNow none 1).1.2.1⟩
    (some (.new "connection refused")) [] sampleNow none sampleNow sampleNow sampleNow none
    sampleNow sampleNow sampleNow sampleNow
  ⟨congrArg Prod.fst (h.1 _ _ _ _ _ _ sample_register (GenerateTokens_fault _ _ _ _ _ _ _ _)),
    congrArg Prod.fst (h'.2.2.2 _ _ _ sample_refresh_fault)⟩

/-- C20, counterexample: the lookup of the refresh token store fails with
`connection refused` while a valid refresh token is presented to the refresh endpoint;
the response has status 401, not 500. -/
theorem C20_counterexample :
    let g := AuthService.GenerateTokens samplePlatform sampleService DB.empty sampleNow
      sampleNow sampleNow none 1
    (RefreshTokenRepository.GetByToken g.2 (some (.new "connection refused")) g.1.2.1).1 =
      .error (.wrap "failed to get refresh token" (.new "connection refused")) ∧
    (AuthHandler.Refresh samplePlatform sampleService g.2 (some ⟨g.1.2.1⟩) sampleNow
        (some (.new "connection refused")) sampleNow sampleNow sampleNow).1 =
      .httpError 401 "invalid refresh token" ∧
    (AuthHandler.Refresh samplePlatform sampleService g.2 (some ⟨g.1.2.1⟩) sampleNow
        (some (.new "connection refused")) sampleNow sampleNow sampleNow).1.status ≠ 500 := by
  intro g
  have h : (AuthHandler.Refresh samplePlatform sampleService g.2 (some ⟨g.1.2.1⟩) sampleNow
      (some (.new "connection refused")) sampleNow sampleNow sampleNow).1 =
      .httpError 401 "invalid refresh token" := by
    unfold AuthHandler.Refresh
    simp only [sample_refresh_fault, g]
    rfl
  refine ⟨rfl, h, ?_⟩
  rw [h]
  decide

/-- The register endpoint answers a failure of `Register` itself, here a password that
bcrypt rejects, with status 400 and the text of the error. -/
theorem Register_handler_internal_failure :
    (AuthHandler.Register samplePlatform sampleService DB.empty
        (some ⟨"alice@example.com", longPassword⟩) none [] sampleNow none sampleNow sampleNow
        sampleNow none).1 =
      .httpError 400 "failed to hash password: bcrypt: password length exceeds 72 bytes" := by
  decide


/-! ### Access tokens and the refresh token store -/

/-- A token whose lifetime `exp - iat` is the lifetime of no refresh token is carried
by no row of a store of issued refresh tokens. -/
theorem find_none_of_lifetime (P : Platform) (s : AuthService) (db : DB)
    (hstore : IssuedStore P s db) (c : IssuedClaims)
    (hlife : ∀ t : Time, c.exp - c.iat ≠ (t.Add s.cfg.RefreshTokenTTL).Unix - t.Unix) :
    db.refresh_tokens.find?
      (fun r => decide (r.token = signedToken P c (toBytes s.cfg.Secret))) = none := by
  rw [List.find?_eq_none]
  intro r hr hdec
  have heq : r.token = signedToken P c (toBytes s.cfg.Secret) := of_decide_eq_true hdec
  obtain ⟨t, u, htu⟩ := hstore r hr
  have hc : c = s.refreshClaims t u := signedToken_injective P _ _ _ _ (heq.symm.trans htu)
  apply hlife t
  rw [hc]
  rfl

/-- `GenerateTokens` keeps the store a store of issued refresh tokens. -/
theorem IssuedStore_GenerateTokens (P : Platform) (s : AuthService) (db : DB)
    (hstore : IssuedStore P s db) (now t1 t2 : Time) (fault : Option GoError) (u : Int) :
    IssuedStore P s (AuthService.GenerateTokens P s db now t1 t2 fault u).2 := by
  cases fault with
  | some err => rw [GenerateTokens_fault]; exact hstore
  | none =>
    rw [GenerateTokens_eq]
    intro r hr
    rcases List.mem_append.mp hr with h | h
    · exact hstore r h
    · rw [List.mem_singleton.mp h]
      exact ⟨now, u, rfl⟩

/-- The two tokens of one issuance are the same text exactly when they carry the same
expiry second. -/
theorem access_eq_refresh_iff (P : Platform) (s : AuthService) (now : Time) (u : Int) :
    signedToken P (s.refreshClaims now u) (toBytes s.cfg.Secret) =
        signedToken P (s.accessClaims now u) (toBytes s.cfg.Secret) ↔
      (now.Add s.cfg.AccessTokenTTL).Unix = (now.Add s.cfg.RefreshTokenTTL).Unix := by
  constructor
  · intro h
    have hc := signedToken_injective P _ _ _ _ h
    exact (congrArg IssuedClaims.exp hc).symm
  · intro h
    have hc : s.refreshClaims now u = s.accessClaims now u := by
      unfold AuthService.refreshClaims AuthService.accessClaims
      rw [h]
    rw [hc]

theorem sample_refresh_lifetime (t : Time) :
    (t.Add sampleService.cfg.RefreshTokenTTL).Unix - t.Unix = 604800 := by
  have h : sampleService.cfg.RefreshTokenTTL = 604800 * Second := by decide
  rw [h, Unix_add_seconds]
  omega

/-- C21 (amended): `GenerateTokens` writes one record, which carries the refresh token;
its Token differs from the access token returned with it exactly when the access and
the refresh horizon give different expiry seconds. `RefreshAccessToken` writes nothing.
In a store of refresh tokens issued by the service, an access token with claims `c`
whose lifetime `exp - iat` is not the lifetime of a refresh token is not found, and
`RefreshAccessToken` applied to it fails, at the store lookup when the token passes
verification. -/
theorem C21_access_token_not_persisted (P : Platform) (s : AuthService) (db : DB) :
    (∀ (now t1 t2 : Time) (u : Int), ∃ row,
      (AuthService.GenerateTokens P s db now t1 t2 none u).2.refresh_tokens =
        db.refresh_tokens ++ [row] ∧
      row.token = (AuthService.GenerateTokens P s db now t1 t2 none u).1.2.1 ∧
      (row.token = (AuthService.GenerateTokens P s db now t1 t2 none u).1.1 ↔
        (now.Add s.cfg.AccessTokenTTL).Unix = (now.Add s.cfg.RefreshTokenTTL).Unix)) ∧
    (∀ (parseNow : Time) (getFault : Option GoError) (checkNow iatNow expNow : Time)
        (tok : String),
      (AuthService.RefreshAccessToken P s db parseNow getFault checkNow iatNow expNow tok).2 =
        db) ∧
    (IssuedStore P s db → ∀ c : IssuedClaims,
      (∀ t : Time, c.exp - c.iat ≠ (t.Add s.cfg.RefreshTokenTTL).Unix - t.Unix) →
      db.refresh_tokens.find?
        (fun r => decide (r.token = signedToken P c (toBytes s.cfg.Secret))) = none ∧
      (∀ (parseNow : Time) (getFault : Option GoError) (checkNow iatNow expNow : Time),
        ∃ e, AuthService.RefreshAccessToken P s db parseNow getFault checkNow iatNow expNow
          (signedToken P c (toBytes s.cfg.Secret)) = (("", some e), db)) ∧
      (∀ (parseNow checkNow iatNow expNow : Time) (uid : Int),
        AuthService.ValidateToken P s parseNow (signedToken P c (toBytes s.cfg.Secret)) =
          (uid, none) →
        AuthService.RefreshAccessToken P s db parseNow none checkNow iatNow expNow
          (signedToken P c (toBytes s.cfg.Secret)) =
          (("", some (.wrap "refresh token not found" (.new "token not found"))), db))) := by
  refine ⟨?_, ?_, ?_⟩
  · intro now t1 t2 u
    rw [GenerateTokens_eq]
    exact ⟨_, rfl, rfl, access_eq_refresh_iff P s now u⟩
  · intro parseNow getFault checkNow iatNow expNow tok
    exact RefreshAccessToken_db P s db parseNow getFault checkNow iatNow expNow tok
  · intro hstore c hlife
    have hnone := find_none_of_lifetime P s db hstore c hlife
    refine ⟨hnone, ?_, ?_⟩
    · intro parseNow getFault checkNow iatNow expNow
      exact refresh_fails_of_absent P s db parseNow getFault checkNow iatNow expNow _ hnone
    · intro parseNow checkNow iatNow expNow uid hv
      rw [RefreshAccessToken_of_valid P s db parseNow none checkNow iatNow expNow _ uid hv,
        GetByToken_absent db _ hnone]

/-- C21, witness: the sample service issues tokens for user 1 on the empty store; the
store then holds an issued refresh token, the access token is not found in it, and
`RefreshAccessToken` applied to the access token fails. -/
theorem C21_access_token_not_persisted_witness :
    IssuedStore samplePlatform sampleService
      (AuthService.GenerateTokens samplePlatform sampleService DB.empty sampleNow sampleNow
        sampleNow none 1).2 ∧
    (∀ t : Time, (sampleService.accessClaims sampleNow 1).exp -
        (sampleService.accessClaims sampleNow 1).iat ≠
      (t.Add sampleService.cfg.RefreshTokenTTL).Unix - t.Unix) ∧
    (AuthService.GenerateTokens samplePlatform sampleService DB.empty sampleNow sampleNow
        sampleNow none 1).2.refresh_tokens.find?
      (fun r => decide (r.token =
        (AuthService.GenerateTokens samplePlatform sampleService DB.empty sampleNow sampleNow
          sampleNow none 1).1.1)) = none :=
  have hstore : IssuedStore samplePlatform sampleService
      (AuthService.GenerateTokens samplePlatform sampleService DB.empty sampleNow sampleNow
        sampleNow none 1).2 :=
    IssuedStore_GenerateTokens _ _ _ (fun r h => absurd h (List.not_mem_nil r)) _ _ _ _ _
  have hlife : ∀ t : Time, (sampleService.accessClaims sampleNow 1).exp -
        (sampleService.accessClaims sampleNow 1).iat ≠
      (t.Add sampleService.cfg.RefreshTokenTTL).Unix - t.Unix := by
    intro t
    rw [sample_refresh_lifetime]
    decide
  ⟨hstore, hlife,
    ((C21_access_token_not_persisted samplePlatform sampleService _).2.2 hstore
      (sampleService.accessClaims sampleNow 1) hlife).1⟩

theorem equalHorizonService_exactAt : equalHorizonService.ExactAt sampleNow := by
  unfold AuthService.ExactAt Float64Exact
  decide

/-- C21, as stated, fails: with an access horizon equal to the refresh horizon
`GenerateTokens` returns the same text as access token and as refresh token, the record
it writes carries the access token, and `RefreshAccessToken` applied to the access token
succeeds. -/
theorem C21_counterexample :
    let g := AuthService.GenerateTokens samplePlatform equalHorizonService DB.empty sampleNow
      sampleNow sampleNow none 1
    g.2.refresh_tokens.map (fun r => r.token) = [g.1.1] ∧
    (AuthService.RefreshAccessToken samplePlatform equalHorizonService g.2 sampleNow none
      sampleNow sampleNow sampleNow g.1.1).1.2 = none := by
  intro g
  have heq : signedToken samplePlatform (equalHorizonService.refreshClaims sampleNow 1)
        (toBytes equalHorizonService.cfg.Secret) =
      signedToken samplePlatform (equalHorizonService.accessClaims sampleNow 1)
        (toBytes equalHorizonService.cfg.Secret) :=
    (access_eq_refresh_iff samplePlatform equalHorizonService sampleNow 1).mpr (by decide)
  have hg : g.1.1 = g.1.2.1 := by
    show (AuthService.GenerateTokens samplePlatform equalHorizonService DB.empty sampleNow
      sampleNow sampleNow none 1).1.1 = (AuthService.GenerateTokens samplePlatform
      equalHorizonService DB.empty sampleNow sampleNow sampleNow none 1).1.2.1
    rw [GenerateTokens_eq]
    exact heq.symm
  have hg2 : g.1.2.1 = signedToken samplePlatform (equalHorizonService.refreshClaims sampleNow 1)
      (toBytes equalHorizonService.cfg.Secret) := by
    show (AuthService.GenerateTokens samplePlatform equalHorizonService DB.empty sampleNow
      sampleNow sampleNow none 1).1.2.1 = _
    rw [GenerateTokens_eq]
  have hfind := find_issued samplePlatform equalHorizonService sampleNow sampleNow sampleNow 1
  have hv : AuthService.ValidateToken samplePlatform equalHorizonService sampleNow g.1.2.1 =
      (1, none) := by
    rw [hg2, ValidateToken_signedToken_before samplePlatform equalHorizonService _
      (refreshClaims_finite _ _ _ equalHorizonService_exactAt
        (Float64Finite_of_exact 1 (by decide)))
      equalHorizonService_exactAt.2.2 _ (by decide)]
    decide
  rw [hg]
  refine ⟨?_, ?_⟩
  · show (AuthService.GenerateTokens samplePlatform equalHorizonService DB.empty sampleNow
      sampleNow sampleNow none 1).2.refresh_tokens.map (fun r => r.token) =
      [(AuthService.GenerateTokens samplePlatform equalHorizonService DB.empty sampleNow
        sampleNow sampleNow none 1).1.2.1]
    rw [GenerateTokens_eq]
    rfl
  · rw [refresh_succeeds_of_valid samplePlatform equalHorizonService g.2 sampleNow sampleNow
      sampleNow sampleNow g.1.2.1 1 _ hv hfind (by decide)]


/-! ### The stored expiry -/

/-- Seven calendar days are 604800 seconds when the zone has the offset `off` at the
instant `t`, seven days later, and `off` seconds after that, which is where `time.Date`
looks the offset up first. -/
theorem AddDate_same_offset (loc : Location) (t : Time) (off : Int)
    (h0 : (loc.lookup t.Unix).1 = off)
    (h1 : (loc.lookup (t.Unix + 604800)).1 = off)
    (h2 : (loc.lookup (t.Unix + 604800 + off)).1 = off) :
    (Time.AddDate loc t 7).Unix = t.Unix + 604800 := by
  have hw : t.Unix + off + 7 * 86400 = t.Unix + 604800 + off := by omega
  unfold Time.AddDate
  simp only
  rw [h0, hw]
  have h2' : (loc.1 (t.Unix + 604800 + off)).1 = off := h2
  have hu : t.Unix + 604800 + off - off = t.Unix + 604800 := by omega
  simp only [h2', hu, h1]
  unfold Time.Unix
  split
  · split <;> omega
  · omega

theorem Create_ExpiresAt (P : Platform) (db : DB) (fault : Option GoError) (now1 now2 : Time)
    (rt : RefreshToken) :
    (RefreshTokenRepository.Create P db fault now1 now2 rt).2.1.ExpiresAt =
      (Time.AddDate P.Local now1 7).Unix := by
  cases fault <;> rfl

theorem DeleteByToken_sublist (db : DB) (fault : Option GoError) (tok : String) :
    (RefreshTokenRepository.DeleteByToken db fault tok).2.refresh_tokens.Sublist
      db.refresh_tokens := by
  unfold RefreshTokenRepository.DeleteByToken deleteRefreshTokenByToken
  cases fault with
  | some e => exact List.Sublist.refl _
  | none =>
    simp only
    split <;> exact List.filter_sublist _

theorem DeleteExpiredTokens_sublist (db : DB) (fault : Option GoError) (now : Time) :
    (RefreshTokenRepository.DeleteExpiredTokens db fault now).2.refresh_tokens.Sublist
      db.refresh_tokens := by
  unfold RefreshTokenRepository.DeleteExpiredTokens deleteRefreshTokensExpiredBefore
  cases fault with
  | some e => exact List.Sublist.refl _
  | none => exact List.filter_sublist _

/-- C22 (amended): `RefreshTokenRepository.Create` executed at instant `t` sets
`ExpiresAt` to the Unix second of `t.AddDate(0, 0, 7)`, the same local wall-clock time
seven calendar days later, overwriting the `ExpiresAt` the caller passed, and stores it;
the record that `GenerateTokens` writes carries this expiry whatever the service's
configuration. This is `t` plus 604800 seconds when the local time zone has the same
UTC offset `off` at `t`, at `t` plus 604800 seconds, and `off` seconds after that, the
instant at which `time.Date` first looks the offset up. No later operation changes an
existing record: `GetByToken` and
`RefreshAccessToken` leave the store as it is, `GenerateTokens` appends at most one
record, `DeleteByToken` and `DeleteExpiredTokens` only remove records. -/
theorem C22_expiry_fixed_at_creation (P : Platform) (db : DB) :
    (∀ (fault : Option GoError) (now1 now2 : Time) (rt : RefreshToken),
      (RefreshTokenRepository.Create P db fault now1 now2 rt).2.1.ExpiresAt =
        (Time.AddDate P.Local now1 7).Unix) ∧
    (∀ (now1 now2 : Time) (rt : RefreshToken),
      (RefreshTokenRepository.Create P db none now1 now2 rt).2.2.refresh_tokens =
        db.refresh_tokens ++ [⟨db.refreshTokensSeq + 1, rt.UserID, rt.Token,
          (Time.AddDate P.Local now1 7).Unix, now2.Unix⟩]) ∧
    (∀ (s : AuthService) (now t1 t2 : Time) (u : Int), ∃ id tok,
      (AuthService.GenerateTokens P s db now t1 t2 none u).2.refresh_tokens =
        db.refresh_tokens ++ [⟨id, u, tok, (Time.AddDate P.Local t1 7).Unix, t2.Unix⟩]) ∧
    (∀ (t : Time) (off : Int), (P.Local.lookup t.Unix).1 = off →
      (P.Local.lookup (t.Unix + 604800)).1 = off →
      (P.Local.lookup (t.Unix + 604800 + off)).1 = off →
      (Time.AddDate P.Local t 7).Unix = t.Unix + 604800) ∧
    (∀ (fault : Option GoError) (tok : String),
      (RefreshTokenRepository.GetByToken db fault tok).2 = db) ∧
    (∀ (s : AuthService) (parseNow : Time) (getFault : Option GoError)
        (checkNow iatNow expNow : Time) (tok : String),
      (AuthService.RefreshAccessToken P s db parseNow getFault checkNow iatNow expNow tok).2 =
        db) ∧
    (∀ (s : AuthService) (now t1 t2 : Time) (err : GoError) (u : Int),
      (AuthService.GenerateTokens P s db now t1 t2 (some err) u).2 = db) ∧
    (∀ (fault : Option GoError) (tok : String),
      (RefreshTokenRepository.DeleteByToken db fault tok).2.refresh_tokens.Sublist
        db.refresh_tokens) ∧
    (∀ (fault : Option GoError) (now : Time),
      (RefreshTokenRepository.DeleteExpiredTokens db fault now).2.refresh_tokens.Sublist
        db.refresh_tokens) := by
  refine ⟨?_, ?_, ?_, ?_, ?_, ?_, ?_, ?_, ?_⟩
  · intro fault now1 now2 rt
    exact Create_ExpiresAt P db fault now1 now2 rt
  · intro now1 now2 rt
    rfl
  · intro s now t1 t2 u
    rw [GenerateTokens_eq]
    exact ⟨_, _, rfl⟩
  · intro t off h0 h1 h2
    exact AddDate_same_offset P.Local t off h0 h1 h2
  · intro fault tok
    exact GetByToken_db db fault tok
  · intro s parseNow getFault checkNow iatNow expNow tok
    exact RefreshAccessToken_db P s db parseNow getFault checkNow iatNow expNow tok
  · intro s now t1 t2 err u
    rw [GenerateTokens_fault]
  · intro fault tok
    exact DeleteByToken_sublist db fault tok
  · intro fault now
    exact DeleteExpiredTokens_sublist db fault now

/-- C22, witness: on the sample platform, whose local time zone is UTC, `Create` at the
sample instant replaces the caller's `ExpiresAt` of 5 by the Unix second 604800 seconds
later. -/
theorem C22_expiry_fixed_at_creation_witness :
    (samplePlatform.Local.lookup sampleNow.Unix).1 = 0 ∧
    (samplePlatform.Local.lookup (sampleNow.Unix + 604800)).1 = 0 ∧
    (RefreshTokenRepository.Create samplePlatform DB.empty none sampleNow sampleNow
      ⟨0, 1, "t", 5⟩).2.1.ExpiresAt = 1700000000 + 604800 :=
  ⟨rfl, rfl,
    ((C22_expiry_fixed_at_creation samplePlatform DB.empty).1 none sampleNow sampleNow
      ⟨0, 1, "t", 5⟩).trans
      ((C22_expiry_fixed_at_creation samplePlatform DB.empty).2.2.2.1 sampleNow 0 rfl rfl
        rfl)⟩

/-- C22, as stated, fails: in a time zone whose UTC offset grows by one hour within the
seven days, `Create` at Unix second 1699900000 sets and stores the expiry 1700501200,
which is 601200 seconds later, not 604800. -/
theorem C22_counterexample :
    (RefreshTokenRepository.Create shiftPlatform DB.empty none (Time.ofUnix 1699900000)
      (Time.ofUnix 1699900000) ⟨0, 1, "t", 0⟩).2.1.ExpiresAt = 1699900000 + 601200 ∧
    (RefreshTokenRepository.Create shiftPlatform DB.empty none (Time.ofUnix 1699900000)
      (Time.ofUnix 1699900000) ⟨0, 1, "t", 0⟩).2.2.refresh_tokens =
      [⟨1, 1, "t", 1700501200, 1699900000⟩] := by
  decide


/-! ### The authentication gate -/

theorem cut_eq_some (sep : Char) (s before after : List Char)
    (h : cut sep s = some (before, after)) : s = before ++ sep :: after := by
  induction s generalizing before with
  | nil => simp [cut] at h
  | cons c cs ih =>
    unfold cut at h
    split at h
    · rename_i hc
      simp only [Option.some.injEq, Prod.mk.injEq] at h
      rw [← h.1, ← h.2, hc]
      rfl
    · split at h
      · simp at h
      · rename_i b a hcut
        simp only [Option.some.injEq, Prod.mk.injEq] at h
        obtain ⟨h1, h2⟩ := h
        subst h1 h2
        rw [ih b hcut]
        rfl

theorem SplitN_two (s : List Char) :
    SplitN s ' ' 2 = match cut ' ' s with
      | none => [s]
      | some (before, after) => [before, after] := by
  unfold SplitN
  split <;> simp [SplitN]

theorem SplitN_bearer (t : List Char) :
    SplitN ("Bearer ".data ++ t) ' ' 2 = ["Bearer".data, t] := by
  rw [SplitN_two]
  rfl

/-- The header has the scheme `Bearer` before its first space exactly when it is
`Bearer`, one space, and the rest. -/
theorem SplitN_eq_bearer (s token : List Char)
    (h : SplitN s ' ' 2 = ["Bearer".data, token]) : s = "Bearer ".data ++ token := by
  rw [SplitN_two] at h
  split at h
  · simp at h
  · rename_i b a hcut
    simp only [List.cons.injEq, and_true] at h
    rw [cut_eq_some ' ' s b a hcut, h.1, h.2]
    rfl

/-- What the gate does with a header of the form `Bearer`, space, `t`. -/
theorem JWTAuth_bearer {α : Type} (P : Platform) (s : AuthService) (now : Time)
    (next : Context → α) (c : Context) (t : String)
    (h : c.Authorization = some ("Bearer " ++ t)) :
    JWTAuth P s now next c =
      match s.ValidateToken P now t with
      | (_, some err) => .httpError 401 ("invalid token: " ++ err.Error)
      | (userID, none) => .next (next { c with userID := some userID }) := by
  have hne : ("Bearer " ++ t) ≠ "" := by
    intro h0
    have := congrArg String.data h0
    rw [String.data_append] at this
    exact absurd this (by simp)
  have hsplit : SplitN ("Bearer " ++ t).data ' ' 2 = ["Bearer".data, t.data] := by
    rw [String.data_append]
    exact SplitN_bearer t.data
  unfold JWTAuth Context.authHeader
  rw [h]
  simp only [Option.getD_some, if_neg hne, hsplit]
  rw [if_neg (by simp)]

/-- The gate answers 401 or calls the next handler with a context in which the user id
is the subject of the header's token. -/
theorem JWTAuth_cases {α : Type} (P : Platform) (s : AuthService) (now : Time)
    (next : Context → α) (c : Context) :
    (∃ message, JWTAuth P s now next c = .httpError 401 message) ∨
    ∃ t uid, c.Authorization = some ("Bearer " ++ t) ∧ s.ValidateToken P now t = (uid, none) ∧
      JWTAuth P s now next c = .next (next { c with userID := some uid }) := by
  by_cases h : ∃ t, c.Authorization = some ("Bearer " ++ t)
  · obtain ⟨t, ht⟩ := h
    have hj := JWTAuth_bearer P s now next c t ht
    rcases hv : s.ValidateToken P now t with ⟨uid, _ | err⟩
    · right
      rw [hv] at hj
      exact ⟨t, uid, ht, hv, hj⟩
    · left
      rw [hv] at hj
      exact ⟨_, hj⟩
  · left
    unfold JWTAuth
    simp only
    split
    · exact ⟨_, rfl⟩
    · rename_i hne
      split
      · rename_i scheme token hsplit
        split
        · exact ⟨_, rfl⟩
        · rename_i hscheme
          exfalso
          apply h
          refine ⟨String.mk token, ?_⟩
          have hs : scheme = "Bearer".data := by simpa using hscheme
          rw [hs] at hsplit
          have hd := SplitN_eq_bearer _ _ hsplit
          unfold Context.authHeader at hd hne
          cases ha : c.Authorization with
          | none => rw [ha] at hne; exact absurd rfl hne
          | some a =>
            rw [ha] at hd
            congr 1
            apply String.ext
            rw [String.data_append]
            exact hd
      · exact ⟨_, rfl⟩

/-- C23: the JWTAuth gate calls the next handler if and only if the Authorization header
is `Bearer`, one space and a text `t` (the split is at the first space, the scheme is
compared as it is written) for which `ValidateToken` succeeds; the context it passes on
then stores the subject that `ValidateToken` returned, and `GetUserID` returns it from
that context. In every other case (no header, an empty one, another shape, a token that
fails validation) the gate answers 401 without calling the next handler. -/
theorem C23_gate_dispatch {α : Type} (P : Platform) (s : AuthService) (now : Time)
    (next : Context → α) (c : Context) :
    ((∃ result, JWTAuth P s now next c = .next result) ↔
      ∃ t uid, c.Authorization = some ("Bearer " ++ t) ∧
        s.ValidateToken P now t = (uid, none)) ∧
    (∀ t uid, c.Authorization = some ("Bearer " ++ t) →
      s.ValidateToken P now t = (uid, none) →
      JWTAuth P s now next c = .next (next { c with userID := some uid }) ∧
      GetUserID { c with userID := some uid } = (uid, none)) ∧
    ((¬ ∃ t uid, c.Authorization = some ("Bearer " ++ t) ∧
        s.ValidateToken P now t = (uid, none)) →
      ∃ message, JWTAuth P s now next c = .httpError 401 message) := by
  have hpass : ∀ t uid, c.Authorization = some ("Bearer " ++ t) →
      s.ValidateToken P now t = (uid, none) →
      JWTAuth P s now next c = .next (next { c with userID := some uid }) := by
    intro t uid ht hv
    rw [JWTAuth_bearer P s now next c t ht, hv]
  refine ⟨⟨?_, ?_⟩, ?_, ?_⟩
  · rintro ⟨result, hr⟩
    rcases JWTAuth_cases P s now next c with ⟨message, hm⟩ | ⟨t, uid, ht, hv, _⟩
    · rw [hm] at hr
      cases hr
    · exact ⟨t, uid, ht, hv⟩
  · rintro ⟨t, uid, ht, hv⟩
    exact ⟨_, hpass t uid ht hv⟩
  · intro t uid ht hv
    exact ⟨hpass t uid ht hv, rfl⟩
  · intro hno
    rcases JWTAuth_cases P s now next c with hm | ⟨t, uid, ht, hv, _⟩
    · exact hm
    · exact absurd ⟨t, uid, ht, hv⟩ hno

/-- C23, witness: with the access token that the sample service issues for user 1 after
`Bearer` and a space, the gate calls the next handler, here `GetUserID`, which returns 1;
with no header, and with the scheme written `bearer`, it answers 401. -/
theorem C23_gate_dispatch_witness :
    JWTAuth samplePlatform sampleService sampleNow GetUserID
      ⟨some ("Bearer " ++ (AuthService.GenerateTokens samplePlatform sampleService DB.empty
        sampleNow sampleNow sampleNow none 1).1.1), none⟩ = .next (1, none) ∧
    JWTAuth samplePlatform sampleService sampleNow GetUserID ⟨none, none⟩ =
      .httpError 401 "missing authorization header" ∧
    JWTAuth samplePlatform sampleService sampleNow GetUserID ⟨some "bearer x", none⟩ =
      .httpError 401 "invalid authorization header format" :=
  ⟨((C23_gate_dispatch samplePlatform sampleService sampleNow GetUserID
      ⟨some ("Bearer " ++ (AuthService.GenerateTokens samplePlatform sampleService DB.empty
        sampleNow sampleNow sampleNow none 1).1.1), none⟩).2.1 _ 1 rfl
      (sample_access_valid sampleNow (by decide))).1,
    rfl, rfl⟩


/-! ### Configuration -/

theorem Atoi_empty : Atoi "" = none := by decide

theorem getEnv_ne_empty (env : Environ) (key d : String) (hd : d ≠ "") :
    getEnv env key d ≠ "" := by
  unfold getEnv
  split
  · assumption
  · exact hd

theorem getIntEnv_eq (env : Environ) (key : String) (d : Int) :
    getIntEnv env key d = (Atoi (Getenv env key)).getD d := by
  unfold getIntEnv
  by_cases h : Getenv env key = ""
  · rw [h, Atoi_empty]; simp
  · rw [if_pos h]
    cases Atoi (Getenv env key) <;> rfl

theorem Getenv_unset (env : Environ) (key : String) (h : env key = none) :
    Getenv env key = "" := by
  unfold Getenv; rw [h]; rfl

/-- C24 (amended): in every process environment `config.Load` returns a configuration
whose `Database.Host` is a non-empty string, and whose `Server.Port` is the integer that
`strconv.Atoi` reads from `SERVER_PORT`, or 8080 when the variable is unset, empty or
not such an integer; the port is therefore zero exactly when `SERVER_PORT` is a numeral
of zero. When `SERVER_PORT` and `DB_HOST` are unset they are 8080 and `localhost`. -/
theorem C24_load_port_and_host (env : Environ) :
    (Load env).Database.Host ≠ "" ∧
    (Load env).Server.Port = (Atoi (Getenv env "SERVER_PORT")).getD 8080 ∧
    ((Load env).Server.Port = 0 ↔ Atoi (Getenv env "SERVER_PORT") = some 0) ∧
    (env "SERVER_PORT" = none → (Load env).Server.Port = 8080) ∧
    (env "DB_HOST" = none → (Load env).Database.Host = "localhost") := by
  have hport : (Load env).Server.Port = (Atoi (Getenv env "SERVER_PORT")).getD 8080 :=
    getIntEnv_eq env "SERVER_PORT" 8080
  refine ⟨getEnv_ne_empty env "DB_HOST" "localhost" (by decide), hport, ?_, ?_, ?_⟩
  · rw [hport]
    cases h : Atoi (Getenv env "SERVER_PORT") with
    | none => simp
    | some v => simp
  · intro h
    rw [hport, Getenv_unset env _ h, Atoi_empty]
    rfl
  · intro h
    show getEnv env "DB_HOST" "localhost" = "localhost"
    unfold getEnv
    rw [Getenv_unset env _ h]
    rfl

/-- C24, as stated, fails: with `SERVER_PORT=0` in the environment `config.Load`
returns a configuration whose `Server.Port` is zero. -/
theorem C24_counterexample :
    Getenv zeroPortEnviron "SERVER_PORT" = "0" ∧ (Load zeroPortEnviron).Server.Port = 0 := by
  decide


/-! ### Refresh tokens as bearer credentials -/

/-- C25 (amended): for every user id `u` of magnitude at most `2^53`, the refresh token
that `GenerateTokens(u)` returns at an instant whose Unix seconds are exact in float64
passes `ValidateToken`, which yields `u`, at every instant before the refresh token's own
signed `exp`; the JWTAuth gate lets a request through that carries it as bearer token;
and this stays so after `DeleteByToken` has removed its record, when no row of the store
carries it and `RefreshAccessToken` rejects it: `ValidateToken` reads no token class and
no store. -/
theorem C25_refresh_token_as_bearer (P : Platform) (s : AuthService) (db : DB)
    (now createNow1 createNow2 : Time) (u : Int) (vnow : Time)
    (hu : Float64Exact u) (hs : s.ExactAt now)
    (hbefore : vnow < Time.ofUnix (now.Add s.cfg.RefreshTokenTTL).Unix) :
    AuthService.ValidateToken P s vnow
      (AuthService.GenerateTokens P s db now createNow1 createNow2 none u).1.2.1 = (u, none) ∧
    (∀ {α : Type} (next : Context → α) (c : Context),
      c.Authorization = some ("Bearer " ++
        (AuthService.GenerateTokens P s db now createNow1 createNow2 none u).1.2.1) →
      JWTAuth P s vnow next c = .next (next { c with userID := some u })) ∧
    List.find?
      (fun r => decide (r.token =
        (AuthService.GenerateTokens P s db now createNow1 createNow2 none u).1.2.1))
      (RefreshTokenRepository.DeleteByToken
        (AuthService.GenerateTokens P s db now createNow1 createNow2 none u).2 none
        (AuthService.GenerateTokens P s db now createNow1 createNow2 none u).1.2.1
        ).2.refresh_tokens = none ∧
    (∀ (getFault : Option GoError) (checkNow iatNow expNow : Time), ∃ e,
      AuthService.RefreshAccessToken P s
        (RefreshTokenRepository.DeleteByToken
          (AuthService.GenerateTokens P s db now createNow1 createNow2 none u).2 none
          (AuthService.GenerateTokens P s db now createNow1 createNow2 none u).1.2.1).2
        vnow getFault checkNow iatNow expNow
        (AuthService.GenerateTokens P s db now createNow1 createNow2 none u).1.2.1 =
      (("", some e), (RefreshTokenRepository.DeleteByToken
          (AuthService.GenerateTokens P s db now createNow1 createNow2 none u).2 none
          (AuthService.GenerateTokens P s db now createNow1 createNow2 none u).1.2.1).2)) := by
  have hv : AuthService.ValidateToken P s vnow
      (AuthService.GenerateTokens P s db now createNow1 createNow2 none u).1.2.1 =
        (u, none) := by
    rw [GenerateTokens_eq]
    show AuthService.ValidateToken P s vnow
      (signedToken P (s.refreshClaims now u) (toBytes s.cfg.Secret)) = (u, none)
    rw [ValidateToken_signedToken_before P s _
      (refreshClaims_finite s now u hs (Float64Finite_of_exact u hu)) hs.2.2 vnow hbefore]
    show (int64OfFloat64 (roundToFloat64 u), (none : Option GoError)) = (u, none)
    rw [roundToFloat64_exact u hu, int64OfFloat64_exact u hu]
  refine ⟨hv, ?_, find_after_delete _ _, ?_⟩
  · intro α next c hc
    rw [JWTAuth_bearer P s vnow next c _ hc, hv]
  · intro getFault checkNow iatNow expNow
    exact refresh_fails_of_absent P s _ vnow getFault checkNow iatNow expNow _
      (find_after_delete _ _)

/-- C25, witness: the refresh token that the sample service issues for user 1 validates
to 1 six days after its issue, long after the access horizon of 15 minutes. -/
theorem C25_refresh_token_as_bearer_witness :
    (Float64Exact 1 ∧ sampleService.ExactAt sampleNow ∧
      sampleNow.Add (6 * 24 * Hour) <
        Time.ofUnix (sampleNow.Add sampleService.cfg.RefreshTokenTTL).Unix ∧
      Time.ofUnix (sampleNow.Add sampleService.cfg.AccessTokenTTL).Unix <
        sampleNow.Add (6 * 24 * Hour)) ∧
    AuthService.ValidateToken samplePlatform sampleService (sampleNow.Add (6 * 24 * Hour))
      (AuthService.GenerateTokens samplePlatform sampleService DB.empty sampleNow sampleNow
        sampleNow none 1).1.2.1 = (1, none) :=
  ⟨⟨by decide, sampleService_exactAt_sampleNow, by decide, by decide⟩,
    (C25_refresh_token_as_bearer samplePlatform sampleService DB.empty sampleNow sampleNow
      sampleNow 1 (sampleNow.Add (6 * 24 * Hour)) (by decide) sampleService_exactAt_sampleNow
      (by decide)).1⟩

/-- C25, as stated, fails: for the int64 user id `2^53 + 1`, the refresh token that
`GenerateTokens` returns validates, before its expiry, to `2^53`. -/
theorem C25_counterexample :
    IsInt64 9007199254740993 ∧
    sampleNow < Time.ofUnix (sampleNow.Add sampleService.cfg.RefreshTokenTTL).Unix ∧
    AuthService.ValidateToken samplePlatform sampleService sampleNow
      (AuthService.GenerateTokens samplePlatform sampleService DB.empty sampleNow sampleNow
        sampleNow none 9007199254740993).1.2.1 = (9007199254740992, none) := by
  refine ⟨by unfold IsInt64; decide, by decide, ?_⟩
  rw [GenerateTokens_eq]
  show AuthService.ValidateToken samplePlatform sampleService sampleNow
    (signedToken samplePlatform (sampleService.refreshClaims sampleNow 9007199254740993)
      (toBytes sampleService.cfg.Secret)) = (9007199254740992, none)
  rw [ValidateToken_signedToken_before samplePlatform sampleService _
    (refreshClaims_finite _ _ _ sampleService_exactAt_sampleNow
      (Float64Finite_of_int64 _ (by unfold IsInt64; decide)))
    sampleService_exactAt_sampleNow.2.2 _ (by decide)]
  decide

/-! ### Expiry of arbitrary tokens -/

/-- What the claims validator does with a numeric `exp` other than 0. -/
theorem verifyExpiresAt_num (claims : JObject) (f : Float64) (now : Time)
    (hexp : claims.get "exp" = some (.num f)) (hf : f.num ≠ 0) :
    verifyExpiresAt claims now =
      if now < newNumericDateFromSeconds f then none else some ErrTokenExpired := by
  unfold verifyExpiresAt parseNumericDate
  rw [hexp]
  simp only [hf, if_false, Time.Before]
  by_cases h : now < newNumericDateFromSeconds f
  · simp [h]
  · simp [h]

/-- From the instant of a numeric `exp` other than 0 on, the claims validator reports
the token as expired, alone or joined with what it reports for `nbf`. -/
theorem Validate_expired (claims : JObject) (f : Float64) (now : Time)
    (hexp : claims.get "exp" = some (.num f)) (hf : f.num ≠ 0)
    (h : newNumericDateFromSeconds f ≤ now) :
    Validate claims now = some ErrTokenExpired ∨
      ∃ e, Validate claims now = some (.join ErrTokenExpired e) := by
  unfold Validate
  rw [verifyExpiresAt_num claims f now hexp hf, if_neg (not_lt.mpr h)]
  cases verifyNotBefore claims now with
  | none => exact Or.inl rfl
  | some e => exact Or.inr ⟨e, rfl⟩

/-- Claims that pass the validator with a numeric `exp` other than 0: the instant is
before the expiry. -/
theorem Validate_none_exp (claims : JObject) (f : Float64) (now : Time)
    (hexp : claims.get "exp" = some (.num f)) (hf : f.num ≠ 0)
    (hv : Validate claims now = none) : now < newNumericDateFromSeconds f := by
  by_contra hlt
  rcases Validate_expired claims f now hexp hf (not_lt.mp hlt) with h | ⟨e, h⟩
  · rw [h] at hv; cases hv
  · rw [h] at hv; cases hv

/-- A token that the codec accepts at one instant is, at any instant, rejected exactly
when its claims fail the validator at that instant. -/
theorem ParseWithClaims_at (P : Platform) (tok : String) (key : Bytes) (now1 now2 : Time)
    (claims : JObject) (h1 : ParseWithClaims P tok key now1 = .ok claims) :
    ParseWithClaims P tok key now2 =
      match Validate claims now2 with
      | some e => .error (.join ErrTokenInvalidClaims e)
      | none => .ok claims := by
  unfold ParseWithClaims at h1 ⊢
  repeat' split at h1
  all_goals try (simp at h1; done)
  all_goals simp_all

theorem ParseWithClaims_valid (P : Platform) (tok : String) (key : Bytes) (now : Time)
    (claims : JObject) (h : ParseWithClaims P tok key now = .ok claims) :
    Validate claims now = none := by
  have h2 := ParseWithClaims_at P tok key now now claims h
  rw [h] at h2
  cases hv : Validate claims now with
  | none => rfl
  | some e => rw [hv] at h2; cases h2

/-- A successful `ValidateToken` comes from a successful `ParseWithClaims`. -/
theorem ValidateToken_parsed (P : Platform) (s : AuthService) (now : Time) (tok : String)
    (uid : Int) (h : AuthService.ValidateToken P s now tok = (uid, none)) :
    ∃ claims, ParseWithClaims P tok (toBytes s.cfg.Secret) now = .ok claims := by
  unfold AuthService.ValidateToken at h
  cases hp : ParseWithClaims P tok (toBytes s.cfg.Secret) now with
  | error e => rw [hp] at h; simp at h
  | ok claims => exact ⟨claims, rfl⟩

/-- `ValidateToken` on a token that the codec rejects. -/
theorem ValidateToken_error (P : Platform) (s : AuthService) (now : Time) (tok : String)
    (e : GoError) (h : ParseWithClaims P tok (toBytes s.cfg.Secret) now = .error e) :
    AuthService.ValidateToken P s now tok = (0, some (.wrap "invalid token" e)) := by
  unfold AuthService.ValidateToken
  rw [h]

/-- The instant of a whole number of seconds within the range of `time.Unix`. -/
theorem numericDate_seconds (n : Int) (h0 : -(2 ^ 63) ≤ n) (h1 : n + unixToInternal < 2 ^ 63) :
    newNumericDateFromSeconds (n : Float64) = n * 1000000000 := by
  have h63 : (2 : Int) ^ 63 = 9223372036854775808 := by norm_num
  have h1' : n + 62135596800 < (2 : Int) ^ 63 := h1
  rw [h63] at h0 h1'
  have hi : int64OfFloat64 (n : Float64) = n := by
    unfold int64OfFloat64
    rw [trunc_int, if_pos]
    rw [h63]
    constructor <;> omega
  rw [newNumericDateFromSeconds_int, hi]
  apply ofUnix_eq
  show -(2 : Int) ^ 63 ≤ n + 62135596800 ∧ n + 62135596800 < (2 : Int) ^ 63
  rw [h63]
  constructor <;> omega

theorem Is_expired (e : GoError)
    (h : e = ErrTokenExpired ∨ ∃ e2, e = .join ErrTokenExpired e2) :
    e.Is ErrTokenExpired = true := by
  rcases h with h | ⟨e2, h⟩
  · subst h
    decide
  · subst h
    unfold GoError.Is
    have : GoError.Is ErrTokenExpired ErrTokenExpired = true := by decide
    simp [this]

/-- A token whose claims fail the validator for their `exp`: the error of
`ValidateToken`. -/
theorem ValidateToken_expired (P : Platform) (s : AuthService) (now : Time) (tok : String)
    (claims : JObject) (f : Float64)
    (hparse : ParseWithClaims P tok (toBytes s.cfg.Secret) now =
      match Validate claims now with
      | some e => .error (.join ErrTokenInvalidClaims e)
      | none => .ok claims)
    (hexp : claims.get "exp" = some (.num f)) (hf : f.num ≠ 0)
    (h : newNumericDateFromSeconds f ≤ now) :
    ∃ e, AuthService.ValidateToken P s now tok =
        (0, some (.wrap "invalid token" (.join ErrTokenInvalidClaims e))) ∧
      e.Is ErrTokenExpired = true := by
  rcases Validate_expired claims f now hexp hf h with hv | ⟨e2, hv⟩
  · rw [hv] at hparse
    exact ⟨_, ValidateToken_error P s now tok _ hparse, Is_expired _ (Or.inl rfl)⟩
  · rw [hv] at hparse
    exact ⟨_, ValidateToken_error P s now tok _ hparse, Is_expired _ (Or.inr ⟨e2, rfl⟩)⟩

/-- The expiry is compared as the float64 that the claims text is read as: a token
whose `exp` is the Unix second `2^53 + 3` is read with the expiry `2^53 + 4` and
validates at the second `2^53 + 3`. -/
theorem exp_read_as_float64 :
    AuthService.ValidateToken samplePlatform sampleService (9007199254740995 * 1000000000)
      (signedToken samplePlatform ⟨1, 0, 9007199254740995⟩ (toBytes sampleService.cfg.Secret)) =
        (1, none) := by
  rw [ValidateToken_signedToken samplePlatform sampleService ⟨1, 0, 9007199254740995⟩
    (claims_finite_of_int64 _ (by unfold IsInt64; decide) (by unfold IsInt64; decide)
      (by unfold IsInt64; decide))]
  rw [Validate_decoded]
  decide

/-- From the Unix second `n` on, the expiry instant of a whole number `n` of seconds has
passed, also where `int64(n)` or `time.Unix` wrap; the instant is one that
`time.Time` holds. -/
theorem numericDate_le_of_seconds (n : Int) (now : Time)
    (hnow : -(2 ^ 63) * 1000000000 ≤ now) (h : n * 1000000000 ≤ now) :
    newNumericDateFromSeconds (n : Float64) ≤ now := by
  have h63 : (2 : Int) ^ 63 = 9223372036854775808 := by norm_num
  have h64 : (2 : Int) ^ 64 = 18446744073709551616 := by norm_num
  rw [newNumericDateFromSeconds_int]
  unfold int64OfFloat64
  rw [trunc_int]
  unfold Time.ofUnix wrapInt64 unixToInternal
  have hnow' : (-9223372036854775808000000000 : Int) ≤ now := by
    have h2 := hnow
    norm_num at h2
    exact h2
  rw [h63, h64]
  split
  · rename_i hr
    show ((n + 62135596800 + 9223372036854775808) % 18446744073709551616 -
      9223372036854775808 - 62135596800) * 1000000000 ≤ now
    omega
  · have hm : ((-9223372036854775808 + 62135596800 + 9223372036854775808 : Int) %
        18446744073709551616) = 62135596800 := by norm_num
    rw [hm]
    show ((62135596800 : Int) - 9223372036854775808 - 62135596800) * 1000000000 ≤ now
    omega

/-- C4 (amended): for a token with a numeric `exp` other than 0, whatever else its claims
and its header hold, `ValidateToken` succeeds only at an instant strictly before the
expiry instant that the library derives from `exp`, the float64 the claim is read as,
cut to a whole second; for a whole number of seconds in the range of `time.Unix` that
instant is the Unix second `exp` itself, and for every whole number of seconds it has
passed at every instant, of those a `time.Time` holds, from the Unix second `exp` on.
From that instant on a token that the codec
accepts at some instant, and every claims text signed with the service's secret, is
rejected with an error that wraps the library's expired error. The access token issued at
`t`, when its `exp` is exact in float64 and not 0, is rejected as expired at every instant
after `t` plus the access horizon. -/
theorem C4_expired_token_rejected (P : Platform) (s : AuthService) (now : Time) :
    (∀ (tok : String) (uid : Int), AuthService.ValidateToken P s now tok = (uid, none) →
      ∃ claims, ParseWithClaims P tok (toBytes s.cfg.Secret) now = .ok claims ∧
        ∀ f, claims.get "exp" = some (.num f) → f.num ≠ 0 →
          now < newNumericDateFromSeconds f) ∧
    (∀ (tok : String) (earlier : Time) (claims : JObject) (f : Float64),
      ParseWithClaims P tok (toBytes s.cfg.Secret) earlier = .ok claims →
      claims.get "exp" = some (.num f) → f.num ≠ 0 → newNumericDateFromSeconds f ≤ now →
      ∃ e, AuthService.ValidateToken P s now tok =
          (0, some (.wrap "invalid token" (.join ErrTokenInvalidClaims e))) ∧
        e.Is ErrTokenExpired = true) ∧
    (∀ (payload : List Char) (claims : JObject) (f : Float64),
      Unmarshal (charsToBytes payload) = some claims →
      claims.get "exp" = some (.num f) → f.num ≠ 0 → newNumericDateFromSeconds f ≤ now →
      ∃ e, AuthService.ValidateToken P s now (signedPayload P payload (toBytes s.cfg.Secret)) =
          (0, some (.wrap "invalid token" (.join ErrTokenInvalidClaims e))) ∧
        e.Is ErrTokenExpired = true) ∧
    (∀ n : Int, -(2 ^ 63) ≤ n → n + unixToInternal < 2 ^ 63 →
      newNumericDateFromSeconds (n : Float64) = n * 1000000000) ∧
    (∀ n : Int, -(2 ^ 63) * 1000000000 ≤ now → n * 1000000000 ≤ now →
      newNumericDateFromSeconds (n : Float64) ≤ now) ∧
    (∀ db t createNow1 createNow2 u, (s.accessClaims t u).Finite →
      Float64Exact (s.accessClaims t u).exp → (s.accessClaims t u).exp ≠ 0 →
      t.Add s.cfg.AccessTokenTTL < now →
      AuthService.ValidateToken P s now
          (AuthService.GenerateTokens P s db t createNow1 createNow2 none u).1.1 =
        (0, some (.wrap "invalid token" (.join ErrTokenInvalidClaims ErrTokenExpired)))) := by
  refine ⟨?_, ?_, ?_, ?_, fun n hnow h => numericDate_le_of_seconds n now hnow h, ?_⟩
  · intro tok uid hv
    obtain ⟨claims, hp⟩ := ValidateToken_parsed P s now tok uid hv
    refine ⟨claims, hp, ?_⟩
    intro f hexp hf
    exact Validate_none_exp claims f now hexp hf (ParseWithClaims_valid P tok _ now claims hp)
  · intro tok earlier claims f hp hexp hf h
    exact ValidateToken_expired P s now tok claims f
      (ParseWithClaims_at P tok _ earlier now claims hp) hexp hf h
  · intro payload claims f hpayload hexp hf h
    exact ValidateToken_expired P s now _ claims f
      (ParseWithClaims_signedPayload P payload claims hpayload _ now) hexp hf h
  · intro n h0 h1
    exact numericDate_seconds n h0 h1
  · intro db t t1 t2 u hc hexact hnonzero hafter
    rw [GenerateTokens_eq]
    show AuthService.ValidateToken P s now
      (signedToken P (s.accessClaims t u) (toBytes s.cfg.Secret)) = _
    rw [ValidateToken_signedToken P s _ hc, Validate_after _ hexact hnonzero now]
    rw [ofUnix_exact _ hexact]
    have h1 : (t.Add s.cfg.AccessTokenTTL) / 1000000000 * 1000000000 ≤
        t.Add s.cfg.AccessTokenTTL := Int.ediv_mul_le _ (by norm_num)
    show (t.Add s.cfg.AccessTokenTTL) / 1000000000 * 1000000000 ≤ now
    exact le_trans h1 (le_of_lt hafter)

/-- C4, witness: a token signed with the service's secret whose claims are a string
`sub`, the fractional `exp` 1700000000.5 and an array, checked at the Unix second
1700000000, the second its expiry is cut to; and the access token issued at that second
with the 15 minute horizon, checked 901 seconds later. -/
theorem C4_expired_token_rejected_witness :
    Unmarshal (charsToBytes "\x7b\"sub\":\"alice\",\"exp\":1700000000.5,\"aud\":[\"a\"]\x7d".data) =
      some [("sub", .str "alice"), ("exp", .num ⟨3400000001, 1⟩), ("aud", .array)] ∧
    newNumericDateFromSeconds ⟨3400000001, 1⟩ = sampleNow ∧
    (∃ e, AuthService.ValidateToken samplePlatform sampleService sampleNow
        (signedPayload samplePlatform
          "\x7b\"sub\":\"alice\",\"exp\":1700000000.5,\"aud\":[\"a\"]\x7d".data
          (toBytes sampleService.cfg.Secret)) =
        (0, some (.wrap "invalid token" (.join ErrTokenInvalidClaims e))) ∧
      e.Is ErrTokenExpired = true) ∧
    AuthService.ValidateToken samplePlatform sampleService (Time.ofUnix 1700000901)
        (AuthService.GenerateTokens samplePlatform sampleService DB.empty sampleNow sampleNow
          sampleNow none 1).1.1 =
      (0, some (.wrap "invalid token" (.join ErrTokenInvalidClaims ErrTokenExpired))) :=
  ⟨by decide, by decide,
    (C4_expired_token_rejected samplePlatform sampleService sampleNow).2.2.1
      "\x7b\"sub\":\"alice\",\"exp\":1700000000.5,\"aud\":[\"a\"]\x7d".data
      [("sub", .str "alice"), ("exp", .num ⟨3400000001, 1⟩), ("aud", .array)]
      ⟨3400000001, 1⟩ (by decide) (by decide) (by decide) (by decide),
    (C4_expired_token_rejected samplePlatform sampleService (Time.ofUnix 1700000901)).2.2.2.2.2
      DB.empty sampleNow sampleNow sampleNow 1
      (accessClaims_finite _ _ _ sampleService_exactAt_sampleNow
        (Float64Finite_of_exact 1 (by decide)))
      sampleService_exactAt_sampleNow.2.1 (by decide) (by decide)⟩

/-- C4, counterexample: a token signed with the service's secret whose `exp` is the Unix
second 0 validates at the Unix second 1700000000, long after that expiry: the library
reads a zero `exp` as no expiry. -/
theorem C4_counterexample :
    Time.ofUnix 0 ≤ Time.ofUnix 1700000000 ∧
    AuthService.ValidateToken samplePlatform sampleService (Time.ofUnix 1700000000)
      (signedToken samplePlatform ⟨1, 0, 0⟩ (toBytes sampleService.cfg.Secret)) =
        (1, none) := by
  refine ⟨by decide, ?_⟩
  rw [ValidateToken_signedToken samplePlatform sampleService ⟨1, 0, 0⟩
    (Finite_of_exact _ (by decide) (by decide) (Float64Finite_of_exact 1 (by decide)))]
  rw [Validate_decoded]
  decide

end GymApp
